import Mathlib

/-!
Shallow embedding of the `we32dis` WE32100 COFF disassembler (Rust sources
`src/we32dis/src/{coff.rs, decode.rs, errors.rs}`) together with theorems
settling the frozen claims about it.

Conventions of the embedding:
* Machine bytes and fixed-width integers are `Nat` (the Rust buffers are
  `[u8]`, so every byte is `< 256`; theorems add this as a hypothesis where
  the value of a byte matters).
* The Rust `std::io::Cursor<&[u8]>` is a pair of the byte list and a
  position; reads that would run off the end return `none` (the Rust side
  returns an `UnexpectedEof` io error whose payload is never inspected).
* Rust methods that mutate `&mut self` are modelled by explicit state
  passing: each function returns the updated value(s) next to its result.
* `decode_descriptor_operand` recurses on mode 14; in Rust the recursion is
  bounded by the finiteness of the byte stream (every recursive call first
  consumes one byte).  The embedding makes this explicit with a fuel
  parameter instantiated with the number of remaining bytes, which is exact:
  fuel runs out precisely when the next one-byte read would fail.
-/

namespace We32dis

/-! ## Byte cursor (C0) -/

structure Cursor where
  data : List Nat
  pos : Nat
deriving DecidableEq

def Cursor.seek (c : Cursor) (p : Nat) : Cursor := ⟨c.data, p⟩

/-- `cursor.read_u8()`: one byte at the current position, advancing by 1. -/
def readU8 (c : Cursor) : Option (Nat × Cursor) :=
  if c.pos < c.data.length then some (c.data.getD c.pos 0, ⟨c.data, c.pos + 1⟩)
  else none

/-- `cursor.read_u16::<LittleEndian>()`. -/
def readU16le (c : Cursor) : Option (Nat × Cursor) := do
  let (b0, c) ← readU8 c
  let (b1, c) ← readU8 c
  some (b0 + b1 * 256, c)

/-- `cursor.read_u32::<LittleEndian>()`. -/
def readU32le (c : Cursor) : Option (Nat × Cursor) := do
  let (b0, c) ← readU8 c
  let (b1, c) ← readU8 c
  let (b2, c) ← readU8 c
  let (b3, c) ← readU8 c
  some (b0 + b1 * 256 + b2 * 65536 + b3 * 16777216, c)

/-- `cursor.read_u16::<BigEndian>()`. -/
def readU16be (c : Cursor) : Option (Nat × Cursor) := do
  let (b0, c) ← readU8 c
  let (b1, c) ← readU8 c
  some (b0 * 256 + b1, c)

/-- `cursor.read_u32::<BigEndian>()`. -/
def readU32be (c : Cursor) : Option (Nat × Cursor) := do
  let (b0, c) ← readU8 c
  let (b1, c) ← readU8 c
  let (b2, c) ← readU8 c
  let (b3, c) ← readU8 c
  some (b0 * 16777216 + b1 * 65536 + b2 * 256 + b3, c)

/-- `cursor.read_exact(&mut buf)` for a buffer of `n` bytes. -/
def readExact (c : Cursor) (n : Nat) : Option (List Nat × Cursor) :=
  if c.pos + n ≤ c.data.length then
    some ((c.data.drop c.pos).take n, ⟨c.data, c.pos + n⟩)
  else none

/-- Little-endian 16-bit value held in the two bytes of `data` at `i`;
used to state what the decoder computes. -/
def leHalfAt (data : List Nat) (i : Nat) : Nat :=
  data.getD i 0 + data.getD (i + 1) 0 * 256

/-- Little-endian 32-bit value held in the four bytes of `data` at `i`. -/
def leWordAt (data : List Nat) (i : Nat) : Nat :=
  data.getD i 0 + data.getD (i + 1) 0 * 256 + data.getD (i + 2) 0 * 65536 +
    data.getD (i + 3) 0 * 16777216

/-! ## Error model (C1, `errors.rs`) -/

/-- `DecodeError` from `errors.rs`; the `IoError` payload is never inspected. -/
inductive DecodeError where
  | ioError
  | parse
deriving DecidableEq

inductive CoffError where
  | badFileHeader
  | badOptionalHeader
  | badSections
  | badSymbols
  | badStrings
deriving DecidableEq

/-- Decode-side one-byte read: an io failure converts to `DecodeError.ioError`
through the `From<io::Error>` impl. -/
def dReadU8 (c : Cursor) : Except DecodeError (Nat × Cursor) :=
  match readU8 c with
  | some r => .ok r
  | none => .error .ioError

def dReadU16le (c : Cursor) : Except DecodeError (Nat × Cursor) :=
  match readU16le c with
  | some r => .ok r
  | none => .error .ioError

def dReadU32le (c : Cursor) : Except DecodeError (Nat × Cursor) :=
  match readU32le c with
  | some r => .ok r
  | none => .error .ioError

/-! ## Instruction decoder data model (`decode.rs`) -/

def R_FP : Nat := 9
def R_AP : Nat := 10

inductive AddrMode where
  | none
  | absolute
  | absoluteDeferred
  | byteDisplacement
  | byteDisplacementDeferred
  | halfwordDisplacement
  | halfwordDisplacementDeferred
  | wordDisplacement
  | wordDisplacementDeferred
  | apShortOffset
  | fpShortOffset
  | byteImmediate
  | halfwordImmediate
  | wordImmediate
  | positiveLiteral
  | negativeLiteral
  | register
  | registerDeferred
deriving DecidableEq

inductive OpType where
  | lit
  | src
  | dest
  | none
deriving DecidableEq

inductive Data where
  | none
  | byte
  | half
  | word
  | sbyte
  | uhalf
  | uword
deriving DecidableEq

structure Operand where
  size : Nat
  mode : AddrMode
  data_type : Data
  expanded_type : Option Data
  register : Option Nat
  embedded : Nat
  cursor : Nat
  bytes : List Nat
deriving DecidableEq

def Operand.new (size : Nat) (mode : AddrMode) (data_type : Data)
    (expanded_type : Option Data) (register : Option Nat) (embedded : Nat) : Operand :=
  ⟨size, mode, data_type, expanded_type, register, embedded, 0, List.replicate 32 0⟩

def Operand.reset (op : Operand) : Operand := { op with cursor := 0 }

def Operand.byte_size (op : Operand) : Nat := op.cursor

def Operand.append_u8 (op : Operand) (b : Nat) : Operand :=
  if op.cursor < 31 then
    { op with bytes := op.bytes.set op.cursor b, cursor := op.cursor + 1 }
  else op

def Operand.append_u16 (op : Operand) (h : Nat) : Operand :=
  if op.cursor < 29 then
    { op with
      bytes := (op.bytes.set op.cursor (h % 256)).set (op.cursor + 1) (h / 256 % 256),
      cursor := op.cursor + 2 }
  else op

def Operand.append_u32 (op : Operand) (w : Nat) : Operand :=
  if op.cursor < 27 then
    { op with
      bytes := (((op.bytes.set op.cursor (w % 256)).set (op.cursor + 1)
        (w / 256 % 256)).set (op.cursor + 2) (w / 65536 % 256)).set (op.cursor + 3)
        (w / 16777216 % 256),
      cursor := op.cursor + 4 }
  else op

structure Mnemonic where
  opcode : Nat
  dtype : Data
  name : String
  ops : List OpType
deriving DecidableEq

structure Instruction where
  opcode : Nat
  name : String
  data_type : Data
  operand_count : Nat
  operands : List Operand
deriving DecidableEq

def defaultOperand : Operand :=
  Operand.new 0 AddrMode.none Data.none Option.none Option.none 0

/-- The `ir` field of `Decoder::new()`. -/
def Decoder.new : Instruction :=
  ⟨0, "???", Data.none, 0, List.replicate 4 defaultOperand⟩

/-! ## Static mnemonic tables (`BYTE_MNEMONICS`, `HALFWORD_MNEMONICS`) -/

/-- The 256-entry byte-opcode table; indices not listed are the `None`
entries of the Rust array. -/
def byteMnemonics : Nat → Option Mnemonic := fun b =>
  match b with
  | 0x00 => some ⟨0x00, Data.none, "halt", [OpType.none, OpType.none, OpType.none, OpType.none]⟩
  | 0x02 => some ⟨0x02, Data.word, "SPOPRD", [OpType.lit, OpType.src, OpType.none, OpType.none]⟩
  | 0x03 => some ⟨0x03, Data.word, "SPOPRD2", [OpType.lit, OpType.src, OpType.dest, OpType.none]⟩
  | 0x04 => some ⟨0x04, Data.word, "MOVAW", [OpType.src, OpType.dest, OpType.none, OpType.none]⟩
  | 0x06 => some ⟨0x06, Data.word, "SPOPRT", [OpType.lit, OpType.src, OpType.none, OpType.none]⟩
  | 0x07 => some ⟨0x07, Data.word, "SPOPT2", [OpType.lit, OpType.src, OpType.dest, OpType.none]⟩
  | 0x08 => some ⟨0x08, Data.none, "RET", [OpType.none, OpType.none, OpType.none, OpType.none]⟩
  | 0x0C => some ⟨0x0C, Data.word, "MOVTRW", [OpType.src, OpType.dest, OpType.none, OpType.none]⟩
  | 0x10 => some ⟨0x10, Data.word, "SAVE", [OpType.src, OpType.none, OpType.none, OpType.none]⟩
  | 0x13 => some ⟨0x13, Data.word, "SPOPWD", [OpType.lit, OpType.dest, OpType.none, OpType.none]⟩
  | 0x14 => some ⟨0x14, Data.byte, "EXTOP", [OpType.none, OpType.none, OpType.none, OpType.none]⟩
  | 0x17 => some ⟨0x17, Data.word, "SPOPWT", [OpType.lit, OpType.dest, OpType.none, OpType.none]⟩
  | 0x18 => some ⟨0x18, Data.none, "RESTORE", [OpType.src, OpType.none, OpType.none, OpType.none]⟩
  | 0x1C => some ⟨0x1C, Data.word, "SWAPWI", [OpType.dest, OpType.none, OpType.none, OpType.none]⟩
  | 0x1E => some ⟨0x1E, Data.half, "SWAPHI", [OpType.dest, OpType.none, OpType.none, OpType.none]⟩
  | 0x1F => some ⟨0x1F, Data.byte, "SWAPBI", [OpType.dest, OpType.none, OpType.none, OpType.none]⟩
  | 0x20 => some ⟨0x20, Data.word, "POPW", [OpType.src, OpType.none, OpType.none, OpType.none]⟩
  | 0x22 => some ⟨0x22, Data.word, "SPOPRS", [OpType.lit, OpType.src, OpType.none, OpType.none]⟩
  | 0x23 => some ⟨0x23, Data.word, "SPOPS2", [OpType.lit, OpType.src, OpType.dest, OpType.none]⟩
  | 0x24 => some ⟨0x24, Data.word, "JMP", [OpType.dest, OpType.none, OpType.none, OpType.none]⟩
  | 0x27 => some ⟨0x27, Data.none, "CFLUSH", [OpType.none, OpType.none, OpType.none, OpType.none]⟩
  | 0x28 => some ⟨0x28, Data.word, "TSTW", [OpType.src, OpType.none, OpType.none, OpType.none]⟩
  | 0x2A => some ⟨0x2A, Data.half, "TSTH", [OpType.src, OpType.none, OpType.none, OpType.none]⟩
  | 0x2B => some ⟨0x2B, Data.byte, "TSTB", [OpType.src, OpType.none, OpType.none, OpType.none]⟩
  | 0x2C => some ⟨0x2C, Data.word, "CALL", [OpType.src, OpType.dest, OpType.none, OpType.none]⟩
  | 0x2E => some ⟨0x2E, Data.none, "BPT", [OpType.none, OpType.none, OpType.none, OpType.none]⟩
  | 0x2F => some ⟨0x2F, Data.none, "WAIT", [OpType.none, OpType.none, OpType.none, OpType.none]⟩
  | 0x32 => some ⟨0x32, Data.word, "SPOP", [OpType.lit, OpType.none, OpType.none, OpType.none]⟩
  | 0x33 => some ⟨0x33, Data.word, "SPOPWS", [OpType.lit, OpType.dest, OpType.none, OpType.none]⟩
  | 0x34 => some ⟨0x34, Data.word, "JSB", [OpType.dest, OpType.none, OpType.none, OpType.none]⟩
  | 0x36 => some ⟨0x36, Data.half, "BSBH", [OpType.lit, OpType.none, OpType.none, OpType.none]⟩
  | 0x37 => some ⟨0x37, Data.byte, "BSBB", [OpType.lit, OpType.none, OpType.none, OpType.none]⟩
  | 0x38 => some ⟨0x38, Data.word, "BITW", [OpType.src, OpType.src, OpType.none, OpType.none]⟩
  | 0x3A => some ⟨0x3A, Data.half, "BITH", [OpType.src, OpType.src, OpType.none, OpType.none]⟩
  | 0x3B => some ⟨0x3B, Data.byte, "BITB", [OpType.src, OpType.src, OpType.none, OpType.none]⟩
  | 0x3C => some ⟨0x3C, Data.word, "CMPW", [OpType.src, OpType.src, OpType.none, OpType.none]⟩
  | 0x3E => some ⟨0x3E, Data.half, "CMPH", [OpType.src, OpType.src, OpType.none, OpType.none]⟩
  | 0x3F => some ⟨0x3F, Data.byte, "CMPB", [OpType.src, OpType.src, OpType.none, OpType.none]⟩
  | 0x40 => some ⟨0x40, Data.none, "RGEQ", [OpType.none, OpType.none, OpType.none, OpType.none]⟩
  | 0x42 => some ⟨0x42, Data.half, "BGEH", [OpType.lit, OpType.none, OpType.none, OpType.none]⟩
  | 0x43 => some ⟨0x43, Data.byte, "BGEB", [OpType.lit, OpType.none, OpType.none, OpType.none]⟩
  | 0x44 => some ⟨0x44, Data.none, "RGTR", [OpType.none, OpType.none, OpType.none, OpType.none]⟩
  | 0x46 => some ⟨0x46, Data.half, "BGH", [OpType.lit, OpType.none, OpType.none, OpType.none]⟩
  | 0x47 => some ⟨0x47, Data.byte, "BGB", [OpType.lit, OpType.none, OpType.none, OpType.none]⟩
  | 0x48 => some ⟨0x48, Data.none, "RLSS", [OpType.none, OpType.none, OpType.none, OpType.none]⟩
  | 0x4A => some ⟨0x4A, Data.half, "BLH", [OpType.lit, OpType.none, OpType.none, OpType.none]⟩
  | 0x4B => some ⟨0x4B, Data.byte, "BLB", [OpType.lit, OpType.none, OpType.none, OpType.none]⟩
  | 0x4C => some ⟨0x4C, Data.none, "RLEQ", [OpType.none, OpType.none, OpType.none, OpType.none]⟩
  | 0x4E => some ⟨0x4E, Data.half, "BLEH", [OpType.lit, OpType.none, OpType.none, OpType.none]⟩
  | 0x4F => some ⟨0x4F, Data.byte, "BLEB", [OpType.lit, OpType.none, OpType.none, OpType.none]⟩
  | 0x50 => some ⟨0x50, Data.none, "RGEQU", [OpType.none, OpType.none, OpType.none, OpType.none]⟩
  | 0x52 => some ⟨0x52, Data.half, "BGEUH", [OpType.lit, OpType.none, OpType.none, OpType.none]⟩
  | 0x53 => some ⟨0x53, Data.byte, "BGEUB", [OpType.lit, OpType.none, OpType.none, OpType.none]⟩
  | 0x54 => some ⟨0x54, Data.none, "RGTRU", [OpType.none, OpType.none, OpType.none, OpType.none]⟩
  | 0x56 => some ⟨0x56, Data.half, "BGUH", [OpType.lit, OpType.none, OpType.none, OpType.none]⟩
  | 0x57 => some ⟨0x57, Data.byte, "BGUB", [OpType.lit, OpType.none, OpType.none, OpType.none]⟩
  | 0x58 => some ⟨0x58, Data.none, "RLSSU", [OpType.none, OpType.none, OpType.none, OpType.none]⟩
  | 0x5A => some ⟨0x5A, Data.half, "BLUH", [OpType.lit, OpType.none, OpType.none, OpType.none]⟩
  | 0x5B => some ⟨0x5B, Data.byte, "BLUB", [OpType.lit, OpType.none, OpType.none, OpType.none]⟩
  | 0x5C => some ⟨0x5C, Data.none, "RLEQU", [OpType.none, OpType.none, OpType.none, OpType.none]⟩
  | 0x5E => some ⟨0x5E, Data.half, "BLEUH", [OpType.lit, OpType.none, OpType.none, OpType.none]⟩
  | 0x5F => some ⟨0x5F, Data.byte, "BLEUB", [OpType.lit, OpType.none, OpType.none, OpType.none]⟩
  | 0x60 => some ⟨0x60, Data.none, "RVC", [OpType.none, OpType.none, OpType.none, OpType.none]⟩
  | 0x62 => some ⟨0x62, Data.half, "BVCH", [OpType.lit, OpType.none, OpType.none, OpType.none]⟩
  | 0x63 => some ⟨0x63, Data.byte, "BVCB", [OpType.lit, OpType.none, OpType.none, OpType.none]⟩
  | 0x64 => some ⟨0x64, Data.none, "RNEQU", [OpType.none, OpType.none, OpType.none, OpType.none]⟩
  | 0x66 => some ⟨0x66, Data.half, "BNEH", [OpType.lit, OpType.none, OpType.none, OpType.none]⟩
  | 0x67 => some ⟨0x67, Data.byte, "BNEB", [OpType.lit, OpType.none, OpType.none, OpType.none]⟩
  | 0x68 => some ⟨0x68, Data.none, "RVS", [OpType.none, OpType.none, OpType.none, OpType.none]⟩
  | 0x6A => some ⟨0x6A, Data.half, "BVSH", [OpType.lit, OpType.none, OpType.none, OpType.none]⟩
  | 0x6B => some ⟨0x6B, Data.byte, "BVSB", [OpType.lit, OpType.none, OpType.none, OpType.none]⟩
  | 0x6C => some ⟨0x6C, Data.none, "REQLU", [OpType.none, OpType.none, OpType.none, OpType.none]⟩
  | 0x6E => some ⟨0x6E, Data.half, "BEH", [OpType.lit, OpType.none, OpType.none, OpType.none]⟩
  | 0x6F => some ⟨0x6F, Data.byte, "BEB", [OpType.lit, OpType.none, OpType.none, OpType.none]⟩
  | 0x70 => some ⟨0x70, Data.none, "NOP", [OpType.none, OpType.none, OpType.none, OpType.none]⟩
  | 0x72 => some ⟨0x72, Data.none, "NOP3", [OpType.none, OpType.none, OpType.none, OpType.none]⟩
  | 0x73 => some ⟨0x73, Data.none, "NOP2", [OpType.none, OpType.none, OpType.none, OpType.none]⟩
  | 0x74 => some ⟨0x74, Data.none, "RNEQ", [OpType.none, OpType.none, OpType.none, OpType.none]⟩
  | 0x76 => some ⟨0x76, Data.half, "BNEH", [OpType.lit, OpType.none, OpType.none, OpType.none]⟩
  | 0x77 => some ⟨0x77, Data.byte, "BNEB", [OpType.lit, OpType.none, OpType.none, OpType.none]⟩
  | 0x78 => some ⟨0x78, Data.none, "RSB", [OpType.none, OpType.none, OpType.none, OpType.none]⟩
  | 0x7A => some ⟨0x7A, Data.half, "BRH", [OpType.lit, OpType.none, OpType.none, OpType.none]⟩
  | 0x7B => some ⟨0x7B, Data.byte, "BRB", [OpType.lit, OpType.none, OpType.none, OpType.none]⟩
  | 0x7C => some ⟨0x7C, Data.none, "REQL", [OpType.none, OpType.none, OpType.none, OpType.none]⟩
  | 0x7E => some ⟨0x7E, Data.half, "BEH", [OpType.lit, OpType.none, OpType.none, OpType.none]⟩
  | 0x7F => some ⟨0x7F, Data.byte, "BEB", [OpType.lit, OpType.none, OpType.none, OpType.none]⟩
  | 0x80 => some ⟨0x80, Data.word, "CLRW", [OpType.dest, OpType.none, OpType.none, OpType.none]⟩
  | 0x82 => some ⟨0x82, Data.half, "CLRH", [OpType.dest, OpType.none, OpType.none, OpType.none]⟩
  | 0x83 => some ⟨0x83, Data.byte, "CLRB", [OpType.dest, OpType.none, OpType.none, OpType.none]⟩
  | 0x84 => some ⟨0x84, Data.word, "MOVW", [OpType.src, OpType.dest, OpType.none, OpType.none]⟩
  | 0x86 => some ⟨0x86, Data.half, "MOVH", [OpType.src, OpType.dest, OpType.none, OpType.none]⟩
  | 0x87 => some ⟨0x87, Data.byte, "MOVB", [OpType.src, OpType.dest, OpType.none, OpType.none]⟩
  | 0x88 => some ⟨0x88, Data.word, "MCOMW", [OpType.src, OpType.dest, OpType.none, OpType.none]⟩
  | 0x8A => some ⟨0x8A, Data.half, "MCOMH", [OpType.src, OpType.dest, OpType.none, OpType.none]⟩
  | 0x8B => some ⟨0x8B, Data.byte, "MCOMB", [OpType.src, OpType.dest, OpType.none, OpType.none]⟩
  | 0x8C => some ⟨0x8C, Data.word, "MNEGW", [OpType.src, OpType.dest, OpType.none, OpType.none]⟩
  | 0x8E => some ⟨0x8E, Data.half, "MNEGH", [OpType.src, OpType.dest, OpType.none, OpType.none]⟩
  | 0x8F => some ⟨0x8F, Data.byte, "MNEGB", [OpType.src, OpType.dest, OpType.none, OpType.none]⟩
  | 0x90 => some ⟨0x90, Data.word, "INCW", [OpType.dest, OpType.none, OpType.none, OpType.none]⟩
  | 0x92 => some ⟨0x92, Data.half, "INCH", [OpType.dest, OpType.none, OpType.none, OpType.none]⟩
  | 0x93 => some ⟨0x93, Data.byte, "INCB", [OpType.dest, OpType.none, OpType.none, OpType.none]⟩
  | 0x94 => some ⟨0x94, Data.word, "DECW", [OpType.dest, OpType.none, OpType.none, OpType.none]⟩
  | 0x96 => some ⟨0x96, Data.half, "DECH", [OpType.dest, OpType.none, OpType.none, OpType.none]⟩
  | 0x97 => some ⟨0x97, Data.byte, "DECB", [OpType.dest, OpType.none, OpType.none, OpType.none]⟩
  | 0x9C => some ⟨0x9C, Data.word, "ADDW2", [OpType.src, OpType.dest, OpType.none, OpType.none]⟩
  | 0x9E => some ⟨0x9E, Data.half, "ADDH2", [OpType.src, OpType.dest, OpType.none, OpType.none]⟩
  | 0x9F => some ⟨0x9F, Data.byte, "ADDB2", [OpType.src, OpType.dest, OpType.none, OpType.none]⟩
  | 0xA0 => some ⟨0xA0, Data.word, "PUSHW", [OpType.src, OpType.none, OpType.none, OpType.none]⟩
  | 0xA4 => some ⟨0xA4, Data.word, "MODW2", [OpType.src, OpType.dest, OpType.none, OpType.none]⟩
  | 0xA6 => some ⟨0xA6, Data.half, "MODH2", [OpType.src, OpType.dest, OpType.none, OpType.none]⟩
  | 0xA7 => some ⟨0xA7, Data.byte, "MODB2", [OpType.src, OpType.dest, OpType.none, OpType.none]⟩
  | 0xA8 => some ⟨0xA8, Data.word, "MULW2", [OpType.src, OpType.dest, OpType.none, OpType.none]⟩
  | 0xAA => some ⟨0xAA, Data.half, "MULH2", [OpType.src, OpType.dest, OpType.none, OpType.none]⟩
  | 0xAB => some ⟨0xAB, Data.byte, "MULB2", [OpType.src, OpType.dest, OpType.none, OpType.none]⟩
  | 0xAC => some ⟨0xAC, Data.word, "DIVW2", [OpType.src, OpType.dest, OpType.none, OpType.none]⟩
  | 0xAE => some ⟨0xAE, Data.half, "DIVH2", [OpType.src, OpType.dest, OpType.none, OpType.none]⟩
  | 0xAF => some ⟨0xAF, Data.byte, "DIVB2", [OpType.src, OpType.dest, OpType.none, OpType.none]⟩
  | 0xB0 => some ⟨0xB0, Data.word, "ORW2", [OpType.src, OpType.dest, OpType.none, OpType.none]⟩
  | 0xB2 => some ⟨0xB2, Data.half, "ORH2", [OpType.src, OpType.dest, OpType.none, OpType.none]⟩
  | 0xB3 => some ⟨0xB3, Data.byte, "ORB2", [OpType.src, OpType.dest, OpType.none, OpType.none]⟩
  | 0xB4 => some ⟨0xB4, Data.word, "XORW2", [OpType.src, OpType.dest, OpType.none, OpType.none]⟩
  | 0xB6 => some ⟨0xB6, Data.half, "XORH2", [OpType.src, OpType.dest, OpType.none, OpType.none]⟩
  | 0xB7 => some ⟨0xB7, Data.byte, "XORB2", [OpType.src, OpType.dest, OpType.none, OpType.none]⟩
  | 0xB8 => some ⟨0xB8, Data.word, "ANDW2", [OpType.src, OpType.dest, OpType.none, OpType.none]⟩
  | 0xBA => some ⟨0xBA, Data.half, "ANDH2", [OpType.src, OpType.dest, OpType.none, OpType.none]⟩
  | 0xBB => some ⟨0xBB, Data.byte, "ANDB2", [OpType.src, OpType.dest, OpType.none, OpType.none]⟩
  | 0xBC => some ⟨0xBC, Data.word, "SUBW2", [OpType.src, OpType.dest, OpType.none, OpType.none]⟩
  | 0xBE => some ⟨0xBE, Data.half, "SUBH2", [OpType.src, OpType.dest, OpType.none, OpType.none]⟩
  | 0xBF => some ⟨0xBF, Data.byte, "SUBB2", [OpType.src, OpType.dest, OpType.none, OpType.none]⟩
  | 0xC0 => some ⟨0xC0, Data.word, "ALSW3", [OpType.src, OpType.src, OpType.dest, OpType.none]⟩
  | 0xC4 => some ⟨0xC4, Data.word, "ARSW3", [OpType.src, OpType.src, OpType.dest, OpType.none]⟩
  | 0xC6 => some ⟨0xC6, Data.half, "ARSH3", [OpType.src, OpType.src, OpType.dest, OpType.none]⟩
  | 0xC7 => some ⟨0xC7, Data.byte, "ARSB3", [OpType.src, OpType.src, OpType.dest, OpType.none]⟩
  | 0xC8 => some ⟨0xC8, Data.word, "INSFW", [OpType.src, OpType.src, OpType.src, OpType.dest]⟩
  | 0xCA => some ⟨0xCA, Data.half, "INSFH", [OpType.src, OpType.src, OpType.src, OpType.dest]⟩
  | 0xCB => some ⟨0xCB, Data.byte, "INSFB", [OpType.src, OpType.src, OpType.src, OpType.dest]⟩
  | 0xCC => some ⟨0xCC, Data.word, "EXTFW", [OpType.src, OpType.src, OpType.src, OpType.dest]⟩
  | 0xCE => some ⟨0xCE, Data.half, "EXTFH", [OpType.src, OpType.src, OpType.src, OpType.dest]⟩
  | 0xCF => some ⟨0xCF, Data.byte, "EXTFB", [OpType.src, OpType.src, OpType.src, OpType.dest]⟩
  | 0xD0 => some ⟨0xD0, Data.word, "LLSW3", [OpType.src, OpType.src, OpType.dest, OpType.none]⟩
  | 0xD2 => some ⟨0xD2, Data.half, "LLSH3", [OpType.src, OpType.src, OpType.dest, OpType.none]⟩
  | 0xD3 => some ⟨0xD3, Data.byte, "LLSB3", [OpType.src, OpType.src, OpType.dest, OpType.none]⟩
  | 0xD4 => some ⟨0xD4, Data.word, "LRSW3", [OpType.src, OpType.src, OpType.dest, OpType.none]⟩
  | 0xD8 => some ⟨0xD8, Data.word, "ROTW", [OpType.src, OpType.src, OpType.dest, OpType.none]⟩
  | 0xDC => some ⟨0xDC, Data.word, "ADDW3", [OpType.src, OpType.src, OpType.dest, OpType.none]⟩
  | 0xDE => some ⟨0xDE, Data.half, "ADDH3", [OpType.src, OpType.src, OpType.dest, OpType.none]⟩
  | 0xDF => some ⟨0xDF, Data.byte, "ADDB3", [OpType.src, OpType.src, OpType.dest, OpType.none]⟩
  | 0xE0 => some ⟨0xE0, Data.word, "PUSHAW", [OpType.src, OpType.none, OpType.none, OpType.none]⟩
  | 0xE4 => some ⟨0xE4, Data.word, "MODW3", [OpType.src, OpType.src, OpType.dest, OpType.none]⟩
  | 0xE6 => some ⟨0xE6, Data.half, "MODH3", [OpType.src, OpType.src, OpType.dest, OpType.none]⟩
  | 0xE7 => some ⟨0xE7, Data.byte, "MODB3", [OpType.src, OpType.src, OpType.dest, OpType.none]⟩
  | 0xE8 => some ⟨0xE8, Data.word, "MULW3", [OpType.src, OpType.src, OpType.dest, OpType.none]⟩
  | 0xEA => some ⟨0xEA, Data.half, "MULH3", [OpType.src, OpType.src, OpType.dest, OpType.none]⟩
  | 0xEB => some ⟨0xEB, Data.byte, "MULB3", [OpType.src, OpType.src, OpType.dest, OpType.none]⟩
  | 0xEC => some ⟨0xEC, Data.word, "DIVW3", [OpType.src, OpType.src, OpType.dest, OpType.none]⟩
  | 0xEE => some ⟨0xEE, Data.half, "DIVH3", [OpType.src, OpType.src, OpType.dest, OpType.none]⟩
  | 0xEF => some ⟨0xEF, Data.byte, "DIVB3", [OpType.src, OpType.src, OpType.dest, OpType.none]⟩
  | 0xF0 => some ⟨0xF0, Data.word, "ORW3", [OpType.src, OpType.src, OpType.dest, OpType.none]⟩
  | 0xF2 => some ⟨0xF2, Data.half, "ORH3", [OpType.src, OpType.src, OpType.dest, OpType.none]⟩
  | 0xF3 => some ⟨0xF3, Data.byte, "ORB3", [OpType.src, OpType.src, OpType.dest, OpType.none]⟩
  | 0xF4 => some ⟨0xF4, Data.word, "XORW3", [OpType.src, OpType.src, OpType.dest, OpType.none]⟩
  | 0xF6 => some ⟨0xF6, Data.half, "XORH3", [OpType.src, OpType.src, OpType.dest, OpType.none]⟩
  | 0xF7 => some ⟨0xF7, Data.byte, "XORB3", [OpType.src, OpType.src, OpType.dest, OpType.none]⟩
  | 0xF8 => some ⟨0xF8, Data.word, "ANDW3", [OpType.src, OpType.src, OpType.dest, OpType.none]⟩
  | 0xFA => some ⟨0xFA, Data.half, "ANDH3", [OpType.src, OpType.src, OpType.dest, OpType.none]⟩
  | 0xFB => some ⟨0xFB, Data.byte, "ANDB3", [OpType.src, OpType.src, OpType.dest, OpType.none]⟩
  | 0xFC => some ⟨0xFC, Data.word, "SUBW3", [OpType.src, OpType.src, OpType.dest, OpType.none]⟩
  | 0xFE => some ⟨0xFE, Data.half, "SUBH3", [OpType.src, OpType.src, OpType.dest, OpType.none]⟩
  | 0xFF => some ⟨0xFF, Data.byte, "SUBB3", [OpType.src, OpType.src, OpType.dest, OpType.none]⟩
  | _ => Option.none

/-- `HALFWORD_MNEMONICS`, an array of 11 `Some` entries searched linearly. -/
def halfwordMnemonics : List (Option Mnemonic) := [
  some ⟨0x3009, Data.none, "MVERNO", [OpType.none, OpType.none, OpType.none, OpType.none]⟩,
  some ⟨0x300d, Data.none, "ENBVJMP", [OpType.none, OpType.none, OpType.none, OpType.none]⟩,
  some ⟨0x3013, Data.none, "DISVJMP", [OpType.none, OpType.none, OpType.none, OpType.none]⟩,
  some ⟨0x3019, Data.none, "MOVBLW", [OpType.none, OpType.none, OpType.none, OpType.none]⟩,
  some ⟨0x301f, Data.none, "STREND", [OpType.none, OpType.none, OpType.none, OpType.none]⟩,
  some ⟨0x302f, Data.none, "INTACK", [OpType.none, OpType.none, OpType.none, OpType.none]⟩,
  some ⟨0x303f, Data.none, "STRCPY", [OpType.none, OpType.none, OpType.none, OpType.none]⟩,
  some ⟨0x3045, Data.none, "RETG", [OpType.none, OpType.none, OpType.none, OpType.none]⟩,
  some ⟨0x3061, Data.none, "GATE", [OpType.none, OpType.none, OpType.none, OpType.none]⟩,
  some ⟨0x30ac, Data.none, "CALLPS", [OpType.none, OpType.none, OpType.none, OpType.none]⟩,
  some ⟨0x30c8, Data.none, "RETPS", [OpType.none, OpType.none, OpType.none, OpType.none]⟩
]

/-- The linear search over `HALFWORD_MNEMONICS` in `decode_instruction`
(first entry that is `Some` and whose opcode matches). -/
def findHalfwordMnemonic (opcode : Nat) : Option Mnemonic :=
  (halfwordMnemonics.find? (fun m =>
    match m with
    | some mn => mn.opcode == opcode
    | Option.none => false)).join

/-! ## Operand decoding (`Decoder::decode_literal_operand`,
`Decoder::decode_descriptor_operand`) -/

/-- `Decoder::decode_literal_operand`, acting on the operand slot it mutates. -/
def decodeLiteralOperand (c : Cursor) (op : Operand) (mn : Mnemonic) :
    Except DecodeError (Operand × Cursor) :=
  let op := { op with
    mode := AddrMode.none, data_type := Data.byte,
    expanded_type := Option.none, register := Option.none }
  match mn.dtype with
  | Data.byte =>
    match dReadU8 c with
    | .ok (b, c) => .ok (({ op with embedded := b }).append_u8 b, c)
    | .error e => .error e
  | Data.half =>
    match dReadU16le c with
    | .ok (h, c) => .ok (({ op with embedded := h }).append_u16 h, c)
    | .error e => .error e
  | Data.word =>
    match dReadU32le c with
    | .ok (w, c) => .ok (({ op with embedded := w }).append_u32 w, c)
    | .error e => .error e
  | _ => .error DecodeError.parse

/-- `Decoder::decode_descriptor_operand`, fuel-indexed.  The Rust function
recurses (mode 14) after consuming exactly one byte, so with fuel equal to the
number of bytes left on the cursor the `0` case coincides with the one-byte
read failing; see `decodeDescriptorOperand` below.  The Rust `match m` and
`match r` arms are rendered as equivalent if-chains (`m ≤ 3` covers the
grouped `0 | 1 | 2 | 3` arm; the final `else` is the unreachable `_` arm). -/
def decodeDescriptorOperandF : Nat → Cursor → Operand → Data → Option Data → Bool →
    Except DecodeError (Operand × Cursor)
  | 0, _, _, _, _, _ => .error DecodeError.ioError
  | fuel + 1, c, op, dtype, etype, recur =>
    let op := { op with data_type := dtype, expanded_type := etype }
    match dReadU8 c with
    | .error e => .error e
    | .ok (descriptor_byte, c) =>
      let op := op.append_u8 descriptor_byte
      let m := descriptor_byte / 16 % 16
      let r := descriptor_byte % 16
      if m ≤ 3 then
        -- 0 | 1 | 2 | 3: Positive Literal
        .ok ({ op with mode := AddrMode.positiveLiteral, register := Option.none, embedded := descriptor_byte }, c)
      else if m = 4 then
        if r = 15 then
          -- Word Immediate
          match dReadU32le c with
          | .ok (w, c) =>
            .ok (({ op with mode := AddrMode.wordImmediate, register := Option.none, embedded := w }).append_u32 w, c)
          | .error e => .error e
        else
          -- Register
          .ok ({ op with mode := AddrMode.register, register := some r, embedded := 0 }, c)
      else if m = 5 then
        if r = 15 then
          -- Halfword Immediate
          match dReadU16le c with
          | .ok (h, c) =>
            .ok (({ op with mode := AddrMode.halfwordImmediate, register := Option.none, embedded := h }).append_u16 h, c)
          | .error e => .error e
        else if r = 11 then
          -- Illegal
          .error DecodeError.parse
        else
          -- Register Deferred Mode
          .ok ({ op with mode := AddrMode.registerDeferred, register := some r, embedded := 0 }, c)
      else if m = 6 then
        if r = 15 then
          -- Byte Immediate
          match dReadU8 c with
          | .ok (b, c) =>
            .ok (({ op with mode := AddrMode.byteImmediate, register := Option.none, embedded := b }).append_u8 b, c)
          | .error e => .error e
        else
          -- FP Short Offset
          .ok ({ op with mode := AddrMode.fpShortOffset, register := some R_FP, embedded := r }, c)
      else if m = 7 then
        if r = 15 then
          -- Absolute
          match dReadU32le c with
          | .ok (w, c) =>
            .ok (({ op with mode := AddrMode.absolute, register := Option.none, embedded := w }).append_u32 w, c)
          | .error e => .error e
        else
          -- AP Short Offset
          .ok ({ op with mode := AddrMode.apShortOffset, register := some R_AP, embedded := r }, c)
      else if m = 8 then
        if r = 11 then .error DecodeError.parse
        else
          -- Word Displacement
          match dReadU32le c with
          | .ok (disp, c) =>
            .ok (({ op with mode := AddrMode.wordDisplacement, register := some r, embedded := disp }).append_u32 disp, c)
          | .error e => .error e
      else if m = 9 then
        if r = 11 then .error DecodeError.parse
        else
          -- Word Displacement Deferred
          match dReadU32le c with
          | .ok (disp, c) =>
            .ok (({ op with mode := AddrMode.wordDisplacementDeferred, register := some r, embedded := disp }).append_u32 disp, c)
          | .error e => .error e
      else if m = 10 then
        if r = 11 then .error DecodeError.parse
        else
          -- Halfword Displacement
          match dReadU16le c with
          | .ok (disp, c) =>
            .ok (({ op with mode := AddrMode.halfwordDisplacement, register := some r, embedded := disp }).append_u16 disp, c)
          | .error e => .error e
      else if m = 11 then
        if r = 11 then .error DecodeError.parse
        else
          -- Halfword Displacement Deferred
          match dReadU16le c with
          | .ok (disp, c) =>
            .ok (({ op with mode := AddrMode.halfwordDisplacementDeferred, register := some r, embedded := disp }).append_u16 disp, c)
          | .error e => .error e
      else if m = 12 then
        if r = 11 then .error DecodeError.parse
        else
          -- Byte Displacement
          match dReadU8 c with
          | .ok (disp, c) =>
            .ok (({ op with mode := AddrMode.byteDisplacement, register := some r, embedded := disp }).append_u8 disp, c)
          | .error e => .error e
      else if m = 13 then
        if r = 11 then .error DecodeError.parse
        else
          -- Byte Displacement Deferred
          match dReadU8 c with
          | .ok (disp, c) =>
            .ok (({ op with mode := AddrMode.byteDisplacementDeferred, register := some r, embedded := disp }).append_u8 disp, c)
          | .error e => .error e
      else if m = 14 then
        if r = 0 then decodeDescriptorOperandF fuel c op dtype (some Data.uword) true
        else if r = 2 then decodeDescriptorOperandF fuel c op dtype (some Data.uhalf) true
        else if r = 3 then decodeDescriptorOperandF fuel c op dtype (some Data.byte) true
        else if r = 4 then decodeDescriptorOperandF fuel c op dtype (some Data.word) true
        else if r = 6 then decodeDescriptorOperandF fuel c op dtype (some Data.half) true
        else if r = 7 then decodeDescriptorOperandF fuel c op dtype (some Data.sbyte) true
        else if r = 15 then
          match dReadU32le c with
          | .ok (w, c) =>
            .ok (({ op with mode := AddrMode.absoluteDeferred, register := Option.none, embedded := w }).append_u32 w, c)
          | .error e => .error e
        else .error DecodeError.parse
      else if m = 15 then
        -- Negative Literal
        .ok ({ op with mode := AddrMode.negativeLiteral, register := Option.none, embedded := descriptor_byte }, c)
      else
        -- unreachable: m is a nibble
        .error DecodeError.parse

/-- `Decoder::decode_descriptor_operand`: the fuel is the number of bytes
remaining, which is exact (see `decodeDescriptorOperandF`). -/
def decodeDescriptorOperand (c : Cursor) (op : Operand) (dtype : Data)
    (etype : Option Data) (recur : Bool) : Except DecodeError (Operand × Cursor) :=
  decodeDescriptorOperandF (c.data.length - c.pos) c op dtype etype recur

/-- `Decoder::decode_operand`: reset the slot, then dispatch on the operand
kind from the mnemonic table. -/
def decodeOperand (c : Cursor) (ir : Instruction) (index : Nat) (mn : Mnemonic)
    (ot : OpType) (etype : Option Data) : Except DecodeError (Instruction × Cursor) :=
  let op := (ir.operands.getD index defaultOperand).reset
  match ot with
  | OpType.lit =>
    match decodeLiteralOperand c op mn with
    | .ok (op, c) => .ok ({ ir with operands := ir.operands.set index op }, c)
    | .error e => .error e
  | OpType.src =>
    match decodeDescriptorOperand c op mn.dtype etype false with
    | .ok (op, c) => .ok ({ ir with operands := ir.operands.set index op }, c)
    | .error e => .error e
  | OpType.dest =>
    match decodeDescriptorOperand c op mn.dtype etype false with
    | .ok (op, c) => .ok ({ ir with operands := ir.operands.set index op }, c)
    | .error e => .error e
  | OpType.none => .ok ({ ir with operands := ir.operands.set index op }, c)

/-- The operand loop of `Decoder::decode_instruction`: walk the `ops` array,
breaking at the first `None` slot, threading the expanded-type carry, and
counting decoded operands in `index`. -/
def decodeOps : List OpType → Mnemonic → Option Data → Nat → Instruction → Cursor →
    Except DecodeError (Nat × Instruction × Cursor)
  | [], _, _, index, ir, c => .ok (index, ir, c)
  | ot :: rest, mn, etype, index, ir, c =>
    if ot = OpType.none then .ok (index, ir, c)
    else
      match decodeOperand c ir index mn ot etype with
      | .error e => .error e
      | .ok (ir, c) =>
        decodeOps rest mn ((ir.operands.getD index defaultOperand).expanded_type)
          (index + 1) ir c

/-- `Decoder::decode_instruction`. -/
def decodeInstruction (ir : Instruction) (c : Cursor) :
    Except DecodeError (Instruction × Cursor) :=
  match dReadU8 c with
  | .error e => .error e
  | .ok (b1, c) =>
    match (if b1 = 0x30 then
        match dReadU8 c with
        | .error e => .error e
        | .ok (b2, c) => .ok (findHalfwordMnemonic (b1 * 256 + b2), c)
      else .ok (byteMnemonics b1, c) :
      Except DecodeError (Option Mnemonic × Cursor)) with
    | .error e => .error e
    | .ok (Option.none, _) => .error DecodeError.parse
    | .ok (some mn, c) =>
      match decodeOps mn.ops mn Option.none 0 ir c with
      | .error e => .error e
      | .ok (index, ir, c) =>
        .ok ({ ir with opcode := mn.opcode, name := mn.name, operand_count := index, data_type := mn.dtype }, c)

/-! ## COFF container data model (`coff.rs`) -/

def MAGIC_WE32K : Nat := 0x170
def MAGIC_WE32K_TV : Nat := 0x171
def FILE_HEADER_SIZE : Nat := 20
def SYM_NAME_LEN : Nat := 8

/-- Sum of the named `FileHeaderFlags` bits; `from_bits_truncate` keeps
exactly these. -/
def FILE_HEADER_FLAGS_MASK : Nat := 0x620F

/-- UTF-8 validity of a byte sequence, as checked by Rust
`str::from_utf8` (RFC 3629: no overlongs, no surrogates, max U+10FFFF). -/
def utf8Valid : List Nat → Bool
  | [] => true
  | b :: rest =>
    if b < 0x80 then utf8Valid rest
    else if b < 0xC2 then false
    else if b < 0xE0 then
      match rest with
      | b1 :: rest =>
        decide (0x80 ≤ b1 ∧ b1 ≤ 0xBF) && utf8Valid rest
      | [] => false
    else if b < 0xF0 then
      match rest with
      | b1 :: b2 :: rest =>
        (if b = 0xE0 then decide (0xA0 ≤ b1 ∧ b1 ≤ 0xBF)
         else if b = 0xED then decide (0x80 ≤ b1 ∧ b1 ≤ 0x9F)
         else decide (0x80 ≤ b1 ∧ b1 ≤ 0xBF)) &&
        decide (0x80 ≤ b2 ∧ b2 ≤ 0xBF) && utf8Valid rest
      | _ => false
    else if b < 0xF5 then
      match rest with
      | b1 :: b2 :: b3 :: rest =>
        (if b = 0xF0 then decide (0x90 ≤ b1 ∧ b1 ≤ 0xBF)
         else if b = 0xF4 then decide (0x80 ≤ b1 ∧ b1 ≤ 0x8F)
         else decide (0x80 ≤ b1 ∧ b1 ≤ 0xBF)) &&
        decide (0x80 ≤ b2 ∧ b2 ≤ 0xBF) && decide (0x80 ≤ b3 ∧ b3 ≤ 0xBF) &&
        utf8Valid rest
      | _ => false
    else false

/-- `buf_to_str(buf).unwrap_or("???")` as bytes: take up to the first NUL,
decode as UTF-8, fall back to the three bytes of the literal on failure. -/
def bufToStrOr (buf : List Nat) : List Nat :=
  let nul := (buf.findIdx? (fun c => c == 0)).getD buf.length
  let s := buf.take nul
  if utf8Valid s then s else [0x3F, 0x3F, 0x3F]

/-- Big-endian 32-bit value at offset `i` of a raw record. -/
def be32At (l : List Nat) (i : Nat) : Nat :=
  l.getD i 0 * 16777216 + l.getD (i + 1) 0 * 65536 + l.getD (i + 2) 0 * 256 +
    l.getD (i + 3) 0

/-- Big-endian 16-bit value at offset `i` of a raw record. -/
def be16At (l : List Nat) (i : Nat) : Nat :=
  l.getD i 0 * 256 + l.getD (i + 1) 0

/-- A `u8` reinterpreted as `i8` (the `as i8` cast). -/
def i8OfByte (b : Nat) : Int :=
  if b < 128 then (b : Int) else (b : Int) - 256

/-- A `u16` value reinterpreted as `i16` (`read_i16::<BigEndian>`). -/
def i16OfNat (v : Nat) : Int :=
  if v < 32768 then (v : Int) else (v : Int) - 65536

structure FileHeader where
  magic : Nat
  section_count : Nat
  timestamp : Nat
  /-- `Utc.timestamp(i64::from(timestamp), 0)`, kept as its Unix seconds. -/
  datetime : Int
  symbol_table_offset : Nat
  symbol_count : Nat
  opt_header : Nat
  flags : Nat
deriving DecidableEq

/-- `FileHeader::read`. -/
def FileHeader.read (c : Cursor) : Option (FileHeader × Cursor) := do
  let (magic, c) ← readU16be c
  let (section_count, c) ← readU16be c
  let (timestamp, c) ← readU32be c
  let (symbol_table_offset, c) ← readU32be c
  let (symbol_count, c) ← readU32be c
  let (opt_header, c) ← readU16be c
  let (rawFlags, c) ← readU16be c
  let flags := rawFlags &&& FILE_HEADER_FLAGS_MASK
  some (⟨magic, section_count, timestamp, (timestamp : Int), symbol_table_offset,
    symbol_count, opt_header, flags⟩, c)

structure OptionalHeader where
  magic : Nat
  version_stamp : Nat
  text_size : Nat
  dsize : Nat
  bsize : Nat
  entry_point : Nat
  text_start : Nat
  data_start : Nat
deriving DecidableEq

/-- `OptionalHeader::read`. -/
def OptionalHeader.read (c : Cursor) : Option (OptionalHeader × Cursor) := do
  let (magic, c) ← readU16be c
  let (version_stamp, c) ← readU16be c
  let (text_size, c) ← readU32be c
  let (dsize, c) ← readU32be c
  let (bsize, c) ← readU32be c
  let (entry_point, c) ← readU32be c
  let (text_start, c) ← readU32be c
  let (data_start, c) ← readU32be c
  some (⟨magic, version_stamp, text_size, dsize, bsize, entry_point, text_start,
    data_start⟩, c)

structure SectionHeader where
  name : List Nat
  paddr : Nat
  vaddr : Nat
  size : Nat
  scnptr : Nat
  relptr : Nat
  lnnoptr : Nat
  nreloc : Nat
  nlnno : Nat
  flags : Nat
deriving DecidableEq

/-- `SectionHeader::read`. -/
def SectionHeader.read (c : Cursor) : Option (SectionHeader × Cursor) := do
  let (name, c) ← readExact c 8
  let (paddr, c) ← readU32be c
  let (vaddr, c) ← readU32be c
  let (size, c) ← readU32be c
  let (scnptr, c) ← readU32be c
  let (relptr, c) ← readU32be c
  let (lnnoptr, c) ← readU32be c
  let (nreloc, c) ← readU16be c
  let (nlnno, c) ← readU16be c
  let (flags, c) ← readU32be c
  some (⟨name, paddr, vaddr, size, scnptr, relptr, lnnoptr, nreloc, nlnno, flags⟩, c)

structure RelocationEntry where
  vaddr : Nat
  symndx : Nat
  rtype : Nat
deriving DecidableEq

inductive StorageClass where
  | endOfFunction
  | null
  | auto
  | externalSym
  | static
  | register
  | externalDef
  | label
  | undefinedLabel
  | memberOfStruct
  | functionArg
  | structureTag
  | memberOfUnion
  | unionTag
  | typeDefinition
  | uninitializedStatic
  | enumerationTag
  | memberOfEnumeration
  | registerParameter
  | bitField
  | beginEndBlock
  | beginEndFunc
  | endOfStruct
  | filename
  | line
  | alias
  | hidden
deriving DecidableEq

/-- The `match n_sclass` mapping in `SymbolTableEntry::read_symbol`. -/
def storageClassOf (s : Int) : StorageClass :=
  if s = -1 then .endOfFunction
  else if s = 1 then .auto
  else if s = 2 then .externalSym
  else if s = 3 then .static
  else if s = 4 then .register
  else if s = 5 then .externalDef
  else if s = 6 then .label
  else if s = 7 then .undefinedLabel
  else if s = 8 then .memberOfStruct
  else if s = 9 then .functionArg
  else if s = 10 then .structureTag
  else if s = 11 then .memberOfUnion
  else if s = 12 then .unionTag
  else if s = 13 then .typeDefinition
  else if s = 14 then .uninitializedStatic
  else if s = 15 then .enumerationTag
  else if s = 16 then .memberOfEnumeration
  else if s = 17 then .registerParameter
  else if s = 18 then .bitField
  else if s = 100 then .beginEndBlock
  else if s = 101 then .beginEndFunc
  else if s = 102 then .endOfStruct
  else if s = 103 then .filename
  else if s = 104 then .line
  else if s = 105 then .alias
  else if s = 106 then .hidden
  else .null

inductive Symbol where
  | primary (n_name : List Nat) (n_zeroes n_offset n_value : Nat) (n_scnum : Int)
      (n_type : Nat) (n_numaux : Nat) (storage_class : StorageClass)
  | auxiliary (x_fname : Option (List Nat)) (x_tagndx x_lnno x_size x_fsize
      x_lnnoptr x_endndx : Nat) (x_dimen : List Nat) (x_tvndx : Nat)
deriving DecidableEq

structure SymbolTableEntry where
  symbol : Symbol
deriving DecidableEq

/-- `SymbolTableEntry::read_symbol`: consume 18 bytes, decode as auxiliary or
primary depending on the carried `is_aux` state. -/
def readSymbol (c : Cursor) (is_aux : Bool) (parent_class : StorageClass) :
    Option (Symbol × Cursor) := do
  let (raw, c) ← readExact c 18
  if is_aux then
    let x_fname : Option (List Nat) :=
      match parent_class with
      | StorageClass.filename => some (bufToStrOr (raw.take 14))
      | _ => Option.none
    some (Symbol.auxiliary x_fname (be32At raw 0) (be16At raw 4) (be16At raw 6)
      (be32At raw 4) (be32At raw 8) (be32At raw 12)
      [be16At raw 8, be16At raw 10, be16At raw 12, be16At raw 14]
      (be16At raw 16), c)
  else
    let n_sclass := i8OfByte (raw.getD 16 0)
    some (Symbol.primary (raw.take 8) (be32At raw 0) (be32At raw 4) (be32At raw 8)
      (i16OfNat (be16At raw 12)) (be16At raw 14) (raw.getD 17 0)
      (storageClassOf n_sclass), c)

structure StringTable where
  data : List Nat
  data_size : Nat
  strings : List (Nat × List Nat)
deriving DecidableEq

/-- The `for j in 4..data_size` loop of `StringTable::read`: `n` iterations
remain, `j` is the loop index, `i` the start of the string being scanned. -/
def stringTableLoop : Nat → Nat → Nat → List Nat → List (Nat × List Nat) → Cursor →
    Option (List Nat × List (Nat × List Nat) × Cursor)
  | 0, _, _, data, strings, c => some (data, strings, c)
  | n + 1, j, i, data, strings, c => do
    let (ch, c) ← readU8 c
    let data := data ++ [ch]
    if ch = 0 then
      let s := bufToStrOr ((data.drop i).take (j - i))
      stringTableLoop n (j + 1) (j + 1) data (strings ++ [(i, s)]) c
    else
      stringTableLoop n (j + 1) i data strings c

/-- `StringTable::read`. -/
def StringTable.read (c : Cursor) : Option (StringTable × Cursor) := do
  let (data_size, c) ← readU32be c
  let (data, strings, c) ← stringTableLoop (data_size - 4) 4 4 [0, 0, 0, 0] [] c
  some (⟨data, data_size, strings⟩, c)

/-- Result of `StringTable::string_at`: the Rust function either panics on the
slice `self.data[start..]` (when `start > len`), or returns
`Result<&str, Utf8Error>`. -/
inductive StrAtResult where
  | panics
  | utf8Err
  | ok (s : List Nat)
deriving DecidableEq

/-- `StringTable::string_at`. -/
def StringTable.string_at (t : StringTable) (index : Nat) : StrAtResult :=
  let start := index
  if start > t.data.length then .panics
  else
    let nul := ((t.data.drop start).findIdx? (fun c => c == 0)).getD
      (t.data.length - start)
    let s := (t.data.drop start).take nul
    if utf8Valid s then .ok s else .utf8Err

structure Section where
  header : SectionHeader
  relocation_table : List RelocationEntry
  data : List Nat
deriving DecidableEq

structure FileContainer where
  header : FileHeader
  opt_header : Option OptionalHeader
  sections : List Section
  symbols : List SymbolTableEntry
  strings : StringTable
deriving DecidableEq

/-- `FileContainer::bad_metadata`. -/
def badMetadata (h : FileHeader) : Bool :=
  !(h.magic == MAGIC_WE32K || h.magic == MAGIC_WE32K_TV)

/-- The `for _ in 0..header.nreloc` relocation-reading loop. -/
def readRelocs : Nat → Cursor → Option (List RelocationEntry × Cursor)
  | 0, c => some ([], c)
  | n + 1, c => do
    let (vaddr, c) ← readU32be c
    let (symndx, c) ← readU32be c
    let (rtype, c) ← readU16be c
    let (rest, c) ← readRelocs n c
    some (⟨vaddr, symndx, rtype⟩ :: rest, c)

/-- The `for _ in 0..header.size { data.push(cursor.read_u8()?) }` loop. -/
def readBytes : Nat → Cursor → Option (List Nat × Cursor)
  | 0, c => some ([], c)
  | n + 1, c => do
    let (b, c) ← readU8 c
    let (rest, c) ← readBytes n c
    some (b :: rest, c)

/-- First pass of `FileContainer::read_sections`: the headers. -/
def readSectionHeaders : Nat → Cursor → Option (List SectionHeader × Cursor)
  | 0, c => some ([], c)
  | n + 1, c => do
    let (h, c) ← SectionHeader.read c
    let (rest, c) ← readSectionHeaders n c
    some (h :: rest, c)

/-- Second pass of `FileContainer::read_sections`: relocations and data per
header, with seeks to `relptr` / `scnptr`. -/
def readSectionBodies : List SectionHeader → Cursor → Option (List Section × Cursor)
  | [], c => some ([], c)
  | header :: rest, c => do
    let (relocation_table, c) ←
      if header.nreloc > 0 then readRelocs header.nreloc (c.seek header.relptr)
      else some ([], c)
    let (data, c) ←
      if header.size > 0 then readBytes header.size (c.seek header.scnptr)
      else some ([], c)
    let (sections, c) ← readSectionBodies rest c
    some (⟨header, relocation_table, data⟩ :: sections, c)

/-- `FileContainer::read_sections`. -/
def readSections (file_header : FileHeader) (c : Cursor) :
    Option (List Section × Cursor) := do
  let (headers, c) ← readSectionHeaders file_header.section_count c
  readSectionBodies headers c

/-- The `for _ in 0..header.symbol_count` loop of
`FileContainer::read_symbol_table`, threading `(is_aux, aux_index, sclass)`. -/
def readSymbolLoop : Nat → Bool → Nat → StorageClass → Cursor →
    Option (List SymbolTableEntry × Cursor)
  | 0, _, _, _, c => some ([], c)
  | n + 1, is_aux, aux_index, sclass, c => do
    let (symbol, c) ← readSymbol c is_aux sclass
    let (is_aux1, aux_index1) :=
      if is_aux then (if aux_index - 1 = 0 then (false, aux_index - 1)
        else (true, aux_index - 1))
      else (is_aux, aux_index)
    let (is_aux2, aux_index2, sclass2) :=
      match symbol with
      | Symbol.primary _ _ _ _ _ _ n_numaux storage_class =>
        if n_numaux > 0 then (true, n_numaux, storage_class)
        else (is_aux1, aux_index1, sclass)
      | _ => (is_aux1, aux_index1, sclass)
    let (rest, c) ← readSymbolLoop n is_aux2 aux_index2 sclass2 c
    some (⟨symbol⟩ :: rest, c)

/-- `FileContainer::read_symbol_table`.  Note: when `symbol_count = 0` there
is no seek and the cursor is returned unchanged. -/
def readSymbolTable (header : FileHeader) (c : Cursor) :
    Option (List SymbolTableEntry × Cursor) :=
  if header.symbol_count > 0 then
    readSymbolLoop header.symbol_count false 0 StorageClass.null
      (c.seek header.symbol_table_offset)
  else some ([], c)

/-- `FileContainer::read`.  The seek to the section area computes
`FILE_HEADER_SIZE + opt_header` in `u16` (wrapping); `Cursor::seek` to an
absolute offset cannot fail and is modelled as total. -/
def FileContainer.read (buf : List Nat) : Except CoffError FileContainer :=
  let c : Cursor := ⟨buf, 0⟩
  match FileHeader.read c with
  | Option.none => .error CoffError.badFileHeader
  | some (header, c) =>
    if badMetadata header then .error CoffError.badFileHeader
    else
      match (if header.opt_header > 0 then
          match OptionalHeader.read c with
          | some (h, c) => some (some h, c)
          | Option.none => Option.none
        else some (Option.none, c) :
        Option (Option OptionalHeader × Cursor)) with
      | Option.none => .error CoffError.badOptionalHeader
      | some (opt_header, c) =>
        let c := c.seek ((FILE_HEADER_SIZE + header.opt_header) % 65536)
        match readSections header c with
        | Option.none => .error CoffError.badSections
        | some (sections, c) =>
          match readSymbolTable header c with
          | Option.none => .error CoffError.badSymbols
          | some (symbols, c) =>
            match StringTable.read c with
            | Option.none => .error CoffError.badStrings
            | some (strings, _) =>
              .ok ⟨header, opt_header, sections, symbols, strings⟩

/-- The per-operand decomposition of the operand loop: walking the `ops`
slots from `(index, ir, c)` to `(ir₂, c₂)`, each decoded operand is one
`decodeOperand` call and the matching entry of `sizes` is exactly the number
of bytes that call consumed. -/
inductive OperandChain (mn : Mnemonic) :
    Nat → Instruction → Cursor → List OpType → Option Data → List Nat →
    Instruction → Cursor → Prop where
  | nil (index : Nat) (ir : Instruction) (c : Cursor) (etype : Option Data) :
      OperandChain mn index ir c [] etype [] ir c
  | stop (index : Nat) (ir : Instruction) (c : Cursor) (etype : Option Data)
      (ops : List OpType) :
      OperandChain mn index ir c (OpType.none :: ops) etype [] ir c
  | step {index : Nat} {ir : Instruction} {c : Cursor} {ot : OpType}
      {ops : List OpType} {etype : Option Data} {ir₁ : Instruction} {c₁ : Cursor}
      {sizes : List Nat} {ir₂ : Instruction} {c₂ : Cursor} :
      ot ≠ OpType.none →
      decodeOperand c ir index mn ot etype = .ok (ir₁, c₁) →
      OperandChain mn (index + 1) ir₁ c₁ ops
        ((ir₁.operands.getD index defaultOperand).expanded_type) sizes ir₂ c₂ →
      OperandChain mn index ir c (ot :: ops) etype ((c₁.pos - c.pos) :: sizes) ir₂ c₂

/-! ## Symbol-table machinery (claims C5, C8) -/

def isAuxSym : Symbol → Bool
  | Symbol.auxiliary .. => true
  | _ => false

/-- Well-formedness of the decoded symbol sequence as the loop's state
machine enforces it: `auxRunOk syms pending` says that after `pending`
auxiliary entries still owed to the previous primary, the sequence consists
of blocks of one primary followed by its `numaux` auxiliaries, where the
LAST block may be cut off by `symbol_count`.  `pending` is `aux_index` when
`is_aux`, else 0. -/
def auxRunOk : List Symbol → Nat → Bool
  | [], _ => true
  | s :: rest, 0 =>
    match s with
    | Symbol.primary _ _ _ _ _ _ n_numaux _ => auxRunOk rest n_numaux
    | Symbol.auxiliary .. => false
  | s :: rest, n + 1 => isAuxSym s && auxRunOk rest n

/-- The claim's stricter reading: every primary with `numaux = k` is followed
by exactly `k` auxiliaries — a trailing truncated run is NOT allowed. -/
def auxRunExact : List Symbol → Nat → Bool
  | [], 0 => true
  | [], _ + 1 => false
  | s :: rest, 0 =>
    match s with
    | Symbol.primary _ _ _ _ _ _ n_numaux _ => auxRunExact rest n_numaux
    | Symbol.auxiliary .. => false
  | s :: rest, n + 1 => isAuxSym s && auxRunExact rest n

/-! ## Concrete buffers and headers for witnesses and counterexamples -/

def bufMinimal : List Nat :=
  [0x01, 0x70, 0, 0, 0, 0, 0, 0, 0, 0, 0, 0, 0, 0, 0, 0, 0, 0, 0, 0x02, 0, 0, 0, 4]

def bufTruncatedAux : List Nat :=
  [0x01, 0x70, 0, 0, 0, 0, 0, 0, 0, 0, 0, 20, 0, 0, 0, 1, 0, 0, 0, 0,
   65, 0, 0, 0, 0, 0, 0, 0, 0, 0, 0, 0, 0, 0, 0, 0, 2, 1,
   0, 0, 0, 4]

def bufOptHeader1 : List Nat :=
  [0x01, 0x70, 0, 0, 0, 0, 0, 0, 0, 0, 0, 0, 0, 0, 0, 0, 0, 1, 0, 0,
   0, 0, 0, 0, 4, 0, 0, 0, 0, 0, 0, 0, 0, 0, 0, 0, 0, 0, 0, 0, 0, 0, 0, 0, 0, 0, 0, 0]

def hdrZeroSymbols : FileHeader := ⟨0x170, 0, 0, 0, 100, 0, 0, 0⟩

def hdrOneSymbol : FileHeader := ⟨0x170, 0, 0, 0, 0, 1, 0, 0⟩

/-! ## Basic lemmas about the byte cursor -/

theorem readU8_of_lt {c : Cursor} (h : c.pos < c.data.length) :
    readU8 c = some (c.data.getD c.pos 0, ⟨c.data, c.pos + 1⟩) := by
  simp [readU8, h]

theorem readU8_some {c : Cursor} {b : Nat} {c₁ : Cursor}
    (h : readU8 c = some (b, c₁)) :
    c.pos < c.data.length ∧ b = c.data.getD c.pos 0 ∧ c₁ = ⟨c.data, c.pos + 1⟩ := by
  by_cases hlt : c.pos < c.data.length
  · rw [readU8_of_lt hlt] at h
    simp only [Option.some.injEq, Prod.mk.injEq] at h
    exact ⟨hlt, h.1.symm, h.2.symm⟩
  · simp [readU8, hlt] at h

theorem dReadU8_of_lt {c : Cursor} (h : c.pos < c.data.length) :
    dReadU8 c = .ok (c.data.getD c.pos 0, ⟨c.data, c.pos + 1⟩) := by
  simp [dReadU8, readU8_of_lt h]

theorem dReadU8_ok {c : Cursor} {b : Nat} {c₁ : Cursor}
    (h : dReadU8 c = .ok (b, c₁)) :
    c.pos < c.data.length ∧ b = c.data.getD c.pos 0 ∧ c₁ = ⟨c.data, c.pos + 1⟩ := by
  unfold dReadU8 at h
  cases hr : readU8 c with
  | none => rw [hr] at h; simp at h
  | some p =>
    rw [hr] at h
    simp only [Except.ok.injEq] at h
    subst h
    exact readU8_some hr

theorem readU16le_of_le {c : Cursor} (h : c.pos + 2 ≤ c.data.length) :
    readU16le c = some (leHalfAt c.data c.pos, ⟨c.data, c.pos + 2⟩) := by
  have h0 : c.pos < c.data.length := by omega
  have h1 : (⟨c.data, c.pos + 1⟩ : Cursor).pos <
      (⟨c.data, c.pos + 1⟩ : Cursor).data.length := by
    show c.pos + 1 < c.data.length
    omega
  simp only [readU16le, readU8_of_lt h0, Option.bind_eq_bind, Option.some_bind,
    readU8_of_lt h1, leHalfAt]

theorem readU32le_of_le {c : Cursor} (h : c.pos + 4 ≤ c.data.length) :
    readU32le c = some (leWordAt c.data c.pos, ⟨c.data, c.pos + 4⟩) := by
  have h0 : c.pos < c.data.length := by omega
  have h1 : (⟨c.data, c.pos + 1⟩ : Cursor).pos <
      (⟨c.data, c.pos + 1⟩ : Cursor).data.length := by
    show c.pos + 1 < c.data.length
    omega
  have h2 : (⟨c.data, c.pos + 1 + 1⟩ : Cursor).pos <
      (⟨c.data, c.pos + 1 + 1⟩ : Cursor).data.length := by
    show c.pos + 1 + 1 < c.data.length
    omega
  have h3 : (⟨c.data, c.pos + 1 + 1 + 1⟩ : Cursor).pos <
      (⟨c.data, c.pos + 1 + 1 + 1⟩ : Cursor).data.length := by
    show c.pos + 1 + 1 + 1 < c.data.length
    omega
  simp only [readU32le, readU8_of_lt h0, Option.bind_eq_bind, Option.some_bind,
    readU8_of_lt h1, readU8_of_lt h2, readU8_of_lt h3, leWordAt]

theorem dReadU16le_of_le {c : Cursor} (h : c.pos + 2 ≤ c.data.length) :
    dReadU16le c = .ok (leHalfAt c.data c.pos, ⟨c.data, c.pos + 2⟩) := by
  simp [dReadU16le, readU16le_of_le h]

theorem dReadU32le_of_le {c : Cursor} (h : c.pos + 4 ≤ c.data.length) :
    dReadU32le c = .ok (leWordAt c.data c.pos, ⟨c.data, c.pos + 4⟩) := by
  simp [dReadU32le, readU32le_of_le h]

theorem readU16le_some {c : Cursor} {v : Nat} {c₁ : Cursor}
    (h : readU16le c = some (v, c₁)) :
    c.pos + 2 ≤ c.data.length ∧ c₁ = ⟨c.data, c.pos + 2⟩ := by
  unfold readU16le at h
  cases h0 : readU8 c with
  | none => rw [h0] at h; simp at h
  | some p =>
    obtain ⟨b0, c0⟩ := p
    rw [h0] at h
    obtain ⟨g0, -, hc0⟩ := readU8_some h0
    subst hc0
    simp only [Option.bind_eq_bind, Option.some_bind] at h
    cases h1 : readU8 ⟨c.data, c.pos + 1⟩ with
    | none => rw [h1] at h; simp at h
    | some q =>
      obtain ⟨b1, c1⟩ := q
      rw [h1] at h
      obtain ⟨g1, -, hc1⟩ := readU8_some h1
      subst hc1
      simp only [Option.some_bind, Option.some.injEq, Prod.mk.injEq] at h
      obtain ⟨-, hc⟩ := h
      subst hc
      have g1n : c.pos + 1 < c.data.length := g1
      exact ⟨by omega, rfl⟩

theorem readU32le_some {c : Cursor} {v : Nat} {c₁ : Cursor}
    (h : readU32le c = some (v, c₁)) :
    c.pos + 4 ≤ c.data.length ∧ c₁ = ⟨c.data, c.pos + 4⟩ := by
  unfold readU32le at h
  cases h0 : readU8 c with
  | none => rw [h0] at h; simp at h
  | some p =>
    obtain ⟨b0, c0⟩ := p
    rw [h0] at h
    obtain ⟨g0, -, hc0⟩ := readU8_some h0
    subst hc0
    simp only [Option.bind_eq_bind, Option.some_bind] at h
    cases h1 : readU8 ⟨c.data, c.pos + 1⟩ with
    | none => rw [h1] at h; simp at h
    | some q =>
      obtain ⟨b1, c1⟩ := q
      rw [h1] at h
      obtain ⟨g1, -, hc1⟩ := readU8_some h1
      subst hc1
      simp only [Option.some_bind] at h
      have g1n : c.pos + 1 < c.data.length := g1
      cases h2 : readU8 ⟨c.data, c.pos + 1 + 1⟩ with
      | none => rw [h2] at h; simp at h
      | some q2 =>
        obtain ⟨b2, c2⟩ := q2
        rw [h2] at h
        obtain ⟨g2, -, hc2⟩ := readU8_some h2
        subst hc2
        simp only [Option.some_bind] at h
        have g2n : c.pos + 1 + 1 < c.data.length := g2
        cases h3 : readU8 ⟨c.data, c.pos + 1 + 1 + 1⟩ with
        | none => rw [h3] at h; simp at h
        | some q3 =>
          obtain ⟨b3, c3⟩ := q3
          rw [h3] at h
          obtain ⟨g3, -, hc3⟩ := readU8_some h3
          subst hc3
          simp only [Option.some_bind, Option.some.injEq, Prod.mk.injEq] at h
          obtain ⟨-, hc⟩ := h
          subst hc
          have g3n : c.pos + 1 + 1 + 1 < c.data.length := g3
          exact ⟨by omega, rfl⟩

theorem dReadU16le_ok {c : Cursor} {v : Nat} {c₁ : Cursor}
    (h : dReadU16le c = .ok (v, c₁)) :
    c.pos + 2 ≤ c.data.length ∧ c₁ = ⟨c.data, c.pos + 2⟩ := by
  unfold dReadU16le at h
  cases hr : readU16le c with
  | none => rw [hr] at h; simp at h
  | some p =>
    rw [hr] at h
    simp only [Except.ok.injEq] at h
    subst h
    exact readU16le_some hr

theorem dReadU32le_ok {c : Cursor} {v : Nat} {c₁ : Cursor}
    (h : dReadU32le c = .ok (v, c₁)) :
    c.pos + 4 ≤ c.data.length ∧ c₁ = ⟨c.data, c.pos + 4⟩ := by
  unfold dReadU32le at h
  cases hr : readU32le c with
  | none => rw [hr] at h; simp at h
  | some p =>
    rw [hr] at h
    simp only [Except.ok.injEq] at h
    subst h
    exact readU32le_some hr

theorem readU16be_some {c : Cursor} {v : Nat} {c₁ : Cursor}
    (h : readU16be c = some (v, c₁)) :
    c.pos + 2 ≤ c.data.length ∧ c₁ = ⟨c.data, c.pos + 2⟩ := by
  unfold readU16be at h
  cases h0 : readU8 c with
  | none => rw [h0] at h; simp at h
  | some p =>
    obtain ⟨b0, c0⟩ := p
    rw [h0] at h
    obtain ⟨g0, -, hc0⟩ := readU8_some h0
    subst hc0
    simp only [Option.bind_eq_bind, Option.some_bind] at h
    cases h1 : readU8 ⟨c.data, c.pos + 1⟩ with
    | none => rw [h1] at h; simp at h
    | some q =>
      obtain ⟨b1, c1⟩ := q
      rw [h1] at h
      obtain ⟨g1, -, hc1⟩ := readU8_some h1
      subst hc1
      simp only [Option.some_bind, Option.some.injEq, Prod.mk.injEq] at h
      obtain ⟨-, hc⟩ := h
      subst hc
      have g1n : c.pos + 1 < c.data.length := g1
      exact ⟨by omega, rfl⟩

theorem readU32be_some {c : Cursor} {v : Nat} {c₁ : Cursor}
    (h : readU32be c = some (v, c₁)) :
    c.pos + 4 ≤ c.data.length ∧ c₁ = ⟨c.data, c.pos + 4⟩ := by
  unfold readU32be at h
  cases h0 : readU8 c with
  | none => rw [h0] at h; simp at h
  | some p =>
    obtain ⟨b0, c0⟩ := p
    rw [h0] at h
    obtain ⟨g0, -, hc0⟩ := readU8_some h0
    subst hc0
    simp only [Option.bind_eq_bind, Option.some_bind] at h
    cases h1 : readU8 ⟨c.data, c.pos + 1⟩ with
    | none => rw [h1] at h; simp at h
    | some q =>
      obtain ⟨b1, c1⟩ := q
      rw [h1] at h
      obtain ⟨g1, -, hc1⟩ := readU8_some h1
      subst hc1
      simp only [Option.some_bind] at h
      have g1n : c.pos + 1 < c.data.length := g1
      cases h2 : readU8 ⟨c.data, c.pos + 1 + 1⟩ with
      | none => rw [h2] at h; simp at h
      | some q2 =>
        obtain ⟨b2, c2⟩ := q2
        rw [h2] at h
        obtain ⟨g2, -, hc2⟩ := readU8_some h2
        subst hc2
        simp only [Option.some_bind] at h
        have g2n : c.pos + 1 + 1 < c.data.length := g2
        cases h3 : readU8 ⟨c.data, c.pos + 1 + 1 + 1⟩ with
        | none => rw [h3] at h; simp at h
        | some q3 =>
          obtain ⟨b3, c3⟩ := q3
          rw [h3] at h
          obtain ⟨g3, -, hc3⟩ := readU8_some h3
          subst hc3
          simp only [Option.some_bind, Option.some.injEq, Prod.mk.injEq] at h
          obtain ⟨-, hc⟩ := h
          subst hc
          have g3n : c.pos + 1 + 1 + 1 < c.data.length := g3
          exact ⟨by omega, rfl⟩

theorem readExact_some {c : Cursor} {n : Nat} {l : List Nat} {c₁ : Cursor}
    (h : readExact c n = some (l, c₁)) :
    c.pos + n ≤ c.data.length ∧ l = (c.data.drop c.pos).take n ∧
      l.length = n ∧ c₁ = ⟨c.data, c.pos + n⟩ := by
  unfold readExact at h
  split at h
  · simp only [Option.some.injEq, Prod.mk.injEq] at h
    obtain ⟨hl, hc⟩ := h
    have hle : c.pos + n ≤ c.data.length := by assumption
    refine ⟨hle, hl.symm, ?_, hc.symm⟩
    rw [← hl]
    simp only [List.length_take, List.length_drop]
    omega
  · simp at h

/-! ## Operand append fields -/

theorem append_u8_mode (op : Operand) (b : Nat) : (op.append_u8 b).mode = op.mode := by
  unfold Operand.append_u8; split <;> rfl

theorem append_u8_register (op : Operand) (b : Nat) :
    (op.append_u8 b).register = op.register := by
  unfold Operand.append_u8; split <;> rfl

theorem append_u8_embedded (op : Operand) (b : Nat) :
    (op.append_u8 b).embedded = op.embedded := by
  unfold Operand.append_u8; split <;> rfl

theorem append_u8_data_type (op : Operand) (b : Nat) :
    (op.append_u8 b).data_type = op.data_type := by
  unfold Operand.append_u8; split <;> rfl

theorem append_u8_expanded_type (op : Operand) (b : Nat) :
    (op.append_u8 b).expanded_type = op.expanded_type := by
  unfold Operand.append_u8; split <;> rfl

theorem append_u16_mode (op : Operand) (h : Nat) : (op.append_u16 h).mode = op.mode := by
  unfold Operand.append_u16; split <;> rfl

theorem append_u16_register (op : Operand) (h : Nat) :
    (op.append_u16 h).register = op.register := by
  unfold Operand.append_u16; split <;> rfl

theorem append_u16_embedded (op : Operand) (h : Nat) :
    (op.append_u16 h).embedded = op.embedded := by
  unfold Operand.append_u16; split <;> rfl

theorem append_u16_expanded_type (op : Operand) (h : Nat) :
    (op.append_u16 h).expanded_type = op.expanded_type := by
  unfold Operand.append_u16; split <;> rfl

theorem append_u32_mode (op : Operand) (w : Nat) : (op.append_u32 w).mode = op.mode := by
  unfold Operand.append_u32; split <;> rfl

theorem append_u32_register (op : Operand) (w : Nat) :
    (op.append_u32 w).register = op.register := by
  unfold Operand.append_u32; split <;> rfl

theorem append_u32_embedded (op : Operand) (w : Nat) :
    (op.append_u32 w).embedded = op.embedded := by
  unfold Operand.append_u32; split <;> rfl

theorem append_u32_expanded_type (op : Operand) (w : Nat) :
    (op.append_u32 w).expanded_type = op.expanded_type := by
  unfold Operand.append_u32; split <;> rfl

/-- Claim C1 (amended): for every legal descriptor byte `b` with
`m = (b >> 4) & 0xF` and `r = b & 0xF`, `decode_descriptor_operand` succeeds
(given the bytes its mode requires are available) and sets
`(mode, register, embedded)` per the addressing-mode table: `m ∈ 0..3` gives
a positive literal with embedded value `b` and no register; `m = 4, r = 15`
a word immediate reading a little-endian u32; `m = 4, r ≠ 15` register `r`;
`m = 5, r = 15` a halfword immediate; `m = 5, r ∉ {11, 15}` register
deferred on `r`; `m = 6, r = 15` a byte immediate; `m = 6, r ≠ 15` an FP
short offset; `m = 7, r = 15` absolute; `m = 7, r ≠ 15` an AP short offset;
`m ∈ 8..13, r ≠ 11` the word/halfword/byte displacement and
displacement-deferred modes on register `r` reading a little-endian
u32/u16/u8; `m = 14, r = 15` mode AbsoluteDeferred (the spec's table says
Absolute — amended, see the counterexample) reading a u32 with no further
recursion; and `m = 15` a negative literal whose embedded field holds the
raw byte `b` (reinterpreted as a signed byte when rendered). -/
theorem C1_descriptor_mode_table (c : Cursor) (op : Operand) (dtype : Data)
    (etype : Option Data) (recur : Bool) (b : Nat)
    (hpos : c.pos < c.data.length) (hb : c.data.getD c.pos 0 = b) (hlt : b < 256) :
    (b / 16 % 16 ≤ 3 →
      ∃ op₁ c₁, decodeDescriptorOperand c op dtype etype recur = .ok (op₁, c₁) ∧
        op₁.mode = AddrMode.positiveLiteral ∧ op₁.register = Option.none ∧
        op₁.embedded = b ∧ c₁.data = c.data ∧ c₁.pos = c.pos + 1) ∧
    (b / 16 % 16 = 4 → b % 16 = 15 → c.pos + 5 ≤ c.data.length →
      ∃ op₁ c₁, decodeDescriptorOperand c op dtype etype recur = .ok (op₁, c₁) ∧
        op₁.mode = AddrMode.wordImmediate ∧ op₁.register = Option.none ∧
        op₁.embedded = leWordAt c.data (c.pos + 1) ∧ c₁.data = c.data ∧ c₁.pos = c.pos + 5) ∧
    (b / 16 % 16 = 4 → b % 16 ≠ 15 →
      ∃ op₁ c₁, decodeDescriptorOperand c op dtype etype recur = .ok (op₁, c₁) ∧
        op₁.mode = AddrMode.register ∧ op₁.register = some (b % 16) ∧
        op₁.embedded = 0 ∧ c₁.data = c.data ∧ c₁.pos = c.pos + 1) ∧
    (b / 16 % 16 = 5 → b % 16 = 15 → c.pos + 3 ≤ c.data.length →
      ∃ op₁ c₁, decodeDescriptorOperand c op dtype etype recur = .ok (op₁, c₁) ∧
        op₁.mode = AddrMode.halfwordImmediate ∧ op₁.register = Option.none ∧
        op₁.embedded = leHalfAt c.data (c.pos + 1) ∧ c₁.data = c.data ∧ c₁.pos = c.pos + 3) ∧
    (b / 16 % 16 = 5 → b % 16 ≠ 15 → b % 16 ≠ 11 →
      ∃ op₁ c₁, decodeDescriptorOperand c op dtype etype recur = .ok (op₁, c₁) ∧
        op₁.mode = AddrMode.registerDeferred ∧ op₁.register = some (b % 16) ∧
        op₁.embedded = 0 ∧ c₁.data = c.data ∧ c₁.pos = c.pos + 1) ∧
    (b / 16 % 16 = 6 → b % 16 = 15 → c.pos + 2 ≤ c.data.length →
      ∃ op₁ c₁, decodeDescriptorOperand c op dtype etype recur = .ok (op₁, c₁) ∧
        op₁.mode = AddrMode.byteImmediate ∧ op₁.register = Option.none ∧
        op₁.embedded = c.data.getD (c.pos + 1) 0 ∧ c₁.data = c.data ∧ c₁.pos = c.pos + 2) ∧
    (b / 16 % 16 = 6 → b % 16 ≠ 15 →
      ∃ op₁ c₁, decodeDescriptorOperand c op dtype etype recur = .ok (op₁, c₁) ∧
        op₁.mode = AddrMode.fpShortOffset ∧ op₁.register = some 9 ∧
        op₁.embedded = b % 16 ∧ c₁.data = c.data ∧ c₁.pos = c.pos + 1) ∧
    (b / 16 % 16 = 7 → b % 16 = 15 → c.pos + 5 ≤ c.data.length →
      ∃ op₁ c₁, decodeDescriptorOperand c op dtype etype recur = .ok (op₁, c₁) ∧
        op₁.mode = AddrMode.absolute ∧ op₁.register = Option.none ∧
        op₁.embedded = leWordAt c.data (c.pos + 1) ∧ c₁.data = c.data ∧ c₁.pos = c.pos + 5) ∧
    (b / 16 % 16 = 7 → b % 16 ≠ 15 →
      ∃ op₁ c₁, decodeDescriptorOperand c op dtype etype recur = .ok (op₁, c₁) ∧
        op₁.mode = AddrMode.apShortOffset ∧ op₁.register = some 10 ∧
        op₁.embedded = b % 16 ∧ c₁.data = c.data ∧ c₁.pos = c.pos + 1) ∧
    (b / 16 % 16 = 8 → b % 16 ≠ 11 → c.pos + 5 ≤ c.data.length →
      ∃ op₁ c₁, decodeDescriptorOperand c op dtype etype recur = .ok (op₁, c₁) ∧
        op₁.mode = AddrMode.wordDisplacement ∧ op₁.register = some (b % 16) ∧
        op₁.embedded = leWordAt c.data (c.pos + 1) ∧ c₁.data = c.data ∧ c₁.pos = c.pos + 5) ∧
    (b / 16 % 16 = 9 → b % 16 ≠ 11 → c.pos + 5 ≤ c.data.length →
      ∃ op₁ c₁, decodeDescriptorOperand c op dtype etype recur = .ok (op₁, c₁) ∧
        op₁.mode = AddrMode.wordDisplacementDeferred ∧ op₁.register = some (b % 16) ∧
        op₁.embedded = leWordAt c.data (c.pos + 1) ∧ c₁.data = c.data ∧ c₁.pos = c.pos + 5) ∧
    (b / 16 % 16 = 10 → b % 16 ≠ 11 → c.pos + 3 ≤ c.data.length →
      ∃ op₁ c₁, decodeDescriptorOperand c op dtype etype recur = .ok (op₁, c₁) ∧
        op₁.mode = AddrMode.halfwordDisplacement ∧ op₁.register = some (b % 16) ∧
        op₁.embedded = leHalfAt c.data (c.pos + 1) ∧ c₁.data = c.data ∧ c₁.pos = c.pos + 3) ∧
    (b / 16 % 16 = 11 → b % 16 ≠ 11 → c.pos + 3 ≤ c.data.length →
      ∃ op₁ c₁, decodeDescriptorOperand c op dtype etype recur = .ok (op₁, c₁) ∧
        op₁.mode = AddrMode.halfwordDisplacementDeferred ∧ op₁.register = some (b % 16) ∧
        op₁.embedded = leHalfAt c.data (c.pos + 1) ∧ c₁.data = c.data ∧ c₁.pos = c.pos + 3) ∧
    (b / 16 % 16 = 12 → b % 16 ≠ 11 → c.pos + 2 ≤ c.data.length →
      ∃ op₁ c₁, decodeDescriptorOperand c op dtype etype recur = .ok (op₁, c₁) ∧
        op₁.mode = AddrMode.byteDisplacement ∧ op₁.register = some (b % 16) ∧
        op₁.embedded = c.data.getD (c.pos + 1) 0 ∧ c₁.data = c.data ∧ c₁.pos = c.pos + 2) ∧
    (b / 16 % 16 = 13 → b % 16 ≠ 11 → c.pos + 2 ≤ c.data.length →
      ∃ op₁ c₁, decodeDescriptorOperand c op dtype etype recur = .ok (op₁, c₁) ∧
        op₁.mode = AddrMode.byteDisplacementDeferred ∧ op₁.register = some (b % 16) ∧
        op₁.embedded = c.data.getD (c.pos + 1) 0 ∧ c₁.data = c.data ∧ c₁.pos = c.pos + 2) ∧
    (b / 16 % 16 = 14 → b % 16 = 15 → c.pos + 5 ≤ c.data.length →
      ∃ op₁ c₁, decodeDescriptorOperand c op dtype etype recur = .ok (op₁, c₁) ∧
        op₁.mode = AddrMode.absoluteDeferred ∧ op₁.register = Option.none ∧
        op₁.embedded = leWordAt c.data (c.pos + 1) ∧ c₁.data = c.data ∧ c₁.pos = c.pos + 5) ∧
    (b / 16 % 16 = 15 →
      ∃ op₁ c₁, decodeDescriptorOperand c op dtype etype recur = .ok (op₁, c₁) ∧
        op₁.mode = AddrMode.negativeLiteral ∧ op₁.register = Option.none ∧
        op₁.embedded = b ∧ c₁.data = c.data ∧ c₁.pos = c.pos + 1) := by
  unfold decodeDescriptorOperand
  rw [show c.data.length - c.pos = (c.data.length - (c.pos + 1)) + 1 from by omega]
  simp only [decodeDescriptorOperandF]
  rw [dReadU8_of_lt hpos, hb]
  refine ⟨?_, ?_, ?_, ?_, ?_, ?_, ?_, ?_, ?_, ?_, ?_, ?_, ?_, ?_, ?_, ?_, ?_⟩
  · intro h0
    simp only [if_pos (show b / 16 % 16 ≤ 3 from by omega)]
    exact ⟨_, _, rfl, rfl, rfl, rfl, rfl, rfl⟩
  · intro h0 h1 h2
    simp only [if_neg (show ¬ (b / 16 % 16 ≤ 3) from by omega),
      if_pos (show b / 16 % 16 = 4 from by omega),
      if_pos (show b % 16 = 15 from by omega)]
    rw [dReadU32le_of_le (by show c.pos + 1 + 4 ≤ c.data.length; omega :
      (⟨c.data, c.pos + 1⟩ : Cursor).pos + 4 ≤ (⟨c.data, c.pos + 1⟩ : Cursor).data.length)]
    refine ⟨_, _, rfl, ?_, ?_, ?_, ?_, ?_⟩
    · simp [append_u32_mode]
    · simp [append_u32_register]
    · simp [append_u32_embedded]
    · rfl
    · show c.pos + 1 + 4 = c.pos + 5
      omega
  · intro h0 h1
    simp only [if_neg (show ¬ (b / 16 % 16 ≤ 3) from by omega),
      if_pos (show b / 16 % 16 = 4 from by omega),
      if_neg (show ¬ (b % 16 = 15) from by omega)]
    exact ⟨_, _, rfl, rfl, rfl, rfl, rfl, rfl⟩
  · intro h0 h1 h2
    simp only [if_neg (show ¬ (b / 16 % 16 ≤ 3) from by omega),
      if_neg (show ¬ (b / 16 % 16 = 4) from by omega),
      if_pos (show b / 16 % 16 = 5 from by omega),
      if_pos (show b % 16 = 15 from by omega)]
    rw [dReadU16le_of_le (by show c.pos + 1 + 2 ≤ c.data.length; omega :
      (⟨c.data, c.pos + 1⟩ : Cursor).pos + 2 ≤ (⟨c.data, c.pos + 1⟩ : Cursor).data.length)]
    refine ⟨_, _, rfl, ?_, ?_, ?_, ?_, ?_⟩
    · simp [append_u16_mode]
    · simp [append_u16_register]
    · simp [append_u16_embedded]
    · rfl
    · show c.pos + 1 + 2 = c.pos + 3
      omega
  · intro h0 h1 h2
    simp only [if_neg (show ¬ (b / 16 % 16 ≤ 3) from by omega),
      if_neg (show ¬ (b / 16 % 16 = 4) from by omega),
      if_pos (show b / 16 % 16 = 5 from by omega),
      if_neg (show ¬ (b % 16 = 15) from by omega),
      if_neg (show ¬ (b % 16 = 11) from by omega)]
    exact ⟨_, _, rfl, rfl, rfl, rfl, rfl, rfl⟩
  · intro h0 h1 h2
    simp only [if_neg (show ¬ (b / 16 % 16 ≤ 3) from by omega),
      if_neg (show ¬ (b / 16 % 16 = 4) from by omega),
      if_neg (show ¬ (b / 16 % 16 = 5) from by omega),
      if_pos (show b / 16 % 16 = 6 from by omega),
      if_pos (show b % 16 = 15 from by omega)]
    rw [dReadU8_of_lt (by show c.pos + 1 < c.data.length; omega :
      (⟨c.data, c.pos + 1⟩ : Cursor).pos < (⟨c.data, c.pos + 1⟩ : Cursor).data.length)]
    refine ⟨_, _, rfl, ?_, ?_, ?_, ?_, ?_⟩
    · simp [append_u8_mode]
    · simp [append_u8_register]
    · simp [append_u8_embedded]
    · rfl
    · show c.pos + 1 + 1 = c.pos + 2
      omega
  · intro h0 h1
    simp only [if_neg (show ¬ (b / 16 % 16 ≤ 3) from by omega),
      if_neg (show ¬ (b / 16 % 16 = 4) from by omega),
      if_neg (show ¬ (b / 16 % 16 = 5) from by omega),
      if_pos (show b / 16 % 16 = 6 from by omega),
      if_neg (show ¬ (b % 16 = 15) from by omega)]
    exact ⟨_, _, rfl, rfl, rfl, rfl, rfl, rfl⟩
  · intro h0 h1 h2
    simp only [if_neg (show ¬ (b / 16 % 16 ≤ 3) from by omega),
      if_neg (show ¬ (b / 16 % 16 = 4) from by omega),
      if_neg (show ¬ (b / 16 % 16 = 5) from by omega),
      if_neg (show ¬ (b / 16 % 16 = 6) from by omega),
      if_pos (show b / 16 % 16 = 7 from by omega),
      if_pos (show b % 16 = 15 from by omega)]
    rw [dReadU32le_of_le (by show c.pos + 1 + 4 ≤ c.data.length; omega :
      (⟨c.data, c.pos + 1⟩ : Cursor).pos + 4 ≤ (⟨c.data, c.pos + 1⟩ : Cursor).data.length)]
    refine ⟨_, _, rfl, ?_, ?_, ?_, ?_, ?_⟩
    · simp [append_u32_mode]
    · simp [append_u32_register]
    · simp [append_u32_embedded]
    · rfl
    · show c.pos + 1 + 4 = c.pos + 5
      omega
  · intro h0 h1
    simp only [if_neg (show ¬ (b / 16 % 16 ≤ 3) from by omega),
      if_neg (show ¬ (b / 16 % 16 = 4) from by omega),
      if_neg (show ¬ (b / 16 % 16 = 5) from by omega),
      if_neg (show ¬ (b / 16 % 16 = 6) from by omega),
      if_pos (show b / 16 % 16 = 7 from by omega),
      if_neg (show ¬ (b % 16 = 15) from by omega)]
    exact ⟨_, _, rfl, rfl, rfl, rfl, rfl, rfl⟩
  · intro h0 h1 h2
    simp only [if_neg (show ¬ (b / 16 % 16 ≤ 3) from by omega),
      if_neg (show ¬ (b / 16 % 16 = 4) from by omega),
      if_neg (show ¬ (b / 16 % 16 = 5) from by omega),
      if_neg (show ¬ (b / 16 % 16 = 6) from by omega),
      if_neg (show ¬ (b / 16 % 16 = 7) from by omega),
      if_pos (show b / 16 % 16 = 8 from by omega),
      if_neg (show ¬ (b % 16 = 11) from by omega)]
    rw [dReadU32le_of_le (by show c.pos + 1 + 4 ≤ c.data.length; omega :
      (⟨c.data, c.pos + 1⟩ : Cursor).pos + 4 ≤ (⟨c.data, c.pos + 1⟩ : Cursor).data.length)]
    refine ⟨_, _, rfl, ?_, ?_, ?_, ?_, ?_⟩
    · simp [append_u32_mode]
    · simp [append_u32_register]
    · simp [append_u32_embedded]
    · rfl
    · show c.pos + 1 + 4 = c.pos + 5
      omega
  · intro h0 h1 h2
    simp only [if_neg (show ¬ (b / 16 % 16 ≤ 3) from by omega),
      if_neg (show ¬ (b / 16 % 16 = 4) from by omega),
      if_neg (show ¬ (b / 16 % 16 = 5) from by omega),
      if_neg (show ¬ (b / 16 % 16 = 6) from by omega),
      if_neg (show ¬ (b / 16 % 16 = 7) from by omega),
      if_neg (show ¬ (b / 16 % 16 = 8) from by omega),
      if_pos (show b / 16 % 16 = 9 from by omega),
      if_neg (show ¬ (b % 16 = 11) from by omega)]
    rw [dReadU32le_of_le (by show c.pos + 1 + 4 ≤ c.data.length; omega :
      (⟨c.data, c.pos + 1⟩ : Cursor).pos + 4 ≤ (⟨c.data, c.pos + 1⟩ : Cursor).data.length)]
    refine ⟨_, _, rfl, ?_, ?_, ?_, ?_, ?_⟩
    · simp [append_u32_mode]
    · simp [append_u32_register]
    · simp [append_u32_embedded]
    · rfl
    · show c.pos + 1 + 4 = c.pos + 5
      omega
  · intro h0 h1 h2
    simp only [if_neg (show ¬ (b / 16 % 16 ≤ 3) from by omega),
      if_neg (show ¬ (b / 16 % 16 = 4) from by omega),
      if_neg (show ¬ (b / 16 % 16 = 5) from by omega),
      if_neg (show ¬ (b / 16 % 16 = 6) from by omega),
      if_neg (show ¬ (b / 16 % 16 = 7) from by omega),
      if_neg (show ¬ (b / 16 % 16 = 8) from by omega),
      if_neg (show ¬ (b / 16 % 16 = 9) from by omega),
      if_pos (show b / 16 % 16 = 10 from by omega),
      if_neg (show ¬ (b % 16 = 11) from by omega)]
    rw [dReadU16le_of_le (by show c.pos + 1 + 2 ≤ c.data.length; omega :
      (⟨c.data, c.pos + 1⟩ : Cursor).pos + 2 ≤ (⟨c.data, c.pos + 1⟩ : Cursor).data.length)]
    refine ⟨_, _, rfl, ?_, ?_, ?_, ?_, ?_⟩
    · simp [append_u16_mode]
    · simp [append_u16_register]
    · simp [append_u16_embedded]
    · rfl
    · show c.pos + 1 + 2 = c.pos + 3
      omega
  · intro h0 h1 h2
    simp only [if_neg (show ¬ (b / 16 % 16 ≤ 3) from by omega),
      if_neg (show ¬ (b / 16 % 16 = 4) from by omega),
      if_neg (show ¬ (b / 16 % 16 = 5) from by omega),
      if_neg (show ¬ (b / 16 % 16 = 6) from by omega),
      if_neg (show ¬ (b / 16 % 16 = 7) from by omega),
      if_neg (show ¬ (b / 16 % 16 = 8) from by omega),
      if_neg (show ¬ (b / 16 % 16 = 9) from by omega),
      if_neg (show ¬ (b / 16 % 16 = 10) from by omega),
      if_pos (show b / 16 % 16 = 11 from by omega),
      if_neg (show ¬ (b % 16 = 11) from by omega)]
    rw [dReadU16le_of_le (by show c.pos + 1 + 2 ≤ c.data.length; omega :
      (⟨c.data, c.pos + 1⟩ : Cursor).pos + 2 ≤ (⟨c.data, c.pos + 1⟩ : Cursor).data.length)]
    refine ⟨_, _, rfl, ?_, ?_, ?_, ?_, ?_⟩
    · simp [append_u16_mode]
    · simp [append_u16_register]
    · simp [append_u16_embedded]
    · rfl
    · show c.pos + 1 + 2 = c.pos + 3
      omega
  · intro h0 h1 h2
    simp only [if_neg (show ¬ (b / 16 % 16 ≤ 3) from by omega),
      if_neg (show ¬ (b / 16 % 16 = 4) from by omega),
      if_neg (show ¬ (b / 16 % 16 = 5) from by omega),
      if_neg (show ¬ (b / 16 % 16 = 6) from by omega),
      if_neg (show ¬ (b / 16 % 16 = 7) from by omega),
      if_neg (show ¬ (b / 16 % 16 = 8) from by omega),
      if_neg (show ¬ (b / 16 % 16 = 9) from by omega),
      if_neg (show ¬ (b / 16 % 16 = 10) from by omega),
      if_neg (show ¬ (b / 16 % 16 = 11) from by omega),
      if_pos (show b / 16 % 16 = 12 from by omega),
      if_neg (show ¬ (b % 16 = 11) from by omega)]
    rw [dReadU8_of_lt (by show c.pos + 1 < c.data.length; omega :
      (⟨c.data, c.pos + 1⟩ : Cursor).pos < (⟨c.data, c.pos + 1⟩ : Cursor).data.length)]
    refine ⟨_, _, rfl, ?_, ?_, ?_, ?_, ?_⟩
    · simp [append_u8_mode]
    · simp [append_u8_register]
    · simp [append_u8_embedded]
    · rfl
    · show c.pos + 1 + 1 = c.pos + 2
      omega
  · intro h0 h1 h2
    simp only [if_neg (show ¬ (b / 16 % 16 ≤ 3) from by omega),
      if_neg (show ¬ (b / 16 % 16 = 4) from by omega),
      if_neg (show ¬ (b / 16 % 16 = 5) from by omega),
      if_neg (show ¬ (b / 16 % 16 = 6) from by omega),
      if_neg (show ¬ (b / 16 % 16 = 7) from by omega),
      if_neg (show ¬ (b / 16 % 16 = 8) from by omega),
      if_neg (show ¬ (b / 16 % 16 = 9) from by omega),
      if_neg (show ¬ (b / 16 % 16 = 10) from by omega),
      if_neg (show ¬ (b / 16 % 16 = 11) from by omega),
      if_neg (show ¬ (b / 16 % 16 = 12) from by omega),
      if_pos (show b / 16 % 16 = 13 from by omega),
      if_neg (show ¬ (b % 16 = 11) from by omega)]
    rw [dReadU8_of_lt (by show c.pos + 1 < c.data.length; omega :
      (⟨c.data, c.pos + 1⟩ : Cursor).pos < (⟨c.data, c.pos + 1⟩ : Cursor).data.length)]
    refine ⟨_, _, rfl, ?_, ?_, ?_, ?_, ?_⟩
    · simp [append_u8_mode]
    · simp [append_u8_register]
    · simp [append_u8_embedded]
    · rfl
    · show c.pos + 1 + 1 = c.pos + 2
      omega
  · intro h0 h1 h2
    simp only [if_neg (show ¬ (b / 16 % 16 ≤ 3) from by omega),
      if_neg (show ¬ (b / 16 % 16 = 4) from by omega),
      if_neg (show ¬ (b / 16 % 16 = 5) from by omega),
      if_neg (show ¬ (b / 16 % 16 = 6) from by omega),
      if_neg (show ¬ (b / 16 % 16 = 7) from by omega),
      if_neg (show ¬ (b / 16 % 16 = 8) from by omega),
      if_neg (show ¬ (b / 16 % 16 = 9) from by omega),
      if_neg (show ¬ (b / 16 % 16 = 10) from by omega),
      if_neg (show ¬ (b / 16 % 16 = 11) from by omega),
      if_neg (show ¬ (b / 16 % 16 = 12) from by omega),
      if_neg (show ¬ (b / 16 % 16 = 13) from by omega),
      if_pos (show b / 16 % 16 = 14 from by omega),
      if_neg (show ¬ (b % 16 = 0) from by omega),
      if_neg (show ¬ (b % 16 = 2) from by omega),
      if_neg (show ¬ (b % 16 = 3) from by omega),
      if_neg (show ¬ (b % 16 = 4) from by omega),
      if_neg (show ¬ (b % 16 = 6) from by omega),
      if_neg (show ¬ (b % 16 = 7) from by omega),
      if_pos (show b % 16 = 15 from by omega)]
    rw [dReadU32le_of_le (by show c.pos + 1 + 4 ≤ c.data.length; omega :
      (⟨c.data, c.pos + 1⟩ : Cursor).pos + 4 ≤ (⟨c.data, c.pos + 1⟩ : Cursor).data.length)]
    refine ⟨_, _, rfl, ?_, ?_, ?_, ?_, ?_⟩
    · simp [append_u32_mode]
    · simp [append_u32_register]
    · simp [append_u32_embedded]
    · rfl
    · show c.pos + 1 + 4 = c.pos + 5
      omega
  · intro h0
    simp only [if_neg (show ¬ (b / 16 % 16 ≤ 3) from by omega),
      if_neg (show ¬ (b / 16 % 16 = 4) from by omega),
      if_neg (show ¬ (b / 16 % 16 = 5) from by omega),
      if_neg (show ¬ (b / 16 % 16 = 6) from by omega),
      if_neg (show ¬ (b / 16 % 16 = 7) from by omega),
      if_neg (show ¬ (b / 16 % 16 = 8) from by omega),
      if_neg (show ¬ (b / 16 % 16 = 9) from by omega),
      if_neg (show ¬ (b / 16 % 16 = 10) from by omega),
      if_neg (show ¬ (b / 16 % 16 = 11) from by omega),
      if_neg (show ¬ (b / 16 % 16 = 12) from by omega),
      if_neg (show ¬ (b / 16 % 16 = 13) from by omega),
      if_neg (show ¬ (b / 16 % 16 = 14) from by omega),
      if_pos (show b / 16 % 16 = 15 from by omega)]
    exact ⟨_, _, rfl, rfl, rfl, rfl, rfl, rfl⟩

/-- Claim C1 counterexample: the claim as stated says `m = 14, r = 15` yields
mode `Absolute`; on descriptor byte `0xEF` followed by a little-endian word
the code decodes mode `AbsoluteDeferred` instead. -/
theorem C1_counterexample_m14_r15 :
    (decodeDescriptorOperand ⟨[0xEF, 0x78, 0x56, 0x34, 0x12], 0⟩ defaultOperand
      Data.word Option.none false).map (fun p => p.1.mode) =
      .ok AddrMode.absoluteDeferred ∧
    AddrMode.absoluteDeferred ≠ AddrMode.absolute := ⟨rfl, by decide⟩

/-- Claim C1 witness: the amended table theorem applied to the concrete
stream `4F 78 56 34 12` (word immediate). -/
theorem C1_descriptor_mode_table_witness :
    ∃ op₁ c₁,
      decodeDescriptorOperand ⟨[0x4F, 0x78, 0x56, 0x34, 0x12], 0⟩ defaultOperand
        Data.word Option.none false = .ok (op₁, c₁) ∧
      op₁.mode = AddrMode.wordImmediate ∧ op₁.register = Option.none ∧
      op₁.embedded = leWordAt [0x4F, 0x78, 0x56, 0x34, 0x12] (0 + 1) ∧
      c₁.data = [0x4F, 0x78, 0x56, 0x34, 0x12] ∧ c₁.pos = 0 + 5 :=
  (C1_descriptor_mode_table ⟨[0x4F, 0x78, 0x56, 0x34, 0x12], 0⟩ defaultOperand
    Data.word Option.none false 79 (by decide) (by decide) (by decide)).2.1
    (by decide) (by decide) (by decide)

/-- Claim C2: every illegal `(m, r)` pair of a descriptor byte — `m = 5` with
`r = 11`, `m ∈ 8..13` with `r = 11`, or `m = 14` with
`r ∉ {0, 2, 3, 4, 6, 7, 15}` — makes `decode_descriptor_operand` return
`ParseError`, never a decoded operand. -/
theorem C2_illegal_descriptor_parse_error (c : Cursor) (op : Operand)
    (dtype : Data) (etype : Option Data) (recur : Bool) (b : Nat)
    (hpos : c.pos < c.data.length) (hb : c.data.getD c.pos 0 = b) (hlt : b < 256)
    (hillegal : (b / 16 % 16 = 5 ∧ b % 16 = 11) ∨
      (8 ≤ b / 16 % 16 ∧ b / 16 % 16 ≤ 13 ∧ b % 16 = 11) ∨
      (b / 16 % 16 = 14 ∧ b % 16 ≠ 0 ∧ b % 16 ≠ 2 ∧ b % 16 ≠ 3 ∧ b % 16 ≠ 4 ∧
        b % 16 ≠ 6 ∧ b % 16 ≠ 7 ∧ b % 16 ≠ 15)) :
    decodeDescriptorOperand c op dtype etype recur = .error DecodeError.parse := by
  unfold decodeDescriptorOperand
  rw [show c.data.length - c.pos = (c.data.length - (c.pos + 1)) + 1 from by omega]
  simp only [decodeDescriptorOperandF]
  rw [dReadU8_of_lt hpos, hb]
  rcases hillegal with ⟨hm, hr⟩ | ⟨hm8, hm13, hr⟩ | ⟨hm, hr0, hr2, hr3, hr4, hr6, hr7, hr15⟩
  · simp only [if_neg (show ¬ (b / 16 % 16 ≤ 3) from by omega),
      if_neg (show ¬ (b / 16 % 16 = 4) from by omega),
      if_pos (show b / 16 % 16 = 5 from by omega),
      if_neg (show ¬ (b % 16 = 15) from by omega),
      if_pos (show b % 16 = 11 from by omega)]
  · have hcase : b / 16 % 16 = 8 ∨ b / 16 % 16 = 9 ∨ b / 16 % 16 = 10 ∨ b / 16 % 16 = 11 ∨
        b / 16 % 16 = 12 ∨ b / 16 % 16 = 13 := by omega
    rcases hcase with hm | hm | hm | hm | hm | hm
    · simp only [if_neg (show ¬ (b / 16 % 16 ≤ 3) from by omega),
        if_neg (show ¬ (b / 16 % 16 = 4) from by omega),
        if_neg (show ¬ (b / 16 % 16 = 5) from by omega),
        if_neg (show ¬ (b / 16 % 16 = 6) from by omega),
        if_neg (show ¬ (b / 16 % 16 = 7) from by omega),
        if_pos (show b / 16 % 16 = 8 from by omega),
        if_pos (show b % 16 = 11 from by omega)]
    · simp only [if_neg (show ¬ (b / 16 % 16 ≤ 3) from by omega),
        if_neg (show ¬ (b / 16 % 16 = 4) from by omega),
        if_neg (show ¬ (b / 16 % 16 = 5) from by omega),
        if_neg (show ¬ (b / 16 % 16 = 6) from by omega),
        if_neg (show ¬ (b / 16 % 16 = 7) from by omega),
        if_neg (show ¬ (b / 16 % 16 = 8) from by omega),
        if_pos (show b / 16 % 16 = 9 from by omega),
        if_pos (show b % 16 = 11 from by omega)]
    · simp only [if_neg (show ¬ (b / 16 % 16 ≤ 3) from by omega),
        if_neg (show ¬ (b / 16 % 16 = 4) from by omega),
        if_neg (show ¬ (b / 16 % 16 = 5) from by omega),
        if_neg (show ¬ (b / 16 % 16 = 6) from by omega),
        if_neg (show ¬ (b / 16 % 16 = 7) from by omega),
        if_neg (show ¬ (b / 16 % 16 = 8) from by omega),
        if_neg (show ¬ (b / 16 % 16 = 9) from by omega),
        if_pos (show b / 16 % 16 = 10 from by omega),
        if_pos (show b % 16 = 11 from by omega)]
    · simp only [if_neg (show ¬ (b / 16 % 16 ≤ 3) from by omega),
        if_neg (show ¬ (b / 16 % 16 = 4) from by omega),
        if_neg (show ¬ (b / 16 % 16 = 5) from by omega),
        if_neg (show ¬ (b / 16 % 16 = 6) from by omega),
        if_neg (show ¬ (b / 16 % 16 = 7) from by omega),
        if_neg (show ¬ (b / 16 % 16 = 8) from by omega),
        if_neg (show ¬ (b / 16 % 16 = 9) from by omega),
        if_neg (show ¬ (b / 16 % 16 = 10) from by omega),
        if_pos (show b / 16 % 16 = 11 from by omega),
        if_pos (show b % 16 = 11 from by omega)]
    · simp only [if_neg (show ¬ (b / 16 % 16 ≤ 3) from by omega),
        if_neg (show ¬ (b / 16 % 16 = 4) from by omega),
        if_neg (show ¬ (b / 16 % 16 = 5) from by omega),
        if_neg (show ¬ (b / 16 % 16 = 6) from by omega),
        if_neg (show ¬ (b / 16 % 16 = 7) from by omega),
        if_neg (show ¬ (b / 16 % 16 = 8) from by omega),
        if_neg (show ¬ (b / 16 % 16 = 9) from by omega),
        if_neg (show ¬ (b / 16 % 16 = 10) from by omega),
        if_neg (show ¬ (b / 16 % 16 = 11) from by omega),
        if_pos (show b / 16 % 16 = 12 from by omega),
        if_pos (show b % 16 = 11 from by omega)]
    · simp only [if_neg (show ¬ (b / 16 % 16 ≤ 3) from by omega),
        if_neg (show ¬ (b / 16 % 16 = 4) from by omega),
        if_neg (show ¬ (b / 16 % 16 = 5) from by omega),
        if_neg (show ¬ (b / 16 % 16 = 6) from by omega),
        if_neg (show ¬ (b / 16 % 16 = 7) from by omega),
        if_neg (show ¬ (b / 16 % 16 = 8) from by omega),
        if_neg (show ¬ (b / 16 % 16 = 9) from by omega),
        if_neg (show ¬ (b / 16 % 16 = 10) from by omega),
        if_neg (show ¬ (b / 16 % 16 = 11) from by omega),
        if_neg (show ¬ (b / 16 % 16 = 12) from by omega),
        if_pos (show b / 16 % 16 = 13 from by omega),
        if_pos (show b % 16 = 11 from by omega)]
  · simp only [if_neg (show ¬ (b / 16 % 16 ≤ 3) from by omega),
      if_neg (show ¬ (b / 16 % 16 = 4) from by omega),
      if_neg (show ¬ (b / 16 % 16 = 5) from by omega),
      if_neg (show ¬ (b / 16 % 16 = 6) from by omega),
      if_neg (show ¬ (b / 16 % 16 = 7) from by omega),
      if_neg (show ¬ (b / 16 % 16 = 8) from by omega),
      if_neg (show ¬ (b / 16 % 16 = 9) from by omega),
      if_neg (show ¬ (b / 16 % 16 = 10) from by omega),
      if_neg (show ¬ (b / 16 % 16 = 11) from by omega),
      if_neg (show ¬ (b / 16 % 16 = 12) from by omega),
      if_neg (show ¬ (b / 16 % 16 = 13) from by omega),
      if_pos (show b / 16 % 16 = 14 from by omega),
      if_neg (show ¬ (b % 16 = 0) from by omega),
      if_neg (show ¬ (b % 16 = 2) from by omega),
      if_neg (show ¬ (b % 16 = 3) from by omega),
      if_neg (show ¬ (b % 16 = 4) from by omega),
      if_neg (show ¬ (b % 16 = 6) from by omega),
      if_neg (show ¬ (b % 16 = 7) from by omega),
      if_neg (show ¬ (b % 16 = 15) from by omega)]

/-- Claim C2 witness: descriptor byte `0x5B` (`m = 5, r = 11`) is rejected. -/
theorem C2_illegal_descriptor_parse_error_witness :
    decodeDescriptorOperand ⟨[0x5B], 0⟩ defaultOperand Data.word Option.none false =
      .error DecodeError.parse :=
  C2_illegal_descriptor_parse_error ⟨[0x5B], 0⟩ defaultOperand Data.word Option.none
    false 0x5B (by decide) rfl (by decide) (Or.inl (by decide))

/-! ## Expanded-type propagation (claim C4) -/

theorem getD_set_zero (l : List Operand) (x : Operand) (h : 0 < l.length) :
    (l.set 0 x).getD 0 defaultOperand = x := by
  cases l with
  | nil => simp at h
  | cons a t => simp

/-- One-step unfolding of the operand loop at a non-`None` slot. -/
theorem decodeOps_cons_ne {ot : OpType} {ots : List OpType} {mn : Mnemonic}
    {etype : Option Data} {index : Nat} {ir : Instruction} {c : Cursor}
    (hne : ¬ (ot = OpType.none)) :
    decodeOps (ot :: ots) mn etype index ir c =
      match decodeOperand c ir index mn ot etype with
      | .error e => .error e
      | .ok (ir₁, c₁) =>
        decodeOps ots mn ((ir₁.operands.getD index defaultOperand).expanded_type)
          (index + 1) ir₁ c₁ := by
  simp only [decodeOps, if_neg hne]

/-- Any descriptor operand whose leading byte is not an expanded-type prefix
(`m ≠ 14`) keeps the `etype` it was called with as its `expanded_type`. -/
theorem descF_expanded_of_not14 (fuel : Nat) (c : Cursor) (op : Operand)
    (dtype : Data) (etype : Option Data) (recur : Bool) (op₁ : Operand) (c₁ : Cursor)
    (hm : c.data.getD c.pos 0 / 16 % 16 ≠ 14)
    (h : decodeDescriptorOperandF fuel c op dtype etype recur = .ok (op₁, c₁)) :
    op₁.expanded_type = etype := by
  cases fuel with
  | zero => simp [decodeDescriptorOperandF] at h
  | succ k =>
    simp only [decodeDescriptorOperandF] at h
    cases hd : dReadU8 c with
    | error e => rw [hd] at h; simp at h
    | ok p =>
      obtain ⟨b, c'⟩ := p
      rw [hd] at h
      obtain ⟨hlt, hb, hc'⟩ := dReadU8_ok hd
      rw [← hb] at hm
      have hcase : b / 16 % 16 ≤ 3 ∨ b / 16 % 16 = 4 ∨ b / 16 % 16 = 5 ∨ b / 16 % 16 = 6 ∨ b / 16 % 16 = 7 ∨
          b / 16 % 16 = 8 ∨ b / 16 % 16 = 9 ∨ b / 16 % 16 = 10 ∨ b / 16 % 16 = 11 ∨ b / 16 % 16 = 12 ∨
          b / 16 % 16 = 13 ∨ b / 16 % 16 = 14 ∨ b / 16 % 16 = 15 := by omega
      rcases hcase with hmc | hmc | hmc | hmc | hmc | hmc | hmc | hmc | hmc | hmc | hmc | hmc | hmc
      · simp only [if_pos (show b / 16 % 16 ≤ 3 from by omega)] at h
        simp only [Except.ok.injEq, Prod.mk.injEq] at h
        obtain ⟨hop, -⟩ := h
        subst hop
        simp [append_u8_expanded_type]
      · simp only [if_neg (show ¬ (b / 16 % 16 ≤ 3) from by omega),
          if_pos (show b / 16 % 16 = 4 from by omega)] at h
        by_cases hr : b % 16 = 15
        · rw [if_pos hr] at h
          cases hrd : dReadU32le c' with
          | error e => rw [hrd] at h; simp at h
          | ok q =>
            obtain ⟨w, c2⟩ := q
            rw [hrd] at h
            simp only [Except.ok.injEq, Prod.mk.injEq] at h
            obtain ⟨hop, -⟩ := h
            subst hop
            simp [append_u32_expanded_type, append_u8_expanded_type]
        · rw [if_neg hr] at h
          simp only [Except.ok.injEq, Prod.mk.injEq] at h
          obtain ⟨hop, -⟩ := h
          subst hop
          simp [append_u8_expanded_type]
      · simp only [if_neg (show ¬ (b / 16 % 16 ≤ 3) from by omega),
          if_neg (show ¬ (b / 16 % 16 = 4) from by omega),
          if_pos (show b / 16 % 16 = 5 from by omega)] at h
        by_cases hr : b % 16 = 15
        · rw [if_pos hr] at h
          cases hrd : dReadU16le c' with
          | error e => rw [hrd] at h; simp at h
          | ok q =>
            obtain ⟨w, c2⟩ := q
            rw [hrd] at h
            simp only [Except.ok.injEq, Prod.mk.injEq] at h
            obtain ⟨hop, -⟩ := h
            subst hop
            simp [append_u16_expanded_type, append_u8_expanded_type]
        · rw [if_neg hr] at h
          by_cases hr11 : b % 16 = 11
          · rw [if_pos hr11] at h
            simp at h
          · rw [if_neg hr11] at h
            simp only [Except.ok.injEq, Prod.mk.injEq] at h
            obtain ⟨hop, -⟩ := h
            subst hop
            simp [append_u8_expanded_type]
      · simp only [if_neg (show ¬ (b / 16 % 16 ≤ 3) from by omega),
          if_neg (show ¬ (b / 16 % 16 = 4) from by omega),
          if_neg (show ¬ (b / 16 % 16 = 5) from by omega),
          if_pos (show b / 16 % 16 = 6 from by omega)] at h
        by_cases hr : b % 16 = 15
        · rw [if_pos hr] at h
          cases hrd : dReadU8 c' with
          | error e => rw [hrd] at h; simp at h
          | ok q =>
            obtain ⟨w, c2⟩ := q
            rw [hrd] at h
            simp only [Except.ok.injEq, Prod.mk.injEq] at h
            obtain ⟨hop, -⟩ := h
            subst hop
            simp [append_u8_expanded_type, append_u8_expanded_type]
        · rw [if_neg hr] at h
          simp only [Except.ok.injEq, Prod.mk.injEq] at h
          obtain ⟨hop, -⟩ := h
          subst hop
          simp [append_u8_expanded_type]
      · simp only [if_neg (show ¬ (b / 16 % 16 ≤ 3) from by omega),
          if_neg (show ¬ (b / 16 % 16 = 4) from by omega),
          if_neg (show ¬ (b / 16 % 16 = 5) from by omega),
          if_neg (show ¬ (b / 16 % 16 = 6) from by omega),
          if_pos (show b / 16 % 16 = 7 from by omega)] at h
        by_cases hr : b % 16 = 15
        · rw [if_pos hr] at h
          cases hrd : dReadU32le c' with
          | error e => rw [hrd] at h; simp at h
          | ok q =>
            obtain ⟨w, c2⟩ := q
            rw [hrd] at h
            simp only [Except.ok.injEq, Prod.mk.injEq] at h
            obtain ⟨hop, -⟩ := h
            subst hop
            simp [append_u32_expanded_type, append_u8_expanded_type]
        · rw [if_neg hr] at h
          simp only [Except.ok.injEq, Prod.mk.injEq] at h
          obtain ⟨hop, -⟩ := h
          subst hop
          simp [append_u8_expanded_type]
      · simp only [if_neg (show ¬ (b / 16 % 16 ≤ 3) from by omega),
          if_neg (show ¬ (b / 16 % 16 = 4) from by omega),
          if_neg (show ¬ (b / 16 % 16 = 5) from by omega),
          if_neg (show ¬ (b / 16 % 16 = 6) from by omega),
          if_neg (show ¬ (b / 16 % 16 = 7) from by omega),
          if_pos (show b / 16 % 16 = 8 from by omega)] at h
        by_cases hr : b % 16 = 11
        · rw [if_pos hr] at h
          simp at h
        · rw [if_neg hr] at h
          cases hrd : dReadU32le c' with
          | error e => rw [hrd] at h; simp at h
          | ok q =>
            obtain ⟨w, c2⟩ := q
            rw [hrd] at h
            simp only [Except.ok.injEq, Prod.mk.injEq] at h
            obtain ⟨hop, -⟩ := h
            subst hop
            simp [append_u32_expanded_type, append_u8_expanded_type]
      · simp only [if_neg (show ¬ (b / 16 % 16 ≤ 3) from by omega),
          if_neg (show ¬ (b / 16 % 16 = 4) from by omega),
          if_neg (show ¬ (b / 16 % 16 = 5) from by omega),
          if_neg (show ¬ (b / 16 % 16 = 6) from by omega),
          if_neg (show ¬ (b / 16 % 16 = 7) from by omega),
          if_neg (show ¬ (b / 16 % 16 = 8) from by omega),
          if_pos (show b / 16 % 16 = 9 from by omega)] at h
        by_cases hr : b % 16 = 11
        · rw [if_pos hr] at h
          simp at h
        · rw [if_neg hr] at h
          cases hrd : dReadU32le c' with
          | error e => rw [hrd] at h; simp at h
          | ok q =>
            obtain ⟨w, c2⟩ := q
            rw [hrd] at h
            simp only [Except.ok.injEq, Prod.mk.injEq] at h
            obtain ⟨hop, -⟩ := h
            subst hop
            simp [append_u32_expanded_type, append_u8_expanded_type]
      · simp only [if_neg (show ¬ (b / 16 % 16 ≤ 3) from by omega),
          if_neg (show ¬ (b / 16 % 16 = 4) from by omega),
          if_neg (show ¬ (b / 16 % 16 = 5) from by omega),
          if_neg (show ¬ (b / 16 % 16 = 6) from by omega),
          if_neg (show ¬ (b / 16 % 16 = 7) from by omega),
          if_neg (show ¬ (b / 16 % 16 = 8) from by omega),
          if_neg (show ¬ (b / 16 % 16 = 9) from by omega),
          if_pos (show b / 16 % 16 = 10 from by omega)] at h
        by_cases hr : b % 16 = 11
        · rw [if_pos hr] at h
          simp at h
        · rw [if_neg hr] at h
          cases hrd : dReadU16le c' with
          | error e => rw [hrd] at h; simp at h
          | ok q =>
            obtain ⟨w, c2⟩ := q
            rw [hrd] at h
            simp only [Except.ok.injEq, Prod.mk.injEq] at h
            obtain ⟨hop, -⟩ := h
            subst hop
            simp [append_u16_expanded_type, append_u8_expanded_type]
      · simp only [if_neg (show ¬ (b / 16 % 16 ≤ 3) from by omega),
          if_neg (show ¬ (b / 16 % 16 = 4) from by omega),
          if_neg (show ¬ (b / 16 % 16 = 5) from by omega),
          if_neg (show ¬ (b / 16 % 16 = 6) from by omega),
          if_neg (show ¬ (b / 16 % 16 = 7) from by omega),
          if_neg (show ¬ (b / 16 % 16 = 8) from by omega),
          if_neg (show ¬ (b / 16 % 16 = 9) from by omega),
          if_neg (show ¬ (b / 16 % 16 = 10) from by omega),
          if_pos (show b / 16 % 16 = 11 from by omega)] at h
        by_cases hr : b % 16 = 11
        · rw [if_pos hr] at h
          simp at h
        · rw [if_neg hr] at h
          cases hrd : dReadU16le c' with
          | error e => rw [hrd] at h; simp at h
          | ok q =>
            obtain ⟨w, c2⟩ := q
            rw [hrd] at h
            simp only [Except.ok.injEq, Prod.mk.injEq] at h
            obtain ⟨hop, -⟩ := h
            subst hop
            simp [append_u16_expanded_type, append_u8_expanded_type]
      · simp only [if_neg (show ¬ (b / 16 % 16 ≤ 3) from by omega),
          if_neg (show ¬ (b / 16 % 16 = 4) from by omega),
          if_neg (show ¬ (b / 16 % 16 = 5) from by omega),
          if_neg (show ¬ (b / 16 % 16 = 6) from by omega),
          if_neg (show ¬ (b / 16 % 16 = 7) from by omega),
          if_neg (show ¬ (b / 16 % 16 = 8) from by omega),
          if_neg (show ¬ (b / 16 % 16 = 9) from by omega),
          if_neg (show ¬ (b / 16 % 16 = 10) from by omega),
          if_neg (show ¬ (b / 16 % 16 = 11) from by omega),
          if_pos (show b / 16 % 16 = 12 from by omega)] at h
        by_cases hr : b % 16 = 11
        · rw [if_pos hr] at h
          simp at h
        · rw [if_neg hr] at h
          cases hrd : dReadU8 c' with
          | error e => rw [hrd] at h; simp at h
          | ok q =>
            obtain ⟨w, c2⟩ := q
            rw [hrd] at h
            simp only [Except.ok.injEq, Prod.mk.injEq] at h
            obtain ⟨hop, -⟩ := h
            subst hop
            simp [append_u8_expanded_type, append_u8_expanded_type]
      · simp only [if_neg (show ¬ (b / 16 % 16 ≤ 3) from by omega),
          if_neg (show ¬ (b / 16 % 16 = 4) from by omega),
          if_neg (show ¬ (b / 16 % 16 = 5) from by omega),
          if_neg (show ¬ (b / 16 % 16 = 6) from by omega),
          if_neg (show ¬ (b / 16 % 16 = 7) from by omega),
          if_neg (show ¬ (b / 16 % 16 = 8) from by omega),
          if_neg (show ¬ (b / 16 % 16 = 9) from by omega),
          if_neg (show ¬ (b / 16 % 16 = 10) from by omega),
          if_neg (show ¬ (b / 16 % 16 = 11) from by omega),
          if_neg (show ¬ (b / 16 % 16 = 12) from by omega),
          if_pos (show b / 16 % 16 = 13 from by omega)] at h
        by_cases hr : b % 16 = 11
        · rw [if_pos hr] at h
          simp at h
        · rw [if_neg hr] at h
          cases hrd : dReadU8 c' with
          | error e => rw [hrd] at h; simp at h
          | ok q =>
            obtain ⟨w, c2⟩ := q
            rw [hrd] at h
            simp only [Except.ok.injEq, Prod.mk.injEq] at h
            obtain ⟨hop, -⟩ := h
            subst hop
            simp [append_u8_expanded_type, append_u8_expanded_type]
      · exact absurd hmc hm
      · simp only [if_neg (show ¬ (b / 16 % 16 ≤ 3) from by omega),
          if_neg (show ¬ (b / 16 % 16 = 4) from by omega),
          if_neg (show ¬ (b / 16 % 16 = 5) from by omega),
          if_neg (show ¬ (b / 16 % 16 = 6) from by omega),
          if_neg (show ¬ (b / 16 % 16 = 7) from by omega),
          if_neg (show ¬ (b / 16 % 16 = 8) from by omega),
          if_neg (show ¬ (b / 16 % 16 = 9) from by omega),
          if_neg (show ¬ (b / 16 % 16 = 10) from by omega),
          if_neg (show ¬ (b / 16 % 16 = 11) from by omega),
          if_neg (show ¬ (b / 16 % 16 = 12) from by omega),
          if_neg (show ¬ (b / 16 % 16 = 13) from by omega),
          if_neg (show ¬ (b / 16 % 16 = 14) from by omega),
          if_pos (show b / 16 % 16 = 15 from by omega)] at h
        simp only [Except.ok.injEq, Prod.mk.injEq] at h
        obtain ⟨hop, -⟩ := h
        subst hop
        simp [append_u8_expanded_type]

/-- A descriptor operand whose first byte is `0xE4` (`m = 14, r = 4`) and
whose second byte is not itself an expanded-type prefix decodes with
`expanded_type = Word`. -/
theorem desc_E4_expanded_word (c : Cursor) (op : Operand) (dtype : Data)
    (etype : Option Data) (recur : Bool) (op₁ : Operand) (c₁ : Cursor)
    (hE4 : c.data.getD c.pos 0 = 0xE4)
    (hinner : c.data.getD (c.pos + 1) 0 / 16 % 16 ≠ 14)
    (h : decodeDescriptorOperand c op dtype etype recur = .ok (op₁, c₁)) :
    op₁.expanded_type = some Data.word := by
  have hpos : c.pos < c.data.length := by
    by_contra hge
    have hz : c.data.length - c.pos = 0 := by omega
    unfold decodeDescriptorOperand at h
    rw [hz] at h
    simp [decodeDescriptorOperandF] at h
  unfold decodeDescriptorOperand at h
  rw [show c.data.length - c.pos = (c.data.length - (c.pos + 1)) + 1 from by omega] at h
  simp only [decodeDescriptorOperandF] at h
  rw [dReadU8_of_lt hpos, hE4] at h
  norm_num at h
  exact descF_expanded_of_not14 _ _ _ _ _ _ _ _ hinner h

/-- Claim C4 (amended): in an instruction with at least two operand slots,
an operand starting with descriptor byte `0xE4` (`m = 14, r = 4`), whose
recursively decoded operand is not itself an expanded-type prefix, decodes
with `expanded_type = Word`, and the next operand of the same instruction is
decoded with the etype carry equal to `Word` (the carry starts as `None` and
is updated from each operand's `expanded_type`).  The claim as frozen omits
the proviso on the second byte; a nested prefix overrides the carry (see the
counterexample). -/
theorem C4_expanded_type_carry (mn : Mnemonic) (ot₀ ot₁ : OpType)
    (ops : List OpType) (ir : Instruction) (c : Cursor) (index₂ : Nat)
    (ir₂ : Instruction) (c₂ : Cursor)
    (h0 : ot₀ = OpType.src ∨ ot₀ = OpType.dest) (h1 : ot₁ ≠ OpType.none)
    (hlen : 0 < ir.operands.length)
    (hE4 : c.data.getD c.pos 0 = 0xE4)
    (hinner : c.data.getD (c.pos + 1) 0 / 16 % 16 ≠ 14)
    (h : decodeOps (ot₀ :: ot₁ :: ops) mn Option.none 0 ir c = .ok (index₂, ir₂, c₂)) :
    ∃ ir₁ c₁, decodeOperand c ir 0 mn ot₀ Option.none = .ok (ir₁, c₁) ∧
      (ir₁.operands.getD 0 defaultOperand).expanded_type = some Data.word ∧
      decodeOps (ot₁ :: ops) mn (some Data.word) 1 ir₁ c₁ = .ok (index₂, ir₂, c₂) := by
  have hne : ¬ (ot₀ = OpType.none) := by rcases h0 with h0 | h0 <;> subst h0 <;> decide
  rw [decodeOps_cons_ne hne] at h
  cases hop : decodeOperand c ir 0 mn ot₀ Option.none with
  | error e => rw [hop] at h; simp at h
  | ok p =>
    obtain ⟨ir₁, c₁⟩ := p
    rw [hop] at h
    dsimp only at h
    have hexp : (ir₁.operands.getD 0 defaultOperand).expanded_type = some Data.word := by
      rcases h0 with h0 | h0 <;> subst h0 <;>
        · simp only [decodeOperand] at hop
          cases hdesc : decodeDescriptorOperand c
              ((ir.operands.getD 0 defaultOperand).reset) mn.dtype Option.none false with
          | error e => rw [hdesc] at hop; simp at hop
          | ok q =>
            obtain ⟨opd, cd⟩ := q
            rw [hdesc] at hop
            simp only [Except.ok.injEq, Prod.mk.injEq] at hop
            obtain ⟨hir, -⟩ := hop
            rw [← hir]
            rw [getD_set_zero _ _ hlen]
            exact desc_E4_expanded_word _ _ _ _ _ _ _ hE4 hinner hdesc
    rw [hexp] at h
    exact ⟨ir₁, c₁, rfl, hexp, h⟩

/-- Claim C4 counterexample: in `MOVW` on bytes `84 E4 E3 40 41` the first
operand's descriptor byte is `0xE4` (`m = 14, r = 4`) but the decoded
`expanded_type` is `Byte`, not `Word` — the nested `0xE3` prefix overrides
the carry — and the second operand inherits `Byte` as well. -/
theorem C4_counterexample_nested_override :
    (decodeInstruction Decoder.new ⟨[0x84, 0xE4, 0xE3, 0x40, 0x41], 0⟩).map
      (fun p => ((p.1.operands.getD 0 defaultOperand).expanded_type,
                 (p.1.operands.getD 1 defaultOperand).expanded_type)) =
      .ok (some Data.byte, some Data.byte) ∧
    (some Data.byte ≠ some Data.word) := ⟨rfl, by decide⟩

/-- Claim C4 witness: the amended carry theorem applied to `MOVW` operand
bytes `E4 40 41`. -/
theorem C4_expanded_type_carry_witness :
    ∃ index₂ ir₂ c₂,
      decodeOps [OpType.src, OpType.dest]
        ⟨0x84, Data.word, "MOVW", [OpType.src, OpType.dest, OpType.none, OpType.none]⟩
        Option.none 0 Decoder.new ⟨[0xE4, 0x40, 0x41], 0⟩ = .ok (index₂, ir₂, c₂) ∧
      ∃ ir₁ c₁, decodeOperand ⟨[0xE4, 0x40, 0x41], 0⟩ Decoder.new 0
          ⟨0x84, Data.word, "MOVW", [OpType.src, OpType.dest, OpType.none, OpType.none]⟩
          OpType.src Option.none = .ok (ir₁, c₁) ∧
        (ir₁.operands.getD 0 defaultOperand).expanded_type = some Data.word ∧
        decodeOps [OpType.dest]
          ⟨0x84, Data.word, "MOVW", [OpType.src, OpType.dest, OpType.none, OpType.none]⟩
          (some Data.word) 1 ir₁ c₁ = .ok (index₂, ir₂, c₂) :=
  ⟨_, _, _, rfl,
    C4_expanded_type_carry
      ⟨0x84, Data.word, "MOVW", [OpType.src, OpType.dest, OpType.none, OpType.none]⟩
      OpType.src OpType.dest [] Decoder.new ⟨[0xE4, 0x40, 0x41], 0⟩ _ _ _
      (Or.inl rfl) (by decide) (by decide) rfl (by decide) rfl⟩

/-! ## Cursor advance of the decoder (claim C3) -/

/-- A successful descriptor-operand decode never touches bytes of another
stream and only moves the cursor forward. -/
theorem descF_cursor_mono : ∀ (fuel : Nat) (c : Cursor) (op : Operand)
    (dtype : Data) (etype : Option Data) (recur : Bool) (op₁ : Operand) (c₁ : Cursor),
    decodeDescriptorOperandF fuel c op dtype etype recur = .ok (op₁, c₁) →
    c₁.data = c.data ∧ c.pos ≤ c₁.pos := by
  intro fuel
  induction fuel with
  | zero =>
    intro c op dtype etype recur op₁ c₁ h
    simp [decodeDescriptorOperandF] at h
  | succ k ih =>
    intro c op dtype etype recur op₁ c₁ h
    simp only [decodeDescriptorOperandF] at h
    cases hd : dReadU8 c with
    | error e => rw [hd] at h; simp at h
    | ok p =>
      obtain ⟨b, c'⟩ := p
      rw [hd] at h
      obtain ⟨hlt, hb, hc'⟩ := dReadU8_ok hd
      subst hc'
      have hcase : b / 16 % 16 ≤ 3 ∨ b / 16 % 16 = 4 ∨ b / 16 % 16 = 5 ∨ b / 16 % 16 = 6 ∨ b / 16 % 16 = 7 ∨
          b / 16 % 16 = 8 ∨ b / 16 % 16 = 9 ∨ b / 16 % 16 = 10 ∨ b / 16 % 16 = 11 ∨ b / 16 % 16 = 12 ∨
          b / 16 % 16 = 13 ∨ b / 16 % 16 = 14 ∨ b / 16 % 16 = 15 := by omega
      rcases hcase with hmc | hmc | hmc | hmc | hmc | hmc | hmc | hmc | hmc | hmc | hmc | hmc | hmc
      · simp only [if_pos (show b / 16 % 16 ≤ 3 from by omega)] at h
        simp only [Except.ok.injEq, Prod.mk.injEq] at h
        obtain ⟨-, hcc⟩ := h
        subst hcc
        exact ⟨rfl, by show c.pos ≤ c.pos + 1; omega⟩
      · simp only [if_neg (show ¬ (b / 16 % 16 ≤ 3) from by omega),
          if_pos (show b / 16 % 16 = 4 from by omega)] at h
        by_cases hr : b % 16 = 15
        · rw [if_pos hr] at h
          cases hrd : dReadU32le (⟨c.data, c.pos + 1⟩ : Cursor) with
          | error e => rw [hrd] at h; simp at h
          | ok q =>
            obtain ⟨w, c2⟩ := q
            rw [hrd] at h
            obtain ⟨hbnd, hc2⟩ := dReadU32le_ok hrd
            subst hc2
            simp only [Except.ok.injEq, Prod.mk.injEq] at h
            obtain ⟨-, hcc⟩ := h
            subst hcc
            exact ⟨rfl, by show c.pos ≤ c.pos + 1 + 4; omega⟩
        · rw [if_neg hr] at h
          simp only [Except.ok.injEq, Prod.mk.injEq] at h
          obtain ⟨-, hcc⟩ := h
          subst hcc
          exact ⟨rfl, by show c.pos ≤ c.pos + 1; omega⟩
      · simp only [if_neg (show ¬ (b / 16 % 16 ≤ 3) from by omega),
          if_neg (show ¬ (b / 16 % 16 = 4) from by omega),
          if_pos (show b / 16 % 16 = 5 from by omega)] at h
        by_cases hr : b % 16 = 15
        · rw [if_pos hr] at h
          cases hrd : dReadU16le (⟨c.data, c.pos + 1⟩ : Cursor) with
          | error e => rw [hrd] at h; simp at h
          | ok q =>
            obtain ⟨w, c2⟩ := q
            rw [hrd] at h
            obtain ⟨hbnd, hc2⟩ := dReadU16le_ok hrd
            subst hc2
            simp only [Except.ok.injEq, Prod.mk.injEq] at h
            obtain ⟨-, hcc⟩ := h
            subst hcc
            exact ⟨rfl, by show c.pos ≤ c.pos + 1 + 2; omega⟩
        · rw [if_neg hr] at h
          by_cases hr11 : b % 16 = 11
          · rw [if_pos hr11] at h
            simp at h
          · rw [if_neg hr11] at h
            simp only [Except.ok.injEq, Prod.mk.injEq] at h
            obtain ⟨-, hcc⟩ := h
            subst hcc
            exact ⟨rfl, by show c.pos ≤ c.pos + 1; omega⟩
      · simp only [if_neg (show ¬ (b / 16 % 16 ≤ 3) from by omega),
          if_neg (show ¬ (b / 16 % 16 = 4) from by omega),
          if_neg (show ¬ (b / 16 % 16 = 5) from by omega),
          if_pos (show b / 16 % 16 = 6 from by omega)] at h
        by_cases hr : b % 16 = 15
        · rw [if_pos hr] at h
          cases hrd : dReadU8 (⟨c.data, c.pos + 1⟩ : Cursor) with
          | error e => rw [hrd] at h; simp at h
          | ok q =>
            obtain ⟨w, c2⟩ := q
            rw [hrd] at h
            obtain ⟨hbnd, -, hc2⟩ := dReadU8_ok hrd
            subst hc2
            simp only [Except.ok.injEq, Prod.mk.injEq] at h
            obtain ⟨-, hcc⟩ := h
            subst hcc
            exact ⟨rfl, by show c.pos ≤ c.pos + 1 + 1; omega⟩
        · rw [if_neg hr] at h
          simp only [Except.ok.injEq, Prod.mk.injEq] at h
          obtain ⟨-, hcc⟩ := h
          subst hcc
          exact ⟨rfl, by show c.pos ≤ c.pos + 1; omega⟩
      · simp only [if_neg (show ¬ (b / 16 % 16 ≤ 3) from by omega),
          if_neg (show ¬ (b / 16 % 16 = 4) from by omega),
          if_neg (show ¬ (b / 16 % 16 = 5) from by omega),
          if_neg (show ¬ (b / 16 % 16 = 6) from by omega),
          if_pos (show b / 16 % 16 = 7 from by omega)] at h
        by_cases hr : b % 16 = 15
        · rw [if_pos hr] at h
          cases hrd : dReadU32le (⟨c.data, c.pos + 1⟩ : Cursor) with
          | error e => rw [hrd] at h; simp at h
          | ok q =>
            obtain ⟨w, c2⟩ := q
            rw [hrd] at h
            obtain ⟨hbnd, hc2⟩ := dReadU32le_ok hrd
            subst hc2
            simp only [Except.ok.injEq, Prod.mk.injEq] at h
            obtain ⟨-, hcc⟩ := h
            subst hcc
            exact ⟨rfl, by show c.pos ≤ c.pos + 1 + 4; omega⟩
        · rw [if_neg hr] at h
          simp only [Except.ok.injEq, Prod.mk.injEq] at h
          obtain ⟨-, hcc⟩ := h
          subst hcc
          exact ⟨rfl, by show c.pos ≤ c.pos + 1; omega⟩
      · simp only [if_neg (show ¬ (b / 16 % 16 ≤ 3) from by omega),
          if_neg (show ¬ (b / 16 % 16 = 4) from by omega),
          if_neg (show ¬ (b / 16 % 16 = 5) from by omega),
          if_neg (show ¬ (b / 16 % 16 = 6) from by omega),
          if_neg (show ¬ (b / 16 % 16 = 7) from by omega),
          if_pos (show b / 16 % 16 = 8 from by omega)] at h
        by_cases hr : b % 16 = 11
        · rw [if_pos hr] at h
          simp at h
        · rw [if_neg hr] at h
          cases hrd : dReadU32le (⟨c.data, c.pos + 1⟩ : Cursor) with
          | error e => rw [hrd] at h; simp at h
          | ok q =>
            obtain ⟨w, c2⟩ := q
            rw [hrd] at h
            obtain ⟨hbnd, hc2⟩ := dReadU32le_ok hrd
            subst hc2
            simp only [Except.ok.injEq, Prod.mk.injEq] at h
            obtain ⟨-, hcc⟩ := h
            subst hcc
            exact ⟨rfl, by show c.pos ≤ c.pos + 1 + 4; omega⟩
      · simp only [if_neg (show ¬ (b / 16 % 16 ≤ 3) from by omega),
          if_neg (show ¬ (b / 16 % 16 = 4) from by omega),
          if_neg (show ¬ (b / 16 % 16 = 5) from by omega),
          if_neg (show ¬ (b / 16 % 16 = 6) from by omega),
          if_neg (show ¬ (b / 16 % 16 = 7) from by omega),
          if_neg (show ¬ (b / 16 % 16 = 8) from by omega),
          if_pos (show b / 16 % 16 = 9 from by omega)] at h
        by_cases hr : b % 16 = 11
        · rw [if_pos hr] at h
          simp at h
        · rw [if_neg hr] at h
          cases hrd : dReadU32le (⟨c.data, c.pos + 1⟩ : Cursor) with
          | error e => rw [hrd] at h; simp at h
          | ok q =>
            obtain ⟨w, c2⟩ := q
            rw [hrd] at h
            obtain ⟨hbnd, hc2⟩ := dReadU32le_ok hrd
            subst hc2
            simp only [Except.ok.injEq, Prod.mk.injEq] at h
            obtain ⟨-, hcc⟩ := h
            subst hcc
            exact ⟨rfl, by show c.pos ≤ c.pos + 1 + 4; omega⟩
      · simp only [if_neg (show ¬ (b / 16 % 16 ≤ 3) from by omega),
          if_neg (show ¬ (b / 16 % 16 = 4) from by omega),
          if_neg (show ¬ (b / 16 % 16 = 5) from by omega),
          if_neg (show ¬ (b / 16 % 16 = 6) from by omega),
          if_neg (show ¬ (b / 16 % 16 = 7) from by omega),
          if_neg (show ¬ (b / 16 % 16 = 8) from by omega),
          if_neg (show ¬ (b / 16 % 16 = 9) from by omega),
          if_pos (show b / 16 % 16 = 10 from by omega)] at h
        by_cases hr : b % 16 = 11
        · rw [if_pos hr] at h
          simp at h
        · rw [if_neg hr] at h
          cases hrd : dReadU16le (⟨c.data, c.pos + 1⟩ : Cursor) with
          | error e => rw [hrd] at h; simp at h
          | ok q =>
            obtain ⟨w, c2⟩ := q
            rw [hrd] at h
            obtain ⟨hbnd, hc2⟩ := dReadU16le_ok hrd
            subst hc2
            simp only [Except.ok.injEq, Prod.mk.injEq] at h
            obtain ⟨-, hcc⟩ := h
            subst hcc
            exact ⟨rfl, by show c.pos ≤ c.pos + 1 + 2; omega⟩
      · simp only [if_neg (show ¬ (b / 16 % 16 ≤ 3) from by omega),
          if_neg (show ¬ (b / 16 % 16 = 4) from by omega),
          if_neg (show ¬ (b / 16 % 16 = 5) from by omega),
          if_neg (show ¬ (b / 16 % 16 = 6) from by omega),
          if_neg (show ¬ (b / 16 % 16 = 7) from by omega),
          if_neg (show ¬ (b / 16 % 16 = 8) from by omega),
          if_neg (show ¬ (b / 16 % 16 = 9) from by omega),
          if_neg (show ¬ (b / 16 % 16 = 10) from by omega),
          if_pos (show b / 16 % 16 = 11 from by omega)] at h
        by_cases hr : b % 16 = 11
        · rw [if_pos hr] at h
          simp at h
        · rw [if_neg hr] at h
          cases hrd : dReadU16le (⟨c.data, c.pos + 1⟩ : Cursor) with
          | error e => rw [hrd] at h; simp at h
          | ok q =>
            obtain ⟨w, c2⟩ := q
            rw [hrd] at h
            obtain ⟨hbnd, hc2⟩ := dReadU16le_ok hrd
            subst hc2
            simp only [Except.ok.injEq, Prod.mk.injEq] at h
            obtain ⟨-, hcc⟩ := h
            subst hcc
            exact ⟨rfl, by show c.pos ≤ c.pos + 1 + 2; omega⟩
      · simp only [if_neg (show ¬ (b / 16 % 16 ≤ 3) from by omega),
          if_neg (show ¬ (b / 16 % 16 = 4) from by omega),
          if_neg (show ¬ (b / 16 % 16 = 5) from by omega),
          if_neg (show ¬ (b / 16 % 16 = 6) from by omega),
          if_neg (show ¬ (b / 16 % 16 = 7) from by omega),
          if_neg (show ¬ (b / 16 % 16 = 8) from by omega),
          if_neg (show ¬ (b / 16 % 16 = 9) from by omega),
          if_neg (show ¬ (b / 16 % 16 = 10) from by omega),
          if_neg (show ¬ (b / 16 % 16 = 11) from by omega),
          if_pos (show b / 16 % 16 = 12 from by omega)] at h
        by_cases hr : b % 16 = 11
        · rw [if_pos hr] at h
          simp at h
        · rw [if_neg hr] at h
          cases hrd : dReadU8 (⟨c.data, c.pos + 1⟩ : Cursor) with
          | error e => rw [hrd] at h; simp at h
          | ok q =>
            obtain ⟨w, c2⟩ := q
            rw [hrd] at h
            obtain ⟨hbnd, -, hc2⟩ := dReadU8_ok hrd
            subst hc2
            simp only [Except.ok.injEq, Prod.mk.injEq] at h
            obtain ⟨-, hcc⟩ := h
            subst hcc
            exact ⟨rfl, by show c.pos ≤ c.pos + 1 + 1; omega⟩
      · simp only [if_neg (show ¬ (b / 16 % 16 ≤ 3) from by omega),
          if_neg (show ¬ (b / 16 % 16 = 4) from by omega),
          if_neg (show ¬ (b / 16 % 16 = 5) from by omega),
          if_neg (show ¬ (b / 16 % 16 = 6) from by omega),
          if_neg (show ¬ (b / 16 % 16 = 7) from by omega),
          if_neg (show ¬ (b / 16 % 16 = 8) from by omega),
          if_neg (show ¬ (b / 16 % 16 = 9) from by omega),
          if_neg (show ¬ (b / 16 % 16 = 10) from by omega),
          if_neg (show ¬ (b / 16 % 16 = 11) from by omega),
          if_neg (show ¬ (b / 16 % 16 = 12) from by omega),
          if_pos (show b / 16 % 16 = 13 from by omega)] at h
        by_cases hr : b % 16 = 11
        · rw [if_pos hr] at h
          simp at h
        · rw [if_neg hr] at h
          cases hrd : dReadU8 (⟨c.data, c.pos + 1⟩ : Cursor) with
          | error e => rw [hrd] at h; simp at h
          | ok q =>
            obtain ⟨w, c2⟩ := q
            rw [hrd] at h
            obtain ⟨hbnd, -, hc2⟩ := dReadU8_ok hrd
            subst hc2
            simp only [Except.ok.injEq, Prod.mk.injEq] at h
            obtain ⟨-, hcc⟩ := h
            subst hcc
            exact ⟨rfl, by show c.pos ≤ c.pos + 1 + 1; omega⟩
      · simp only [if_neg (show ¬ (b / 16 % 16 ≤ 3) from by omega),
          if_neg (show ¬ (b / 16 % 16 = 4) from by omega),
          if_neg (show ¬ (b / 16 % 16 = 5) from by omega),
          if_neg (show ¬ (b / 16 % 16 = 6) from by omega),
          if_neg (show ¬ (b / 16 % 16 = 7) from by omega),
          if_neg (show ¬ (b / 16 % 16 = 8) from by omega),
          if_neg (show ¬ (b / 16 % 16 = 9) from by omega),
          if_neg (show ¬ (b / 16 % 16 = 10) from by omega),
          if_neg (show ¬ (b / 16 % 16 = 11) from by omega),
          if_neg (show ¬ (b / 16 % 16 = 12) from by omega),
          if_neg (show ¬ (b / 16 % 16 = 13) from by omega),
          if_pos (show b / 16 % 16 = 14 from by omega)] at h
        by_cases hr0 : b % 16 = 0
        · rw [if_pos hr0] at h
          obtain ⟨hd1, hp1⟩ := ih _ _ _ _ _ _ _ h
          refine ⟨hd1, ?_⟩
          have hp2 : c.pos + 1 ≤ c₁.pos := hp1
          omega
        rw [if_neg hr0] at h
        by_cases hr2 : b % 16 = 2
        · rw [if_pos hr2] at h
          obtain ⟨hd1, hp1⟩ := ih _ _ _ _ _ _ _ h
          refine ⟨hd1, ?_⟩
          have hp2 : c.pos + 1 ≤ c₁.pos := hp1
          omega
        rw [if_neg hr2] at h
        by_cases hr3 : b % 16 = 3
        · rw [if_pos hr3] at h
          obtain ⟨hd1, hp1⟩ := ih _ _ _ _ _ _ _ h
          refine ⟨hd1, ?_⟩
          have hp2 : c.pos + 1 ≤ c₁.pos := hp1
          omega
        rw [if_neg hr3] at h
        by_cases hr4 : b % 16 = 4
        · rw [if_pos hr4] at h
          obtain ⟨hd1, hp1⟩ := ih _ _ _ _ _ _ _ h
          refine ⟨hd1, ?_⟩
          have hp2 : c.pos + 1 ≤ c₁.pos := hp1
          omega
        rw [if_neg hr4] at h
        by_cases hr6 : b % 16 = 6
        · rw [if_pos hr6] at h
          obtain ⟨hd1, hp1⟩ := ih _ _ _ _ _ _ _ h
          refine ⟨hd1, ?_⟩
          have hp2 : c.pos + 1 ≤ c₁.pos := hp1
          omega
        rw [if_neg hr6] at h
        by_cases hr7 : b % 16 = 7
        · rw [if_pos hr7] at h
          obtain ⟨hd1, hp1⟩ := ih _ _ _ _ _ _ _ h
          refine ⟨hd1, ?_⟩
          have hp2 : c.pos + 1 ≤ c₁.pos := hp1
          omega
        rw [if_neg hr7] at h
        by_cases hr15 : b % 16 = 15
        · rw [if_pos hr15] at h
          cases hrd : dReadU32le (⟨c.data, c.pos + 1⟩ : Cursor) with
          | error e => rw [hrd] at h; simp at h
          | ok q =>
            obtain ⟨w, c2⟩ := q
            rw [hrd] at h
            obtain ⟨hbnd, hc2⟩ := dReadU32le_ok hrd
            subst hc2
            simp only [Except.ok.injEq, Prod.mk.injEq] at h
            obtain ⟨-, hcc⟩ := h
            subst hcc
            exact ⟨rfl, by show c.pos ≤ c.pos + 1 + 4; omega⟩
        · rw [if_neg hr15] at h
          simp at h
      · simp only [if_neg (show ¬ (b / 16 % 16 ≤ 3) from by omega),
          if_neg (show ¬ (b / 16 % 16 = 4) from by omega),
          if_neg (show ¬ (b / 16 % 16 = 5) from by omega),
          if_neg (show ¬ (b / 16 % 16 = 6) from by omega),
          if_neg (show ¬ (b / 16 % 16 = 7) from by omega),
          if_neg (show ¬ (b / 16 % 16 = 8) from by omega),
          if_neg (show ¬ (b / 16 % 16 = 9) from by omega),
          if_neg (show ¬ (b / 16 % 16 = 10) from by omega),
          if_neg (show ¬ (b / 16 % 16 = 11) from by omega),
          if_neg (show ¬ (b / 16 % 16 = 12) from by omega),
          if_neg (show ¬ (b / 16 % 16 = 13) from by omega),
          if_neg (show ¬ (b / 16 % 16 = 14) from by omega),
          if_pos (show b / 16 % 16 = 15 from by omega)] at h
        simp only [Except.ok.injEq, Prod.mk.injEq] at h
        obtain ⟨-, hcc⟩ := h
        subst hcc
        exact ⟨rfl, by show c.pos ≤ c.pos + 1; omega⟩

theorem decodeLiteralOperand_mono {c : Cursor} {op : Operand} {mn : Mnemonic}
    {op₁ : Operand} {c₁ : Cursor}
    (h : decodeLiteralOperand c op mn = .ok (op₁, c₁)) :
    c₁.data = c.data ∧ c.pos ≤ c₁.pos := by
  unfold decodeLiteralOperand at h
  cases hdt : mn.dtype <;> rw [hdt] at h
  case none => simp at h
  case sbyte => simp at h
  case uhalf => simp at h
  case uword => simp at h
  case byte =>
    cases hrd : dReadU8 c with
    | error e => rw [hrd] at h; simp at h
    | ok q =>
      obtain ⟨w, c2⟩ := q
      rw [hrd] at h
      obtain ⟨hbnd, -, hc2⟩ := dReadU8_ok hrd
      subst hc2
      simp only [Except.ok.injEq, Prod.mk.injEq] at h
      obtain ⟨-, hcc⟩ := h
      subst hcc
      exact ⟨rfl, by show c.pos ≤ c.pos + 1; omega⟩
  case half =>
    cases hrd : dReadU16le c with
    | error e => rw [hrd] at h; simp at h
    | ok q =>
      obtain ⟨w, c2⟩ := q
      rw [hrd] at h
      obtain ⟨hbnd, hc2⟩ := dReadU16le_ok hrd
      subst hc2
      simp only [Except.ok.injEq, Prod.mk.injEq] at h
      obtain ⟨-, hcc⟩ := h
      subst hcc
      exact ⟨rfl, by show c.pos ≤ c.pos + 2; omega⟩
  case word =>
    cases hrd : dReadU32le c with
    | error e => rw [hrd] at h; simp at h
    | ok q =>
      obtain ⟨w, c2⟩ := q
      rw [hrd] at h
      obtain ⟨hbnd, hc2⟩ := dReadU32le_ok hrd
      subst hc2
      simp only [Except.ok.injEq, Prod.mk.injEq] at h
      obtain ⟨-, hcc⟩ := h
      subst hcc
      exact ⟨rfl, by show c.pos ≤ c.pos + 4; omega⟩

theorem decodeOperand_mono {c : Cursor} {ir : Instruction} {index : Nat}
    {mn : Mnemonic} {ot : OpType} {etype : Option Data} {ir₁ : Instruction}
    {c₁ : Cursor} (h : decodeOperand c ir index mn ot etype = .ok (ir₁, c₁)) :
    c₁.data = c.data ∧ c.pos ≤ c₁.pos := by
  unfold decodeOperand at h
  cases ot with
  | lit =>
    dsimp only at h
    cases hl : decodeLiteralOperand c ((ir.operands.getD index defaultOperand).reset) mn with
    | error e => rw [hl] at h; simp at h
    | ok q =>
      obtain ⟨opx, cx⟩ := q
      rw [hl] at h
      simp only [Except.ok.injEq, Prod.mk.injEq] at h
      obtain ⟨-, hcc⟩ := h
      subst hcc
      exact decodeLiteralOperand_mono hl
  | src =>
    dsimp only at h
    cases hl : decodeDescriptorOperand c ((ir.operands.getD index defaultOperand).reset)
        mn.dtype etype false with
    | error e => rw [hl] at h; simp at h
    | ok q =>
      obtain ⟨opx, cx⟩ := q
      rw [hl] at h
      simp only [Except.ok.injEq, Prod.mk.injEq] at h
      obtain ⟨-, hcc⟩ := h
      subst hcc
      unfold decodeDescriptorOperand at hl
      exact descF_cursor_mono _ _ _ _ _ _ _ _ hl
  | dest =>
    dsimp only at h
    cases hl : decodeDescriptorOperand c ((ir.operands.getD index defaultOperand).reset)
        mn.dtype etype false with
    | error e => rw [hl] at h; simp at h
    | ok q =>
      obtain ⟨opx, cx⟩ := q
      rw [hl] at h
      simp only [Except.ok.injEq, Prod.mk.injEq] at h
      obtain ⟨-, hcc⟩ := h
      subst hcc
      unfold decodeDescriptorOperand at hl
      exact descF_cursor_mono _ _ _ _ _ _ _ _ hl
  | none =>
    dsimp only at h
    simp only [Except.ok.injEq, Prod.mk.injEq] at h
    obtain ⟨-, hcc⟩ := h
    subst hcc
    exact ⟨rfl, Nat.le_refl _⟩

theorem decodeOps_chain : ∀ (ops : List OpType) (mn : Mnemonic)
    (etype : Option Data) (index : Nat) (ir : Instruction) (c : Cursor)
    (index₂ : Nat) (ir₂ : Instruction) (c₂ : Cursor),
    decodeOps ops mn etype index ir c = .ok (index₂, ir₂, c₂) →
    ∃ sizes : List Nat, OperandChain mn index ir c ops etype sizes ir₂ c₂ ∧
      index₂ = index + sizes.length ∧ c₂.data = c.data ∧
      c₂.pos = c.pos + sizes.sum := by
  intro ops
  induction ops with
  | nil =>
    intro mn etype index ir c i2 ir2 c2 h
    simp only [decodeOps, Except.ok.injEq, Prod.mk.injEq] at h
    obtain ⟨h1, h2, h3⟩ := h
    subst h1
    subst h2
    subst h3
    exact ⟨[], .nil _ _ _ _, by simp, rfl, by simp⟩
  | cons ot rest ih =>
    intro mn etype index ir c i2 ir2 c2 h
    by_cases hot : ot = OpType.none
    · subst hot
      simp only [decodeOps, if_pos] at h
      simp only [Except.ok.injEq, Prod.mk.injEq] at h
      obtain ⟨h1, h2, h3⟩ := h
      subst h1
      subst h2
      subst h3
      exact ⟨[], .stop _ _ _ _ _, by simp, rfl, by simp⟩
    · rw [decodeOps_cons_ne hot] at h
      cases hop : decodeOperand c ir index mn ot etype with
      | error e => rw [hop] at h; simp at h
      | ok p =>
        obtain ⟨ir₁, c₁⟩ := p
        rw [hop] at h
        dsimp only at h
        obtain ⟨sizes, hch, hidx, hdata, hpos⟩ := ih _ _ _ _ _ _ _ _ h
        obtain ⟨hdat1, hle1⟩ := decodeOperand_mono hop
        refine ⟨(c₁.pos - c.pos) :: sizes, .step hot hop hch, ?_, ?_, ?_⟩
        · rw [List.length_cons]
          omega
        · rw [hdata, hdat1]
        · rw [List.sum_cons]
          omega

/-- Claim C3: on every successful `decode_instruction` the cursor ends
exactly past the consumed bytes — at the start position plus 1 (or 2 for a
`0x30`-prefixed halfword opcode) plus the sum of the bytes consumed by each
decoded operand, where the per-operand byte counts are certified by an
`OperandChain` of `decodeOperand` calls; the stream is never swapped and the
operand count equals the number of decoded operands. -/
theorem C3_decode_instruction_cursor (ir : Instruction) (c : Cursor)
    (ir₂ : Instruction) (c₂ : Cursor)
    (h : decodeInstruction ir c = .ok (ir₂, c₂)) :
    c₂.data = c.data ∧
    ∃ (opLen : Nat) (mn : Mnemonic) (sizes : List Nat) (ir₁ : Instruction),
      ((c.data.getD c.pos 0 = 0x30 ∧ opLen = 2) ∨
       (c.data.getD c.pos 0 ≠ 0x30 ∧ opLen = 1)) ∧
      OperandChain mn 0 ir ⟨c.data, c.pos + opLen⟩ mn.ops Option.none sizes ir₁ c₂ ∧
      ir₂.operand_count = sizes.length ∧
      c₂.pos = c.pos + opLen + sizes.sum := by
  unfold decodeInstruction at h
  cases hb1 : dReadU8 c with
  | error e => rw [hb1] at h; simp at h
  | ok p =>
    obtain ⟨b1, c'⟩ := p
    rw [hb1] at h
    obtain ⟨hlt1, hbv1, hc'⟩ := dReadU8_ok hb1
    subst hc'
    dsimp only at h
    by_cases h30 : b1 = 0x30
    · rw [if_pos h30] at h
      cases hb2 : dReadU8 (⟨c.data, c.pos + 1⟩ : Cursor) with
      | error e => rw [hb2] at h; simp at h
      | ok q =>
        obtain ⟨b2, c''⟩ := q
        rw [hb2] at h
        obtain ⟨hlt2, hbv2, hc''⟩ := dReadU8_ok hb2
        subst hc''
        dsimp only at h
        cases hmn : findHalfwordMnemonic (b1 * 256 + b2) with
        | none => rw [hmn] at h; simp at h
        | some mn =>
          rw [hmn] at h
          dsimp only at h
          cases hops : decodeOps mn.ops mn Option.none 0 ir
              (⟨c.data, c.pos + 1 + 1⟩ : Cursor) with
          | error e => rw [hops] at h; simp at h
          | ok t =>
            obtain ⟨index, ir₁, c₃⟩ := t
            rw [hops] at h
            simp only [Except.ok.injEq, Prod.mk.injEq] at h
            obtain ⟨hir2, hcc⟩ := h
            subst hcc
            obtain ⟨sizes, hch, hidx, hdata, hpos⟩ := decodeOps_chain _ _ _ _ _ _ _ _ _ hops
            refine ⟨hdata, 2, mn, sizes, ir₁, Or.inl ⟨by rw [← hbv1, h30], rfl⟩, hch, ?_, ?_⟩
            · rw [← hir2]
              simpa using hidx
            · have hp : c₃.pos = c.pos + 1 + 1 + sizes.sum := hpos
              omega
    · rw [if_neg h30] at h
      cases hmn : byteMnemonics b1 with
      | none => rw [hmn] at h; simp at h
      | some mn =>
        rw [hmn] at h
        dsimp only at h
        cases hops : decodeOps mn.ops mn Option.none 0 ir
            (⟨c.data, c.pos + 1⟩ : Cursor) with
        | error e => rw [hops] at h; simp at h
        | ok t =>
          obtain ⟨index, ir₁, c₃⟩ := t
          rw [hops] at h
          simp only [Except.ok.injEq, Prod.mk.injEq] at h
          obtain ⟨hir2, hcc⟩ := h
          subst hcc
          obtain ⟨sizes, hch, hidx, hdata, hpos⟩ := decodeOps_chain _ _ _ _ _ _ _ _ _ hops
          refine ⟨hdata, 1, mn, sizes, ir₁,
            Or.inr ⟨by rw [← hbv1]; exact h30, rfl⟩, hch, ?_, ?_⟩
          · rw [← hir2]
            simpa using hidx
          · have hp : c₃.pos = c.pos + 1 + sizes.sum := hpos
            omega

/-- Claim C3 witness: `decode_instruction` on the one-byte stream `00`
(`halt`, no operands). -/
theorem C3_decode_instruction_cursor_witness :
    ∃ ir₂ c₂, decodeInstruction Decoder.new ⟨[0x00], 0⟩ = .ok (ir₂, c₂) ∧
      (c₂.data = ([0x00] : List Nat) ∧
       ∃ (opLen : Nat) (mn : Mnemonic) (sizes : List Nat) (ir₁ : Instruction),
         ((([0x00] : List Nat).getD 0 0 = 0x30 ∧ opLen = 2) ∨
          (([0x00] : List Nat).getD 0 0 ≠ 0x30 ∧ opLen = 1)) ∧
         OperandChain mn 0 Decoder.new ⟨[0x00], 0 + opLen⟩ mn.ops Option.none
           sizes ir₁ c₂ ∧
         ir₂.operand_count = sizes.length ∧
         c₂.pos = 0 + opLen + sizes.sum) :=
  ⟨_, _, rfl, C3_decode_instruction_cursor Decoder.new ⟨[0x00], 0⟩ _ _ rfl⟩

/-! ## COFF loop lemmas -/

theorem readRelocs_len : ∀ (n : Nat) (c : Cursor) (l : List RelocationEntry)
    (c₁ : Cursor), readRelocs n c = some (l, c₁) → l.length = n := by
  intro n
  induction n with
  | zero =>
    intro c l c₁ h
    simp only [readRelocs, Option.some.injEq, Prod.mk.injEq] at h
    obtain ⟨h1, -⟩ := h
    subst h1
    rfl
  | succ k ih =>
    intro c l c₁ h
    simp only [readRelocs] at h
    cases h0 : readU32be c with
    | none => rw [h0] at h; simp at h
    | some p =>
      obtain ⟨vaddr, ca⟩ := p
      rw [h0] at h
      simp only [Option.bind_eq_bind, Option.some_bind] at h
      cases h1 : readU32be ca with
      | none => rw [h1] at h; simp at h
      | some q =>
        obtain ⟨symndx, cb⟩ := q
        rw [h1] at h
        simp only [Option.some_bind] at h
        cases h2 : readU16be cb with
        | none => rw [h2] at h; simp at h
        | some r2 =>
          obtain ⟨rtype, cc⟩ := r2
          rw [h2] at h
          simp only [Option.some_bind] at h
          cases h3 : readRelocs k cc with
          | none => rw [h3] at h; simp at h
          | some r3 =>
            obtain ⟨rest, cd⟩ := r3
            rw [h3] at h
            simp only [Option.some_bind, Option.some.injEq, Prod.mk.injEq] at h
            obtain ⟨hl, -⟩ := h
            rw [← hl, List.length_cons, ih _ _ _ h3]
  
theorem readBytes_len : ∀ (n : Nat) (c : Cursor) (l : List Nat) (c₁ : Cursor),
    readBytes n c = some (l, c₁) → l.length = n := by
  intro n
  induction n with
  | zero =>
    intro c l c₁ h
    simp only [readBytes, Option.some.injEq, Prod.mk.injEq] at h
    obtain ⟨h1, -⟩ := h
    subst h1
    rfl
  | succ k ih =>
    intro c l c₁ h
    simp only [readBytes] at h
    cases h0 : readU8 c with
    | none => rw [h0] at h; simp at h
    | some p =>
      obtain ⟨b, ca⟩ := p
      rw [h0] at h
      simp only [Option.bind_eq_bind, Option.some_bind] at h
      cases h1 : readBytes k ca with
      | none => rw [h1] at h; simp at h
      | some q =>
        obtain ⟨rest, cb⟩ := q
        rw [h1] at h
        simp only [Option.some_bind, Option.some.injEq, Prod.mk.injEq] at h
        obtain ⟨hl, -⟩ := h
        rw [← hl, List.length_cons, ih _ _ _ h1]

theorem readSectionHeaders_len : ∀ (n : Nat) (c : Cursor) (l : List SectionHeader)
    (c₁ : Cursor), readSectionHeaders n c = some (l, c₁) → l.length = n := by
  intro n
  induction n with
  | zero =>
    intro c l c₁ h
    simp only [readSectionHeaders, Option.some.injEq, Prod.mk.injEq] at h
    obtain ⟨h1, -⟩ := h
    subst h1
    rfl
  | succ k ih =>
    intro c l c₁ h
    simp only [readSectionHeaders] at h
    cases h0 : SectionHeader.read c with
    | none => rw [h0] at h; simp at h
    | some p =>
      obtain ⟨sh, ca⟩ := p
      rw [h0] at h
      simp only [Option.bind_eq_bind, Option.some_bind] at h
      cases h1 : readSectionHeaders k ca with
      | none => rw [h1] at h; simp at h
      | some q =>
        obtain ⟨rest, cb⟩ := q
        rw [h1] at h
        simp only [Option.some_bind, Option.some.injEq, Prod.mk.injEq] at h
        obtain ⟨hl, -⟩ := h
        rw [← hl, List.length_cons, ih _ _ _ h1]

theorem readSectionBodies_spec : ∀ (hs : List SectionHeader) (c : Cursor)
    (secs : List Section) (c₁ : Cursor),
    readSectionBodies hs c = some (secs, c₁) →
    secs.length = hs.length ∧
      ∀ s ∈ secs, s.relocation_table.length = s.header.nreloc ∧
        s.data.length = s.header.size := by
  intro hs
  induction hs with
  | nil =>
    intro c secs c₁ h
    simp only [readSectionBodies, Option.some.injEq, Prod.mk.injEq] at h
    obtain ⟨h1, -⟩ := h
    subst h1
    exact ⟨rfl, by simp⟩
  | cons hd tl ih =>
    intro c secs c₁ h
    simp only [readSectionBodies] at h
    split at h
    case isTrue hn =>
      cases h0 : readRelocs hd.nreloc (c.seek hd.relptr) with
      | none => rw [h0] at h; simp at h
      | some p =>
        obtain ⟨reloc, ca⟩ := p
        rw [h0] at h
        simp only [Option.bind_eq_bind, Option.some_bind] at h
        have hreloc : reloc.length = hd.nreloc := readRelocs_len _ _ _ _ h0
        split at h
        case isTrue hsz =>
          cases h1 : readBytes hd.size (ca.seek hd.scnptr) with
          | none => rw [h1] at h; simp at h
          | some q =>
            obtain ⟨dat, cb2⟩ := q
            rw [h1] at h
            simp only [Option.bind_eq_bind, Option.some_bind] at h
            have hdat : dat.length = hd.size := readBytes_len _ _ _ _ h1
            cases h2 : readSectionBodies tl cb2 with
            | none => rw [h2] at h; simp at h
            | some r2 =>
              obtain ⟨rest, cc⟩ := r2
              rw [h2] at h
              simp only [Option.bind_eq_bind, Option.some_bind, Option.some.injEq,
                Prod.mk.injEq] at h
              obtain ⟨hl, -⟩ := h
              obtain ⟨hlen, hprop⟩ := ih _ _ _ h2
              rw [← hl]
              refine ⟨by simp [hlen], ?_⟩
              intro s hsm
              rcases List.mem_cons.mp hsm with hsm | hsm
              · subst hsm
                exact ⟨hreloc, hdat⟩
              · exact hprop s hsm
        case isFalse hsz =>
          try simp only [Option.bind_eq_bind, Option.some_bind] at h
          have hdat : ([] : List Nat).length = hd.size := by simp; omega
          cases h2 : readSectionBodies tl ca with
          | none => rw [h2] at h; simp at h
          | some r2 =>
            obtain ⟨rest, cc⟩ := r2
            rw [h2] at h
            simp only [Option.bind_eq_bind, Option.some_bind, Option.some.injEq,
              Prod.mk.injEq] at h
            obtain ⟨hl, -⟩ := h
            obtain ⟨hlen, hprop⟩ := ih _ _ _ h2
            rw [← hl]
            refine ⟨by simp [hlen], ?_⟩
            intro s hsm
            rcases List.mem_cons.mp hsm with hsm | hsm
            · subst hsm
              exact ⟨hreloc, hdat⟩
            · exact hprop s hsm
    case isFalse hn =>
      try simp only [Option.bind_eq_bind, Option.some_bind] at h
      have hreloc : ([] : List RelocationEntry).length = hd.nreloc := by simp; omega
      split at h
      case isTrue hsz =>
        cases h1 : readBytes hd.size (c.seek hd.scnptr) with
        | none => rw [h1] at h; simp at h
        | some q =>
          obtain ⟨dat, cb2⟩ := q
          rw [h1] at h
          simp only [Option.bind_eq_bind, Option.some_bind] at h
          have hdat : dat.length = hd.size := readBytes_len _ _ _ _ h1
          cases h2 : readSectionBodies tl cb2 with
          | none => rw [h2] at h; simp at h
          | some r2 =>
            obtain ⟨rest, cc⟩ := r2
            rw [h2] at h
            simp only [Option.bind_eq_bind, Option.some_bind, Option.some.injEq,
              Prod.mk.injEq] at h
            obtain ⟨hl, -⟩ := h
            obtain ⟨hlen, hprop⟩ := ih _ _ _ h2
            rw [← hl]
            refine ⟨by simp [hlen], ?_⟩
            intro s hsm
            rcases List.mem_cons.mp hsm with hsm | hsm
            · subst hsm
              exact ⟨hreloc, hdat⟩
            · exact hprop s hsm
      case isFalse hsz =>
        try simp only [Option.bind_eq_bind, Option.some_bind] at h
        have hdat : ([] : List Nat).length = hd.size := by simp; omega
        cases h2 : readSectionBodies tl c with
        | none => rw [h2] at h; simp at h
        | some r2 =>
          obtain ⟨rest, cc⟩ := r2
          rw [h2] at h
          simp only [Option.bind_eq_bind, Option.some_bind, Option.some.injEq,
            Prod.mk.injEq] at h
          obtain ⟨hl, -⟩ := h
          obtain ⟨hlen, hprop⟩ := ih _ _ _ h2
          rw [← hl]
          refine ⟨by simp [hlen], ?_⟩
          intro s hsm
          rcases List.mem_cons.mp hsm with hsm | hsm
          · subst hsm
            exact ⟨hreloc, hdat⟩
          · exact hprop s hsm

theorem readSections_spec (fh : FileHeader) (c : Cursor) (secs : List Section)
    (c₁ : Cursor) (h : readSections fh c = some (secs, c₁)) :
    secs.length = fh.section_count ∧
      ∀ s ∈ secs, s.relocation_table.length = s.header.nreloc ∧
        s.data.length = s.header.size := by
  unfold readSections at h
  cases h0 : readSectionHeaders fh.section_count c with
  | none => rw [h0] at h; simp at h
  | some p =>
    obtain ⟨headers, ca⟩ := p
    rw [h0] at h
    simp only [Option.bind_eq_bind, Option.some_bind] at h
    obtain ⟨hlen, hprop⟩ := readSectionBodies_spec _ _ _ _ h
    exact ⟨by rw [hlen, readSectionHeaders_len _ _ _ _ h0], hprop⟩

theorem readSymbol_ok {c : Cursor} {ia : Bool} {pc : StorageClass} {s : Symbol}
    {c₁ : Cursor} (h : readSymbol c ia pc = some (s, c₁)) :
    c₁.data = c.data ∧ c₁.pos = c.pos + 18 ∧
    (ia = true → isAuxSym s = true) ∧
    (ia = false → ∃ nm z off v sc t na cl, s = Symbol.primary nm z off v sc t na cl) := by
  unfold readSymbol at h
  cases hre : readExact c 18 with
  | none => rw [hre] at h; simp at h
  | some p =>
    obtain ⟨raw, cr⟩ := p
    rw [hre] at h
    obtain ⟨-, -, -, hcr⟩ := readExact_some hre
    subst hcr
    simp only [Option.bind_eq_bind, Option.some_bind] at h
    cases ia with
    | true =>
      simp only [if_pos] at h
      simp only [Option.some.injEq, Prod.mk.injEq] at h
      obtain ⟨hs, hcc⟩ := h
      subst hcc
      refine ⟨rfl, rfl, fun _ => ?_, fun hff => absurd hff (by decide)⟩
      rw [← hs]
      rfl
    | false =>
      simp only [Bool.false_eq_true, if_false] at h
      simp only [Option.some.injEq, Prod.mk.injEq] at h
      obtain ⟨hs, hcc⟩ := h
      subst hcc
      refine ⟨rfl, rfl, fun hff => absurd hff (by decide), fun _ => ?_⟩
      exact ⟨_, _, _, _, _, _, _, _, hs.symm⟩

theorem readSymbolLoop_pos : ∀ (n : Nat) (ia : Bool) (ai : Nat)
    (sc : StorageClass) (c : Cursor) (syms : List SymbolTableEntry) (c₁ : Cursor),
    readSymbolLoop n ia ai sc c = some (syms, c₁) →
    c₁.data = c.data ∧ c₁.pos = c.pos + 18 * n ∧ syms.length = n := by
  intro n
  induction n with
  | zero =>
    intro ia ai sc c syms c₁ h
    simp only [readSymbolLoop, Option.some.injEq, Prod.mk.injEq] at h
    obtain ⟨hl, hc⟩ := h
    subst hc
    exact ⟨rfl, by omega, by rw [← hl]; rfl⟩
  | succ k ih =>
    intro ia ai sc c syms c₁ h
    simp only [readSymbolLoop] at h
    cases hs : readSymbol c ia sc with
    | none => rw [hs] at h; simp at h
    | some p =>
      obtain ⟨sym, ca⟩ := p
      rw [hs] at h
      simp only [Option.bind_eq_bind, Option.some_bind] at h
      obtain ⟨hdat, hpos, -, -⟩ := readSymbol_ok hs
      rw [Option.bind_eq_some] at h
      obtain ⟨⟨rest, cd⟩, heq, hfin⟩ := h
      simp only [Option.some.injEq, Prod.mk.injEq] at hfin
      obtain ⟨hl, hc⟩ := hfin
      subst hc
      obtain ⟨hd2, hp2, hlen2⟩ := ih _ _ _ _ _ _ heq
      refine ⟨by rw [hd2, hdat], by rw [hp2, hpos]; ring, ?_⟩
      rw [← hl, List.length_cons, hlen2]

/-- Invariant of the symbol loop: starting with `pending = aux_index` owed
auxiliaries (0 when `is_aux` is false), the decoded sequence satisfies
`auxRunOk`. -/
theorem readSymbolLoop_wf : ∀ (n : Nat) (ia : Bool) (ai : Nat) (sc : StorageClass)
    (c : Cursor) (syms : List SymbolTableEntry) (c₁ : Cursor),
    readSymbolLoop n ia ai sc c = some (syms, c₁) →
    (ia = true → 0 < ai) →
    auxRunOk (syms.map SymbolTableEntry.symbol) (if ia then ai else 0) = true := by
  intro n
  induction n with
  | zero =>
    intro ia ai sc c syms c₁ h hpre
    simp only [readSymbolLoop, Option.some.injEq, Prod.mk.injEq] at h
    obtain ⟨hl, -⟩ := h
    rw [← hl]
    simp [auxRunOk]
  | succ k ih =>
    intro ia ai sc c syms c₁ h hpre
    simp only [readSymbolLoop] at h
    cases hs : readSymbol c ia sc with
    | none => rw [hs] at h; simp at h
    | some p =>
      obtain ⟨sym, ca⟩ := p
      rw [hs] at h
      simp only [Option.bind_eq_bind, Option.some_bind] at h
      obtain ⟨-, -, hauxs, hprims⟩ := readSymbol_ok hs
      cases ia with
      | true =>
        have haux := hauxs rfl
        cases sym with
        | primary nm z off v scn t na cl => simp [isAuxSym] at haux
        | auxiliary fn tg ln sz fs lp en dm tv =>
          have h0 : 0 < ai := hpre rfl
          obtain ⟨m, rfl⟩ : ∃ m, ai = m + 1 := ⟨ai - 1, by omega⟩
          dsimp only at h
          simp only [Nat.add_sub_cancel] at h
          by_cases hm : m = 0
          · subst hm
            rw [if_pos rfl] at h
            try dsimp only at h
            rw [Option.bind_eq_some] at h
            obtain ⟨⟨rest, cd⟩, heq, hfin⟩ := h
            simp only [Option.some.injEq, Prod.mk.injEq] at hfin
            obtain ⟨hl, -⟩ := hfin
            rw [← hl]
            have hrec := ih _ _ _ _ _ _ heq (fun hff => absurd hff (by decide))
            simp only [List.map_cons]
            simp only [auxRunOk, isAuxSym, Bool.true_and]
            simpa using hrec
          · rw [if_neg hm] at h
            try dsimp only at h
            rw [Option.bind_eq_some] at h
            obtain ⟨⟨rest, cd⟩, heq, hfin⟩ := h
            simp only [Option.some.injEq, Prod.mk.injEq] at hfin
            obtain ⟨hl, -⟩ := hfin
            rw [← hl]
            have hrec := ih _ _ _ _ _ _ heq (fun _ => Nat.pos_of_ne_zero hm)
            simp only [List.map_cons]
            simp only [auxRunOk, isAuxSym, Bool.true_and]
            simpa using hrec
      | false =>
        obtain ⟨nm, z, off, v, scn, t, na, cl, rfl⟩ := hprims rfl
        rw [if_neg (show ¬ (false = true) from by decide)] at h
        dsimp only at h
        by_cases hna : na > 0
        · rw [if_pos hna] at h
          dsimp only at h
          rw [Option.bind_eq_some] at h
          obtain ⟨⟨rest, cd⟩, heq, hfin⟩ := h
          simp only [Option.some.injEq, Prod.mk.injEq] at hfin
          obtain ⟨hl, -⟩ := hfin
          rw [← hl]
          have hrec := ih _ _ _ _ _ _ heq (fun _ => hna)
          simp only [List.map_cons]
          simp only [auxRunOk]
          simpa using hrec
        · rw [if_neg hna] at h
          dsimp only at h
          rw [Option.bind_eq_some] at h
          obtain ⟨⟨rest, cd⟩, heq, hfin⟩ := h
          simp only [Option.some.injEq, Prod.mk.injEq] at hfin
          obtain ⟨hl, -⟩ := hfin
          rw [← hl]
          have hrec := ih _ _ _ _ _ _ heq (fun hff => absurd hff (by decide))
          have hna0 : na = 0 := by omega
          subst hna0
          simp only [List.map_cons]
          simp only [auxRunOk]
          simpa using hrec

theorem readSymbolTable_len {header : FileHeader} {c : Cursor}
    {syms : List SymbolTableEntry} {c₁ : Cursor}
    (h : readSymbolTable header c = some (syms, c₁)) :
    syms.length = header.symbol_count := by
  unfold readSymbolTable at h
  split at h
  · exact (readSymbolLoop_pos _ _ _ _ _ _ _ h).2.2
  · rename_i hz
    simp only [Option.some.injEq, Prod.mk.injEq] at h
    obtain ⟨hl, -⟩ := h
    rw [← hl]
    simp
    omega

/-- Claim C8 (amended): when `symbol_count > 0`, `read_symbol_table` leaves
the cursor at `symbol_table_offset + 18 * symbol_count`, immediately past
the last symbol record (where `FileContainer::read` then reads the string
table); when `symbol_count = 0` there is no seek and the cursor is returned
unchanged — NOT at `symbol_table_offset` as the unconditional claim
requires. -/
theorem C8_symbol_table_cursor (header : FileHeader) (c : Cursor)
    (syms : List SymbolTableEntry) (c₁ : Cursor)
    (h : readSymbolTable header c = some (syms, c₁)) :
    (0 < header.symbol_count →
      c₁.data = c.data ∧
      c₁.pos = header.symbol_table_offset + 18 * header.symbol_count) ∧
    (header.symbol_count = 0 → c₁ = c ∧ syms = []) := by
  unfold readSymbolTable at h
  split at h
  · rename_i hpos
    obtain ⟨hd, hp, -⟩ := readSymbolLoop_pos _ _ _ _ _ _ _ h
    exact ⟨fun _ => ⟨hd, hp⟩, fun hz => absurd hpos (by omega)⟩
  · rename_i hnpos
    simp only [Option.some.injEq, Prod.mk.injEq] at h
    obtain ⟨hl, hc⟩ := h
    exact ⟨fun hpos => absurd hpos hnpos, fun _ => ⟨hc.symm, hl.symm⟩⟩

/-- Claim C8 counterexample: with `symbol_count = 0` the reader does not
seek, so for a header with `symbol_table_offset = 100` and a cursor at
position 0 the final position is 0, not `symbol_table_offset + 18 × 0`. -/
theorem C8_counterexample_zero_count :
    readSymbolTable hdrZeroSymbols ⟨[], 0⟩ = some ([], ⟨[], 0⟩) ∧
    (⟨[], 0⟩ : Cursor).pos ≠
      hdrZeroSymbols.symbol_table_offset + 18 * hdrZeroSymbols.symbol_count :=
  ⟨rfl, by decide⟩

/-- Claim C8 witness: one 18-byte record at offset 0 leaves the cursor at
position 18. -/
theorem C8_symbol_table_cursor_witness :
    ∃ syms c₁, readSymbolTable hdrOneSymbol ⟨List.replicate 18 0, 0⟩ =
        some (syms, c₁) ∧
      ((0 < hdrOneSymbol.symbol_count →
        c₁.data = List.replicate 18 0 ∧
        c₁.pos = hdrOneSymbol.symbol_table_offset + 18 * hdrOneSymbol.symbol_count) ∧
       (hdrOneSymbol.symbol_count = 0 →
        c₁ = ⟨List.replicate 18 0, 0⟩ ∧ syms = [])) :=
  ⟨_, _, rfl, C8_symbol_table_cursor hdrOneSymbol ⟨List.replicate 18 0, 0⟩ _ _ rfl⟩

/-- Dissection of a successful `FileContainer::read`: the magic was
accepted, the optional header is present exactly when the size field is
nonzero, and sections, symbols and strings come from successful region
reads in sequence. -/
theorem FileContainer_read_parts (buf : List Nat) (cont : FileContainer)
    (h : FileContainer.read buf = .ok cont) :
    (cont.header.magic = MAGIC_WE32K ∨ cont.header.magic = MAGIC_WE32K_TV) ∧
    (cont.opt_header.isSome ↔ cont.header.opt_header ≠ 0) ∧
    ∃ c₂ c₃ c₄ c₅,
      readSections cont.header c₂ = some (cont.sections, c₃) ∧
      readSymbolTable cont.header c₃ = some (cont.symbols, c₄) ∧
      StringTable.read c₄ = some (cont.strings, c₅) := by
  unfold FileContainer.read at h
  dsimp only at h
  cases hfh : FileHeader.read ⟨buf, 0⟩ with
  | none => rw [hfh] at h; simp at h
  | some p =>
    obtain ⟨header, c1⟩ := p
    rw [hfh] at h
    dsimp only at h
    by_cases hbm : badMetadata header
    · rw [if_pos hbm] at h
      simp at h
    · rw [if_neg hbm] at h
      split at h
      · simp at h
      · rename_i q hq
        obtain ⟨opt, c2⟩ := q
        split at h
        · simp at h
        · rename_i q2 hq2
          obtain ⟨sections, c3⟩ := q2
          split at h
          · simp at h
          · rename_i q3 hq3
            obtain ⟨symbols, c4⟩ := q3
            split at h
            · simp at h
            · rename_i q4 hq4
              obtain ⟨strings, c5⟩ := q4
              simp only [Except.ok.injEq] at h
              subst h
              refine ⟨?_, ?_, _, _, _, _, hq2, hq3, hq4⟩
              · simp only [badMetadata] at hbm
                simp only [Bool.not_eq_true', Bool.not_eq_false, Bool.or_eq_true,
                  beq_iff_eq] at hbm
                simpa [MAGIC_WE32K, MAGIC_WE32K_TV] using hbm
              · by_cases hgt : header.opt_header > 0
                · rw [if_pos hgt] at hq
                  cases hoh : OptionalHeader.read c1 with
                  | none => rw [hoh] at hq; simp at hq
                  | some r =>
                    obtain ⟨ohv, c2x⟩ := r
                    rw [hoh] at hq
                    simp only [Option.some.injEq, Prod.mk.injEq] at hq
                    obtain ⟨hopt, -⟩ := hq
                    rw [← hopt]
                    simp
                    omega
                · rw [if_neg hgt] at hq
                  simp only [Option.some.injEq, Prod.mk.injEq] at hq
                  obtain ⟨hopt, -⟩ := hq
                  rw [← hopt]
                  simp
                  omega

/-- Claim C6: every successfully parsed container has
`section_count = |sections|`, `symbol_count = |symbols|` (primaries and
auxiliaries both counted), and per section `|data| = header.size` and
`|relocations| = header.nreloc`. -/
theorem C6_container_counts (buf : List Nat) (cont : FileContainer)
    (h : FileContainer.read buf = .ok cont) :
    cont.sections.length = cont.header.section_count ∧
    cont.symbols.length = cont.header.symbol_count ∧
    ∀ s ∈ cont.sections, s.data.length = s.header.size ∧
      s.relocation_table.length = s.header.nreloc := by
  obtain ⟨-, -, c₂, c₃, c₄, c₅, hsec, hsym, -⟩ := FileContainer_read_parts buf cont h
  obtain ⟨hlen, hprop⟩ := readSections_spec _ _ _ _ hsec
  exact ⟨hlen, readSymbolTable_len hsym,
    fun s hs => ⟨(hprop s hs).2, (hprop s hs).1⟩⟩

/-- Claim C6 witness: the minimal 24-byte container (no sections, no
symbols). -/
theorem C6_container_counts_witness :
    ∃ cont, FileContainer.read bufMinimal = .ok cont ∧
      (cont.sections.length = cont.header.section_count ∧
       cont.symbols.length = cont.header.symbol_count ∧
       ∀ s ∈ cont.sections, s.data.length = s.header.size ∧
         s.relocation_table.length = s.header.nreloc) :=
  ⟨_, rfl, C6_container_counts bufMinimal _ rfl⟩

/-- Claim C7 (amended): every successfully parsed container has magic
`0x0170` or `0x0171`, and the optional header is present exactly when the
file header's `opt_header` size field is NONZERO; the code never checks the
field against 28 (see the counterexample). -/
theorem C7_header_invariants (buf : List Nat) (cont : FileContainer)
    (h : FileContainer.read buf = .ok cont) :
    (cont.header.magic = 0x170 ∨ cont.header.magic = 0x171) ∧
    (cont.opt_header.isSome ↔ cont.header.opt_header ≠ 0) :=
  ⟨(FileContainer_read_parts buf cont h).1, (FileContainer_read_parts buf cont h).2.1⟩

/-- Claim C7 counterexample: a buffer whose file header says
`opt_header = 1` parses successfully, with the 28-byte optional header read
anyway — `opt_header ≠ 0` does not imply `opt_header = 28`, and presence is
governed by nonzero, not by 28. -/
theorem C7_counterexample_opt_header_one :
    (FileContainer.read bufOptHeader1).map
      (fun cont => (cont.header.opt_header, cont.opt_header.isSome)) =
      .ok (1, true) ∧ (1 : Nat) ≠ 28 := ⟨rfl, by decide⟩

/-- Claim C7 witness: the minimal container (no optional header). -/
theorem C7_header_invariants_witness :
    ∃ cont, FileContainer.read bufMinimal = .ok cont ∧
      ((cont.header.magic = 0x170 ∨ cont.header.magic = 0x171) ∧
       (cont.opt_header.isSome ↔ cont.header.opt_header ≠ 0)) :=
  ⟨_, rfl, C7_header_invariants bufMinimal _ rfl⟩

/-- Claim C5 (amended): in every successfully parsed container the symbol
sequence is a series of blocks — one primary followed by `min(numaux,
entries remaining)` auxiliaries — so no auxiliary appears without a
preceding primary that declared it, and a primary with `numaux = k` is
followed by exactly `k` auxiliaries unless `symbol_count` cuts the final
block short (see the counterexample for the unconditional "exactly k"). -/
theorem C5_aux_runs (buf : List Nat) (cont : FileContainer)
    (h : FileContainer.read buf = .ok cont) :
    auxRunOk (cont.symbols.map SymbolTableEntry.symbol) 0 = true := by
  obtain ⟨-, -, c₂, c₃, c₄, c₅, -, hsym, -⟩ := FileContainer_read_parts buf cont h
  unfold readSymbolTable at hsym
  split at hsym
  · have hwf := readSymbolLoop_wf _ _ _ _ _ _ _ hsym (fun hff => absurd hff (by decide))
    simpa using hwf
  · simp only [Option.some.injEq, Prod.mk.injEq] at hsym
    obtain ⟨hl, -⟩ := hsym
    rw [← hl]
    rfl

/-- Claim C5 counterexample: a container whose single symbol is a primary
with `numaux = 1` parses successfully although no auxiliary follows — the
strict "followed by exactly k auxiliaries" predicate is false on it. -/
theorem C5_counterexample_truncated_aux :
    (FileContainer.read bufTruncatedAux).map
      (fun cont => (cont.symbols.map SymbolTableEntry.symbol,
        auxRunExact (cont.symbols.map SymbolTableEntry.symbol) 0)) =
      .ok ([Symbol.primary [65, 0, 0, 0, 0, 0, 0, 0] 0x41000000 0 0 0 0 1
        StorageClass.externalSym], false) := rfl

/-- Claim C5 witness: the lenient run predicate holds on the truncated-aux
container (and on every successful parse). -/
theorem C5_aux_runs_witness :
    ∃ cont, FileContainer.read bufTruncatedAux = .ok cont ∧
      auxRunOk (cont.symbols.map SymbolTableEntry.symbol) 0 = true :=
  ⟨_, rfl, C5_aux_runs bufTruncatedAux _ rfl⟩

/-! ## String table (claims C9, C10) -/

theorem stringTableLoop_data : ∀ (n j i : Nat) (data : List Nat)
    (strings : List (Nat × List Nat)) (c : Cursor) (d₁ : List Nat)
    (s₁ : List (Nat × List Nat)) (c₁ : Cursor),
    stringTableLoop n j i data strings c = some (d₁, s₁, c₁) →
    ∃ suffix, d₁ = data ++ suffix := by
  intro n
  induction n with
  | zero =>
    intro j i data strings c d₁ s₁ c₁ h
    simp only [stringTableLoop, Option.some.injEq, Prod.mk.injEq] at h
    obtain ⟨hd, -⟩ := h
    exact ⟨[], by rw [← hd]; simp⟩
  | succ k ih =>
    intro j i data strings c d₁ s₁ c₁ h
    simp only [stringTableLoop] at h
    cases hrd : readU8 c with
    | none => rw [hrd] at h; simp at h
    | some p =>
      obtain ⟨ch, ca⟩ := p
      rw [hrd] at h
      simp only [Option.bind_eq_bind, Option.some_bind] at h
      by_cases hz : ch = 0
      · rw [if_pos hz] at h
        obtain ⟨suffix, hsuf⟩ := ih _ _ _ _ _ _ _ _ h
        exact ⟨ch :: suffix, by rw [hsuf]; simp⟩
      · rw [if_neg hz] at h
        obtain ⟨suffix, hsuf⟩ := ih _ _ _ _ _ _ _ _ h
        exact ⟨ch :: suffix, by rw [hsuf]; simp⟩

theorem StringTable_read_data {c : Cursor} {t : StringTable} {c₁ : Cursor}
    (h : StringTable.read c = some (t, c₁)) :
    ∃ suffix, t.data = [0, 0, 0, 0] ++ suffix := by
  unfold StringTable.read at h
  cases hds : readU32be c with
  | none => rw [hds] at h; simp at h
  | some p =>
    obtain ⟨data_size, ca⟩ := p
    rw [hds] at h
    simp only [Option.bind_eq_bind, Option.some_bind] at h
    rw [Option.bind_eq_some] at h
    obtain ⟨⟨d, s, cx⟩, hloop, hfin⟩ := h
    simp only [Option.some.injEq, Prod.mk.injEq] at hfin
    obtain ⟨ht, -⟩ := hfin
    obtain ⟨suffix, hsuf⟩ := stringTableLoop_data _ _ _ _ _ _ _ _ _ hloop
    exact ⟨suffix, by rw [← ht]; exact hsuf⟩

theorem utf8Valid_nil : utf8Valid [] = true := rfl

theorem findIdx?_zero_of (l : List Nat) (k : Nat) (hk : k < l.length)
    (hzero : l.getD k 0 = 0) (hbefore : ∀ m, m < k → l.getD m 0 ≠ 0) :
    l.findIdx? (fun c => c == 0) = some k := by
  apply List.findIdx?_eq_some_iff_getElem.mpr
  have hget : ∀ (m : Nat) (hm : m < l.length), l[m] = l.getD m 0 := by
    intro m hm
    rw [List.getD_eq_getElem?_getD, List.getElem?_eq_getElem hm]
    rfl
  refine ⟨hk, ?_, ?_⟩
  · rw [hget k hk, hzero]
    rfl
  · intro j hji
    have hj : j < l.length := by omega
    have hne : l.get ⟨j, hj⟩ ≠ 0 := by
      rw [List.get_eq_getElem, hget j hj]
      exact hbefore j hji
    simpa using hne

/-- Claim C9: for every successfully read string table, `string_at` at an
offset followed (at position `j`) by a first NUL returns the bytes
`[offset, j)` decoded as UTF-8, or a UTF-8 error when they are not valid
UTF-8; offset 0 is always valid and returns the empty string. -/
theorem C9_string_at (c : Cursor) (t : StringTable) (c₁ : Cursor)
    (h : StringTable.read c = some (t, c₁)) :
    t.string_at 0 = StrAtResult.ok [] ∧
    ∀ i j : Nat, i ≤ j → j < t.data.length → t.data.getD j 0 = 0 →
      (∀ k, i ≤ k → k < j → t.data.getD k 0 ≠ 0) →
      t.string_at i =
        (if utf8Valid ((t.data.drop i).take (j - i)) then
          StrAtResult.ok ((t.data.drop i).take (j - i)) else StrAtResult.utf8Err) := by
  have hmain : ∀ i j : Nat, i ≤ j → j < t.data.length → t.data.getD j 0 = 0 →
      (∀ k, i ≤ k → k < j → t.data.getD k 0 ≠ 0) →
      t.string_at i =
        (if utf8Valid ((t.data.drop i).take (j - i)) then
          StrAtResult.ok ((t.data.drop i).take (j - i)) else StrAtResult.utf8Err) := by
    intro i j hij hjlen hj0 hbef
    unfold StringTable.string_at
    rw [if_neg (show ¬ (i > t.data.length) from by omega)]
    have hdg : ∀ m : Nat, (t.data.drop i).getD m 0 = t.data.getD (i + m) 0 := by
      intro m
      rw [List.getD_eq_getElem?_getD, List.getD_eq_getElem?_getD, List.getElem?_drop]
    have hfind : (t.data.drop i).findIdx? (fun c => c == 0) = some (j - i) := by
      apply findIdx?_zero_of
      · rw [List.length_drop]
        omega
      · rw [hdg, show i + (j - i) = j from by omega]
        exact hj0
      · intro m hm
        rw [hdg]
        exact hbef (i + m) (by omega) (by omega)
    rw [hfind]
    rfl
  refine ⟨?_, hmain⟩
  obtain ⟨suffix, hsuf⟩ := StringTable_read_data h
  have h0 : t.data.getD 0 0 = 0 := by rw [hsuf]; rfl
  have hlen : 0 < t.data.length := by rw [hsuf]; simp
  have := hmain 0 0 (Nat.le_refl 0) hlen h0 (fun k hk1 hk2 => by omega)
  simpa [utf8Valid_nil] using this

/-- Claim C9 witness: the table read from size 9 and bytes `main\0`;
offset 4 resolves to `main`, offset 0 to the empty string. -/
theorem C9_string_at_witness :
    ∃ t c₁, StringTable.read ⟨[0, 0, 0, 9, 109, 97, 105, 110, 0], 0⟩ =
        some (t, c₁) ∧
      t.string_at 0 = StrAtResult.ok [] ∧
      t.string_at 4 =
        (if utf8Valid ((t.data.drop 4).take (8 - 4)) then
          StrAtResult.ok ((t.data.drop 4).take (8 - 4)) else StrAtResult.utf8Err) :=
  ⟨_, _, rfl,
    (C9_string_at ⟨[0, 0, 0, 9, 109, 97, 105, 110, 0], 0⟩ _ _ rfl).1,
    (C9_string_at ⟨[0, 0, 0, 9, 109, 97, 105, 110, 0], 0⟩ _ _ rfl).2 4 8
      (by decide) (by decide) (by decide)
      (by intro k hk1 hk2; interval_cases k <;> decide)⟩

/-- Claim C10: `string_at` is not total over arbitrary indices — with
`L = |data|` (the 4 synthesized zero bytes plus the bytes read), an index
strictly above `L` panics on the slice `data[start..]`, index `= L` returns
the empty string, and indices `≤ L` never panic, so callers must keep
`index ≤ L`. -/
theorem C10_string_at_bounds (c : Cursor) (t : StringTable) (c₁ : Cursor)
    (h : StringTable.read c = some (t, c₁)) :
    ∀ index : Nat,
      (index > t.data.length → t.string_at index = StrAtResult.panics) ∧
      (index = t.data.length → t.string_at index = StrAtResult.ok []) ∧
      (index ≤ t.data.length → t.string_at index ≠ StrAtResult.panics) := by
  intro index
  refine ⟨fun hgt => ?_, fun heq => ?_, fun hle => ?_⟩
  · unfold StringTable.string_at
    rw [if_pos hgt]
  · subst heq
    unfold StringTable.string_at
    rw [if_neg (by omega)]
    simp [List.drop_length, utf8Valid_nil]
  · unfold StringTable.string_at
    rw [if_neg (by omega)]
    dsimp only
    split <;> simp

/-- Claim C10 witness: the empty table (`data_size = 4`, `L = 4`): index 5
panics, index 4 yields the empty string, index 3 does not panic. -/
theorem C10_string_at_bounds_witness :
    ∃ t c₁, StringTable.read ⟨[0, 0, 0, 4], 0⟩ = some (t, c₁) ∧
      t.string_at 5 = StrAtResult.panics ∧
      t.string_at 4 = StrAtResult.ok [] ∧
      t.string_at 3 ≠ StrAtResult.panics :=
  ⟨_, _, rfl, ((C10_string_at_bounds ⟨[0, 0, 0, 4], 0⟩ _ _ rfl) 5).1 (by decide),
    ((C10_string_at_bounds ⟨[0, 0, 0, 4], 0⟩ _ _ rfl) 4).2.1 (by decide),
    ((C10_string_at_bounds ⟨[0, 0, 0, 4], 0⟩ _ _ rfl) 3).2.2 (by decide)⟩

end We32dis
